import Mathlib

/-!
# SFBAudioEngine: player graph reconfiguration and decoder creation

A shallow embedding of `Audio/Player/AudioPlayer.cpp`, `Decoders/AudioDecoder.cpp` and the
capability queries of `Metadata/MusepackMetadata.cpp`.

The AudioToolbox graph (`AUGraph*`, `AudioUnit*`) is an external collaborator.  It is embedded as
explicit state (`AUGraph`) together with a response function `hal`: the `n`-th call issued to the
toolbox returns the status `hal n`.  A call that returns `noErr` has its documented effect on the
graph, a call that returns anything else has none, and a failed query leaves its out-parameter as
the caller initialised it.  Every call is appended, with its status, to the log `calls`.
-/

namespace SFB

/-! ## Status codes and plain data -/

/-- The `OSStatus` of MacTypes.h, a signed 32-bit integer. -/
abbrev OSStatus := Int

/-- The success status. -/
def noErr : OSStatus := 0

/-- The I/O error status of MacErrors.h. -/
def ioErr : OSStatus := -36

/-- The out-of-memory status of MacErrors.h. -/
def memFullErr : OSStatus := -108

/-- The node handle `AUNode` (an `SInt32`). -/
abbrev AUNode := Int

/-- The unit handle.  `AUGraphNodeInfo` hands out the unit of a node; the embedding names a unit
by the node it belongs to, and `none` is the `NULL` handle. -/
abbrev AudioUnit := Option AUNode

/-- The three scopes the player uses. -/
inductive AudioUnitScope where
  | Global
  | Input
  | Output
  deriving DecidableEq, Repr

/-- The stream description `AudioStreamBasicDescription`.  The sample rate is a `Float64` that the
player only copies; it is kept as its 64-bit pattern. -/
structure AudioStreamBasicDescription where
  mSampleRate : Nat
  mFormatID : Nat
  mFormatFlags : Nat
  mBytesPerPacket : Nat
  mFramesPerPacket : Nat
  mBytesPerFrame : Nat
  mChannelsPerFrame : Nat
  mBitsPerChannel : Nat
  mReserved : Nat
  deriving DecidableEq, Repr

/-- The property id `kAudioUnitProperty_StreamFormat`. -/
def kAudioUnitProperty_StreamFormat : Nat := 8

/-- The property id `kAudioUnitProperty_ElementCount`. -/
def kAudioUnitProperty_ElementCount : Nat := 11

/-- A node-to-node connection, `AudioUnitNodeConnection`. -/
structure AudioUnitNodeConnection where
  sourceNode : AUNode
  sourceOutputNumber : Nat
  destNode : AUNode
  destInputNumber : Nat
  deriving DecidableEq, Repr

/-- A render callback with its context, `AURenderCallbackStruct`; both are addresses. -/
structure AURenderCallbackStruct where
  inputProc : Nat
  inputProcRefCon : Nat
  deriving DecidableEq, Repr

/-- An input-callback registration, `AUNodeRenderCallback`. -/
structure AUNodeRenderCallback where
  destNode : AUNode
  destInputNumber : Nat
  cback : AURenderCallbackStruct
  deriving DecidableEq, Repr

/-- The tagged union `AUNodeInteraction`: the toolbox defines the two interaction types
`kAUNodeInteraction_Connection` and `kAUNodeInteraction_InputCallback`. -/
inductive AUNodeInteraction where
  | connection (c : AudioUnitNodeConnection)
  | inputCallback (c : AUNodeRenderCallback)
  deriving DecidableEq, Repr

/-- One node of the graph with the unit behind it: the element counts of the unit's input and
output scopes and the properties set on it so far (most recent first). -/
structure AUGraphNode where
  node : AUNode
  inputElementCount : Nat
  outputElementCount : Nat
  properties : List (Nat × AudioUnitScope × Nat × AudioStreamBasicDescription)
  deriving DecidableEq, Repr

/-- A `Float32` value.  The player only passes such values on and compares one with zero; it is
kept as its 32-bit pattern. -/
structure Float32 where
  bits : Nat
  deriving DecidableEq, Repr

/-- The comparison `0.f == x`: positive and negative zero. -/
def Float32.isZero (x : Float32) : Bool :=
  x.bits == 0 || x.bits == 2147483648

/-- A `ComponentDescription`. -/
structure ComponentDescription where
  componentType : Nat
  componentSubType : Nat
  componentManufacturer : Nat
  componentFlags : Nat
  componentFlagsMask : Nat
  deriving DecidableEq, Repr

/-- The state of the toolbox graph.  `parameters` holds the unit parameters set so far and
`bypass` the values of `kAudioUnitProperty_BypassEffect` set so far, most recent first. -/
structure AUGraph where
  nodes : List AUGraphNode
  interactions : List AUNodeInteraction
  isInitialized : Bool
  isRunning : Bool
  isOpen : Bool := true
  parameters : List (AudioUnit × Nat × AudioUnitScope × Nat × Float32) := []
  bypass : List (AudioUnit × Nat) := []
  deriving DecidableEq, Repr

/-- The calls the player issues to the toolbox (and the one allocation it makes), with their
arguments. -/
inductive AUCall where
  | AUGraphIsRunning
  | AUGraphStop
  | AUGraphStart
  | AUGraphIsInitialized
  | AUGraphUninitialize
  | AUGraphInitialize
  | AUGraphGetNumberOfInteractions
  | AUGraphGetInteractionInfo (index : Nat)
  | AUGraphClearConnections
  | AUGraphConnectNodeInput (sourceNode : AUNode) (sourceOutputNumber : Nat) (destNode : AUNode)
      (destInputNumber : Nat)
  | AUGraphSetNodeInputCallback (destNode : AUNode) (destInputNumber : Nat)
      (cback : AURenderCallbackStruct)
  | AUGraphGetNodeCount
  | AUGraphGetIndNode (index : Nat)
  | AUGraphNodeInfo (node : AUNode)
  | AudioUnitGetProperty (au : AudioUnit) (propertyID : Nat) (scope : AudioUnitScope)
      (element : Nat)
  | AudioUnitSetProperty (au : AudioUnit) (propertyID : Nat) (scope : AudioUnitScope)
      (element : Nat) (data : AudioStreamBasicDescription)
  | calloc (count : Nat)
  | NewAUGraph
  | AUGraphAddNode (description : ComponentDescription)
  | AUGraphOpen
  | AudioUnitSetParameter (au : AudioUnit) (parameterID : Nat) (scope : AudioUnitScope)
      (element : Nat) (value : Float32)
  | AUParameterSet (au : AudioUnit) (parameterID : Nat) (scope : AudioUnitScope)
      (element : Nat) (value : Float32)
  | AudioUnitSetProperty_UInt32 (au : AudioUnit) (propertyID : Nat) (scope : AudioUnitScope)
      (element : Nat) (data : Nat)
  deriving DecidableEq, Repr

/-- The graph calls of steps 1 to 3 and 7 to 8 of `SetAUGraphFormat`: run-state queries and
changes, interaction capture, clearing and re-establishing. -/
def AUCall.isStructural : AUCall → Bool
  | .AUGraphIsRunning => true
  | .AUGraphStop => true
  | .AUGraphStart => true
  | .AUGraphIsInitialized => true
  | AUCall.AUGraphUninitialize => true
  | .AUGraphInitialize => true
  | .AUGraphGetNumberOfInteractions => true
  | .AUGraphGetInteractionInfo _ => true
  | .AUGraphClearConnections => true
  | .AUGraphConnectNodeInput _ _ _ _ => true
  | .AUGraphSetNodeInputCallback _ _ _ => true
  | _ => false

/-- The two calls that establish an interaction. -/
def AUCall.isInteraction : AUCall → Bool
  | .AUGraphConnectNodeInput _ _ _ _ => true
  | .AUGraphSetNodeInputCallback _ _ _ => true
  | _ => false

/-- The call that re-establishes a captured interaction. -/
def AUNodeInteraction.restoreCall : AUNodeInteraction → AUCall
  | .connection c =>
      .AUGraphConnectNodeInput c.sourceNode c.sourceOutputNumber c.destNode c.destInputNumber
  | .inputCallback c => .AUGraphSetNodeInputCallback c.destNode c.destInputNumber c.cback

/-! ## The player -/

/-- The buffers handed to the render callback, `AudioBufferList`: the bytes of each buffer. -/
abbrev AudioBufferList := List (List Nat)

/-- The status `CARingBufferError` of the ring buffer. -/
abbrev CARingBufferError := Int

/-- The status `kCARingBufferError_OK`. -/
def kCARingBufferError_OK : CARingBufferError := 0

/-- The status `kCARingBufferError_TooMuch`: the range asked for is not in the buffer. -/
def kCARingBufferError_TooMuch : CARingBufferError := 3

/-- Modelled from the spec: the class `CARingBuffer` is not part of the sources at hand.  By
section 4.2 `Allocate` sizes the storage, and `Fetch` copies the frames of the range asked for
out to the caller, or reports an error when the range lies outside the interval that is valid at
that moment.  That interval moves with what the producer context stores, so the outcome of the
`n`-th `Fetch` (status and buffers afterwards) is the field `fetch`; both calls are logged. -/
structure CARingBuffer where
  mNumberChannels : Nat := 0
  mBytesPerFrame : Nat := 0
  mCapacityFrames : Nat := 0
  fetch : Nat → Nat → Nat → Bool → AudioBufferList → CARingBufferError × AudioBufferList :=
    fun _ _ _ _ abl => (kCARingBufferError_TooMuch, abl)
  /-- Every `Fetch` so far: frame count, start position, whether a partial read is allowed. -/
  fetchCalls : List (Nat × Nat × Bool) := []
  /-- Every `Allocate` so far: channels, bytes per frame, capacity in frames. -/
  allocateCalls : List (Nat × Nat × Nat) := []

/-- The call `ringBuffer->Allocate(nChannels, bytesPerFrame, capacityFrames)`. -/
def CARingBuffer.Allocate (rb : CARingBuffer) (nChannels bytesPerFrame capacityFrames : Nat) :
    CARingBuffer :=
  { rb with
    mNumberChannels := nChannels, mBytesPerFrame := bytesPerFrame,
    mCapacityFrames := capacityFrames,
    allocateCalls := rb.allocateCalls ++ [(nChannels, bytesPerFrame, capacityFrames)] }

/-- The call `ringBuffer->Fetch(abl, nFrames, startRead, allowPartial)`. -/
def CARingBuffer.Fetch (rb : CARingBuffer) (abl : AudioBufferList) (nFrames : Nat)
    (startRead : Nat) (allowPartial : Bool) :
    CARingBufferError × AudioBufferList × CARingBuffer :=
  ((rb.fetch rb.fetchCalls.length nFrames startRead allowPartial abl).1,
    (rb.fetch rb.fetchCalls.length nFrames startRead allowPartial abl).2,
    { rb with fetchCalls := rb.fetchCalls ++ [(nFrames, startRead, allowPartial)] })

/-- Modelled from the spec: the class `AudioDecoder` the player plays is not part of the sources
at hand; the player asks it for its format only.  `address` tells two decoder objects apart. -/
structure AudioDecoder where
  address : Nat
  mFormat : AudioStreamBasicDescription
  deriving DecidableEq, Repr

/-- The accessor `decoder->GetFormat()`. -/
def AudioDecoder.GetFormat (decoder : AudioDecoder) : AudioStreamBasicDescription :=
  decoder.mFormat

/-- The members of `AudioPlayer` together with the toolbox it talks to.  The frame counters are
64-bit; the embedding covers the range in which they do not overflow. -/
structure AudioPlayer where
  /-- The status the toolbox returns to the call issued at each position. -/
  hal : Nat → OSStatus
  /-- The calls issued so far, oldest first, each with the status it returned. -/
  calls : List (AUCall × OSStatus)
  mAUGraph : AUGraph
  mLimiterNode : AUNode
  mOutputNode : AUNode
  mAUGraphFormat : AudioStreamBasicDescription
  mFramesDecoded : Nat
  mFramesRendered : Nat
  mRingBuffer : CARingBuffer := {}
  /-- The member `d`, the decoder being played; `none` is the null pointer. -/
  d : Option AudioDecoder := none

/-- Issue one call to the toolbox: it is logged, its status is the toolbox's response at this
position, and its effect on the graph takes place only if that status is `noErr`. -/
def AudioPlayer.call (p : AudioPlayer) (c : AUCall) (effect : AUGraph → AUGraph) :
    OSStatus × AudioPlayer :=
  if noErr ≠ p.hal p.calls.length then
    (p.hal p.calls.length, { p with calls := p.calls ++ [(c, p.hal p.calls.length)] })
  else
    (p.hal p.calls.length, { p with
      calls := p.calls ++ [(c, p.hal p.calls.length)], mAUGraph := effect p.mAUGraph })

/-- The query `AUGraphIsRunning(graph, &outIsRunning)`. -/
def AUGraphIsRunning (p : AudioPlayer) (outIsRunning : Bool) : OSStatus × Bool × AudioPlayer :=
  match p.call .AUGraphIsRunning id with
  | (result, q) =>
    if noErr ≠ result then (result, outIsRunning, q) else (result, q.mAUGraph.isRunning, q)

/-- The query `AUGraphIsInitialized(graph, &outIsInitialized)`. -/
def AUGraphIsInitialized (p : AudioPlayer) (outIsInitialized : Bool) :
    OSStatus × Bool × AudioPlayer :=
  match p.call .AUGraphIsInitialized id with
  | (result, q) =>
    if noErr ≠ result then (result, outIsInitialized, q)
    else (result, q.mAUGraph.isInitialized, q)

/-- The call `AUGraphStop(graph)`. -/
def AUGraphStop (p : AudioPlayer) : OSStatus × AudioPlayer :=
  p.call .AUGraphStop (fun g => { g with isRunning := false })

/-- The call `AUGraphStart(graph)`. -/
def AUGraphStart (p : AudioPlayer) : OSStatus × AudioPlayer :=
  p.call .AUGraphStart (fun g => { g with isRunning := true })

/-- The call `AUGraphUninitialize(graph)`. -/
def AUGraphUninitialize (p : AudioPlayer) : OSStatus × AudioPlayer :=
  p.call AUCall.AUGraphUninitialize (fun g => { g with isInitialized := false })

/-- The call `AUGraphInitialize(graph)`. -/
def AUGraphInitialize (p : AudioPlayer) : OSStatus × AudioPlayer :=
  p.call .AUGraphInitialize (fun g => { g with isInitialized := true })

/-- The query `AUGraphGetNumberOfInteractions(graph, &outNumInteractions)`. -/
def AUGraphGetNumberOfInteractions (p : AudioPlayer) (outNumInteractions : Nat) :
    OSStatus × Nat × AudioPlayer :=
  match p.call .AUGraphGetNumberOfInteractions id with
  | (result, q) =>
    if noErr ≠ result then (result, outNumInteractions, q)
    else (result, q.mAUGraph.interactions.length, q)

/-- The query `AUGraphGetInteractionInfo(graph, index, &outInteraction)`.  The record written to
is an element of a zero-initialised array: `none` is the all-zero record, whose interaction type
is neither of the two the toolbox defines. -/
def AUGraphGetInteractionInfo (p : AudioPlayer) (index : Nat)
    (outInteraction : Option AUNodeInteraction) :
    OSStatus × Option AUNodeInteraction × AudioPlayer :=
  match p.call (.AUGraphGetInteractionInfo index) id with
  | (result, q) =>
    if noErr ≠ result then (result, outInteraction, q)
    else
      match q.mAUGraph.interactions[index]? with
      | some x => (result, some x, q)
      | none => (result, outInteraction, q)

/-- The call `AUGraphClearConnections(graph)`: it clears every interaction of the graph. -/
def AUGraphClearConnections (p : AudioPlayer) : OSStatus × AudioPlayer :=
  p.call .AUGraphClearConnections (fun g => { g with interactions := [] })

/-- The call `AUGraphConnectNodeInput(graph, source, sourceOutput, dest, destInput)`. -/
def AUGraphConnectNodeInput (p : AudioPlayer) (sourceNode : AUNode) (sourceOutputNumber : Nat)
    (destNode : AUNode) (destInputNumber : Nat) : OSStatus × AudioPlayer :=
  p.call (.AUGraphConnectNodeInput sourceNode sourceOutputNumber destNode destInputNumber)
    (fun g => { g with
      interactions := g.interactions ++
        [.connection ⟨sourceNode, sourceOutputNumber, destNode, destInputNumber⟩] })

/-- The call `AUGraphSetNodeInputCallback(graph, dest, destInput, &callback)`. -/
def AUGraphSetNodeInputCallback (p : AudioPlayer) (destNode : AUNode) (destInputNumber : Nat)
    (cback : AURenderCallbackStruct) : OSStatus × AudioPlayer :=
  p.call (.AUGraphSetNodeInputCallback destNode destInputNumber cback)
    (fun g => { g with
      interactions := g.interactions ++ [.inputCallback ⟨destNode, destInputNumber, cback⟩] })

/-- The query `AUGraphGetNodeCount(graph, &outNumberOfNodes)`. -/
def AUGraphGetNodeCount (p : AudioPlayer) (outNumberOfNodes : Nat) :
    OSStatus × Nat × AudioPlayer :=
  match p.call .AUGraphGetNodeCount id with
  | (result, q) =>
    if noErr ≠ result then (result, outNumberOfNodes, q)
    else (result, q.mAUGraph.nodes.length, q)

/-- The query `AUGraphGetIndNode(graph, index, &outNode)`. -/
def AUGraphGetIndNode (p : AudioPlayer) (index : Nat) (outNode : AUNode) :
    OSStatus × AUNode × AudioPlayer :=
  match p.call (.AUGraphGetIndNode index) id with
  | (result, q) =>
    if noErr ≠ result then (result, outNode, q)
    else (result, ((q.mAUGraph.nodes[index]?).map (fun n => n.node)).getD outNode, q)

/-- The query `AUGraphNodeInfo(graph, node, NULL, &outAudioUnit)`. -/
def AUGraphNodeInfo (p : AudioPlayer) (node : AUNode) (outAudioUnit : AudioUnit) :
    OSStatus × AudioUnit × AudioPlayer :=
  match p.call (.AUGraphNodeInfo node) id with
  | (result, q) => if noErr ≠ result then (result, outAudioUnit, q) else (result, some node, q)

/-- The element count of a scope of a unit of the graph. -/
def AUGraph.elementCount (g : AUGraph) (au : AudioUnit) (scope : AudioUnitScope) : Nat :=
  match g.nodes.find? (fun n => some n.node = au) with
  | none => 0
  | some n =>
    match scope with
    | .Input => n.inputElementCount
    | .Output => n.outputElementCount
    | .Global => 1

/-- The query `AudioUnitGetProperty(au, kAudioUnitProperty_ElementCount, scope, 0, &count, &size)`. -/
def AudioUnitGetProperty_ElementCount (p : AudioPlayer) (au : AudioUnit) (scope : AudioUnitScope)
    (outData : Nat) : OSStatus × Nat × AudioPlayer :=
  match p.call (.AudioUnitGetProperty au kAudioUnitProperty_ElementCount scope 0) id with
  | (result, q) =>
    if noErr ≠ result then (result, outData, q) else (result, q.mAUGraph.elementCount au scope, q)

/-- Record a property value on the unit of a node. -/
def AUGraphNode.setProperty (n : AUGraphNode) (au : AudioUnit) (propertyID : Nat)
    (scope : AudioUnitScope) (element : Nat) (data : AudioStreamBasicDescription) : AUGraphNode :=
  if some n.node = au then { n with properties := (propertyID, scope, element, data) :: n.properties }
  else n

/-- The call `AudioUnitSetProperty(au, propertyID, scope, element, data, size)`. -/
def AudioUnitSetProperty (p : AudioPlayer) (au : AudioUnit) (propertyID : Nat)
    (scope : AudioUnitScope) (element : Nat) (data : AudioStreamBasicDescription) :
    OSStatus × AudioPlayer :=
  p.call (.AudioUnitSetProperty au propertyID scope element data)
    (fun g => { g with
      nodes := g.nodes.map (fun n => n.setProperty au propertyID scope element data) })

/-- The allocation `calloc(count, sizeof(AUNodeInteraction))`; the result says whether the array
was obtained. -/
def calloc (p : AudioPlayer) (count : Nat) : Bool × AudioPlayer :=
  match p.call (.calloc count) id with
  | (result, q) => (decide (result = noErr), q)

/-! ## `AudioPlayer::SetPropertyOnAUGraphNodes` (lines 704 to 824) -/

/-- The loops `for(UInt32 j = 0; j < elementCount; ++j)` of lines 770 to 788 and 801 to 819: set
the property on element `j` of the scope, return the first failure. -/
def SetPropertyOnAUGraphNodes.elements (au : AudioUnit) (propertyID : Nat)
    (scope : AudioUnitScope) (propertyData : AudioStreamBasicDescription) :
    (remaining : Nat) → (j : Nat) → AudioPlayer → OSStatus × AudioPlayer
  | 0, _, p => (noErr, p)
  | n + 1, j, p =>
    match AudioUnitSetProperty p au propertyID scope j propertyData with
    | (result, q) =>
      if noErr ≠ result then (result, q)
      else SetPropertyOnAUGraphNodes.elements au propertyID scope propertyData n (j + 1) q

/-- The body of the node loop, lines 721 to 820, for the node at index `i`. -/
def SetPropertyOnAUGraphNodes.node (propertyID : Nat) (propertyData : AudioStreamBasicDescription)
    (i : Nat) (p : AudioPlayer) : OSStatus × AudioPlayer :=
  match AUGraphGetIndNode p i 0 with
  | (result, node, p) =>
  if noErr ≠ result then (result, p) else
  match AUGraphNodeInfo p node none with
  | (result, au, p) =>
  if noErr ≠ result then (result, p) else
  if p.mOutputNode = node then
    -- the output unit: only the client side, input scope element 0
    AudioUnitSetProperty p au propertyID .Input 0 propertyData
  else
    match AudioUnitGetProperty_ElementCount p au .Input 0 with
    | (result, elementCount, p) =>
    if noErr ≠ result then (result, p) else
    match SetPropertyOnAUGraphNodes.elements au propertyID .Input propertyData elementCount 0 p with
    | (result, p) =>
    if noErr ≠ result then (result, p) else
    match AudioUnitGetProperty_ElementCount p au .Output 0 with
    | (result, elementCount, p) =>
    if noErr ≠ result then (result, p) else
    SetPropertyOnAUGraphNodes.elements au propertyID .Output propertyData elementCount 0 p

/-- The loop `for(UInt32 i = 0; i < nodeCount; ++i)` of line 720. -/
def SetPropertyOnAUGraphNodes.loop (propertyID : Nat)
    (propertyData : AudioStreamBasicDescription) :
    (remaining : Nat) → (i : Nat) → AudioPlayer → OSStatus × AudioPlayer
  | 0, _, p => (noErr, p)
  | n + 1, i, p =>
    match SetPropertyOnAUGraphNodes.node propertyID propertyData i p with
    | (result, q) =>
      if noErr ≠ result then (result, q)
      else SetPropertyOnAUGraphNodes.loop propertyID propertyData n (i + 1) q

/-- The method `AudioPlayer::SetPropertyOnAUGraphNodes`.  Its only caller passes a stream
description as the property data, which is what the embedding carries. -/
def SetPropertyOnAUGraphNodes (p : AudioPlayer) (propertyID : Nat)
    (propertyData : AudioStreamBasicDescription) : OSStatus × AudioPlayer :=
  match AUGraphGetNodeCount p 0 with
  | (result, nodeCount, p) =>
  if noErr ≠ result then (result, p)
  else SetPropertyOnAUGraphNodes.loop propertyID propertyData nodeCount 0 p

/-! ## `AudioPlayer::SetAUGraphFormat` (lines 826 to 1009) -/

/-- The locals of `SetAUGraphFormat` that live from the capture to the restoration. -/
structure SetAUGraphFormat.Locals where
  graphIsRunning : Bool
  graphIsInitialized : Bool
  interactionCount : Nat
  /-- The array obtained from `calloc`; `none` is an all-zero record. -/
  interactions : List (Option AUNodeInteraction)
  deriving DecidableEq, Repr

/-- The loop of lines 892 to 902: copy the interaction at each index into the array; a failure
frees the array and is returned. -/
def SetAUGraphFormat.capture :
    (remaining : Nat) → (i : Nat) → List (Option AUNodeInteraction) → AudioPlayer →
      OSStatus × List (Option AUNodeInteraction) × AudioPlayer
  | 0, _, interactions, p => (noErr, interactions, p)
  | n + 1, i, interactions, p =>
    match AUGraphGetInteractionInfo p i (interactions.getD i none) with
    | (result, info, q) =>
      if noErr ≠ result then (result, interactions, q)
      else SetAUGraphFormat.capture n (i + 1) (interactions.set i info) q

/-- Lines 828 to 912: stop the graph if it runs, uninitialize it if it is initialized, capture
the interactions and clear them.  An early `return result` is `Except.error`. -/
def SetAUGraphFormat.prepare (p : AudioPlayer) :
    Except (OSStatus × AudioPlayer) (SetAUGraphFormat.Locals × AudioPlayer) :=
  match AUGraphIsRunning p false with
  | (result, graphIsRunning, p) =>
  if noErr ≠ result then .error (result, p) else
  match (if graphIsRunning then AUGraphStop p else (result, p)) with
  | (result, p) =>
  if noErr ≠ result then .error (result, p) else
  match AUGraphIsInitialized p false with
  | (result, graphIsInitialized, p) =>
  if noErr ≠ result then .error (result, p) else
  match (if graphIsInitialized then AUGraphUninitialize p else (result, p)) with
  | (result, p) =>
  if noErr ≠ result then .error (result, p) else
  match AUGraphGetNumberOfInteractions p 0 with
  | (result, interactionCount, p) =>
  if noErr ≠ result then .error (result, p) else
  match calloc p interactionCount with
  | (allocated, p) =>
  if !allocated then .error (memFullErr, p) else
  match SetAUGraphFormat.capture interactionCount 0 (List.replicate interactionCount none) p with
  | (result, interactions, p) =>
  if noErr ≠ result then .error (result, p) else
  match AUGraphClearConnections p with
  | (result, p) =>
  if noErr ≠ result then .error (result, p) else
  .ok (⟨graphIsRunning, graphIsInitialized, interactionCount, interactions⟩, p)

/-- Lines 914 to 933: push the new format onto the nodes; on failure push the active format
again and keep that second status in `result`, on success record the new format. -/
def SetAUGraphFormat.applyFormat (format : AudioStreamBasicDescription) (p : AudioPlayer) :
    OSStatus × AudioPlayer :=
  match SetPropertyOnAUGraphNodes p kAudioUnitProperty_StreamFormat format with
  | (result, p) =>
    if noErr ≠ result then
      match SetPropertyOnAUGraphNodes p kAudioUnitProperty_StreamFormat p.mAUGraphFormat with
      | (newErr, p) => (newErr, p)
    else (result, { p with mAUGraphFormat := format })

/-- The loop of lines 938 to 980: re-establish the captured interactions in index order; a record
that is neither a connection nor an input callback is passed over. -/
def SetAUGraphFormat.reconnect (interactions : List (Option AUNodeInteraction)) :
    (remaining : Nat) → (i : Nat) → AudioPlayer → OSStatus × AudioPlayer
  | 0, _, p => (noErr, p)
  | n + 1, i, p =>
    match interactions.getD i none with
    | some (.connection c) =>
      match AUGraphConnectNodeInput p c.sourceNode c.sourceOutputNumber c.destNode
          c.destInputNumber with
      | (result, q) =>
        if noErr ≠ result then (result, q)
        else SetAUGraphFormat.reconnect interactions n (i + 1) q
    | some (.inputCallback c) =>
      match AUGraphSetNodeInputCallback p c.destNode c.destInputNumber c.cback with
      | (result, q) =>
        if noErr ≠ result then (result, q)
        else SetAUGraphFormat.reconnect interactions n (i + 1) q
    | none => SetAUGraphFormat.reconnect interactions n (i + 1) p

/-- Lines 936 to 1009: re-establish the interactions, initialize the graph again if it was
initialized, start it again if it was running, `return noErr`.  The status that lines 914 to 933
left in `result` is not read: every test below follows a fresh assignment. -/
def SetAUGraphFormat.restore (_result : OSStatus) (l : SetAUGraphFormat.Locals)
    (p : AudioPlayer) : OSStatus × AudioPlayer :=
  match SetAUGraphFormat.reconnect l.interactions l.interactionCount 0 p with
  | (result, p) =>
  if noErr ≠ result then (result, p) else
  match (if l.graphIsInitialized then AUGraphInitialize p else (result, p)) with
  | (result, p) =>
  if noErr ≠ result then (result, p) else
  match (if l.graphIsRunning then AUGraphStart p else (result, p)) with
  | (result, p) =>
  if noErr ≠ result then (result, p) else
  (noErr, p)

/-- The method `AudioPlayer::SetAUGraphFormat`. -/
def SetAUGraphFormat (p : AudioPlayer) (format : AudioStreamBasicDescription) :
    OSStatus × AudioPlayer :=
  match SetAUGraphFormat.prepare p with
  | .error r => r
  | .ok (l, p) =>
    match SetAUGraphFormat.applyFormat format p with
    | (result, p) => SetAUGraphFormat.restore result l p

/-! ## `channelLayoutsAreEqual` (lines 41 to 65) -/

/-- The tag `kAudioChannelLayoutTag_UseChannelDescriptions`. -/
def kAudioChannelLayoutTag_UseChannelDescriptions : Nat := 0

/-- The tag `kAudioChannelLayoutTag_UseChannelBitmap`. -/
def kAudioChannelLayoutTag_UseChannelBitmap : Nat := 65536

/-- An `AudioChannelDescription`: label, flags and three `Float32` coordinates (as bit patterns),
five 32-bit words without padding. -/
structure AudioChannelDescription where
  mChannelLabel : Nat
  mChannelFlags : Nat
  mCoordinates0 : Nat
  mCoordinates1 : Nat
  mCoordinates2 : Nat
  deriving DecidableEq, Repr

/-- The size `sizeof(AudioChannelDescription)`. -/
def sizeof_AudioChannelDescription : Nat := 20

/-- The four bytes of a 32-bit word in memory (little-endian). -/
def bytesOfUInt32 (x : Nat) : List Nat :=
  [x % 256, x / 256 % 256, x / 65536 % 256, x / 16777216 % 256]

/-- The twenty bytes of a description in memory. -/
def AudioChannelDescription.bytes (c : AudioChannelDescription) : List Nat :=
  bytesOfUInt32 c.mChannelLabel ++ bytesOfUInt32 c.mChannelFlags ++
    bytesOfUInt32 c.mCoordinates0 ++ bytesOfUInt32 c.mCoordinates1 ++
    bytesOfUInt32 c.mCoordinates2

/-- An `AudioChannelLayout`; `mChannelDescriptions` are the descriptions that follow the header
in memory, at least `mNumberChannelDescriptions` of them. -/
structure AudioChannelLayout where
  mChannelLayoutTag : Nat
  mChannelBitmap : Nat
  mNumberChannelDescriptions : Nat
  mChannelDescriptions : List AudioChannelDescription
  deriving DecidableEq, Repr

/-- The bytes at `&layout->mChannelDescriptions`. -/
def AudioChannelLayout.descriptionBytes (layout : AudioChannelLayout) : List Nat :=
  (layout.mChannelDescriptions.map AudioChannelDescription.bytes).flatten

/-- The library function `memcmp(a, b, n)` on two byte sequences; of a nonzero result only the
fact that it is nonzero is kept. -/
def memcmp (a b : List Nat) (n : Nat) : Int :=
  if a.take n = b.take n then 0 else 1

/-- The function `channelLayoutsAreEqual`. -/
def channelLayoutsAreEqual (layoutA layoutB : AudioChannelLayout) : Bool :=
  -- first check if the tags are equal
  if layoutA.mChannelLayoutTag ≠ layoutB.mChannelLayoutTag then false
  -- if the tags are equal, check for special values
  else if kAudioChannelLayoutTag_UseChannelBitmap = layoutA.mChannelLayoutTag then
    decide (layoutA.mChannelBitmap = layoutB.mChannelBitmap)
  else if kAudioChannelLayoutTag_UseChannelDescriptions = layoutA.mChannelLayoutTag then
    if layoutA.mNumberChannelDescriptions ≠ layoutB.mNumberChannelDescriptions then false
    else
      let bytesToCompare := layoutA.mNumberChannelDescriptions * sizeof_AudioChannelDescription
      decide (0 = memcmp layoutA.descriptionBytes layoutB.descriptionBytes bytesToCompare)
  else true

/-! ## Construction and playback control (lines 99 to 170) -/

/-- The address of the function `myAURenderCallback`. -/
def myAURenderCallback : Nat := 4096

/-- The call `NewAUGraph(&outGraph)`: a new graph, closed and empty. -/
def NewAUGraph (p : AudioPlayer) : OSStatus × AudioPlayer :=
  p.call .NewAUGraph (fun _ =>
    { nodes := [], interactions := [], isInitialized := false, isRunning := false,
      isOpen := false })

/-- The call `AUGraphAddNode(graph, &description, &outNode)`: the new node gets the next free
handle, and its unit is taken to have one input and one output element. -/
def AUGraphAddNode (p : AudioPlayer) (description : ComponentDescription) (outNode : AUNode) :
    OSStatus × AUNode × AudioPlayer :=
  match p.call (.AUGraphAddNode description) (fun g =>
      { g with nodes := g.nodes ++ [⟨g.nodes.length + 1, 1, 1, []⟩] }) with
  | (result, q) =>
    if noErr ≠ result then (result, outNode, q) else (result, p.mAUGraph.nodes.length + 1, q)

/-- The call `AUGraphOpen(graph)`. -/
def AUGraphOpen (p : AudioPlayer) : OSStatus × AudioPlayer :=
  p.call .AUGraphOpen (fun g => { g with isOpen := true })

/-- The method `AudioPlayer::CreateAUGraph` (lines 401 to 491); `this` is the address of the
player, the context of the render callback. -/
def CreateAUGraph (p : AudioPlayer) (this : Nat) : OSStatus × AudioPlayer :=
  match NewAUGraph p with
  | (result, p) =>
  if noErr ≠ result then (result, p) else
  -- the peak limiter node
  match AUGraphAddNode p ⟨1635083896, 1819112562, 1634758764, 0, 0⟩ p.mLimiterNode with
  | (result, node, p) =>
  if noErr ≠ result then (result, p) else
  match (⟨result, { p with mLimiterNode := node }⟩ : OSStatus × AudioPlayer) with
  | (_, p) =>
  -- the output node
  match AUGraphAddNode p ⟨1635086197, 1684366880, 1634758764, 0, 0⟩ p.mOutputNode with
  | (result, node, p) =>
  if noErr ≠ result then (result, p) else
  match (⟨result, { p with mOutputNode := node }⟩ : OSStatus × AudioPlayer) with
  | (_, p) =>
  match AUGraphConnectNodeInput p p.mLimiterNode 0 p.mOutputNode 0 with
  | (result, p) =>
  if noErr ≠ result then (result, p) else
  -- the input callback
  match AUGraphSetNodeInputCallback p p.mLimiterNode 0 ⟨myAURenderCallback, this⟩ with
  | (result, p) =>
  if noErr ≠ result then (result, p) else
  match AUGraphOpen p with
  | (result, p) =>
  if noErr ≠ result then (result, p) else
  match AUGraphInitialize p with
  | (result, p) =>
  if noErr ≠ result then (result, p) else
  (noErr, p)

/-- The constructor `AudioPlayer::AudioPlayer` (lines 99 to 105).  `storage` is the memory the
object is built in, whose other members the constructor does not initialise, and `ringBuffer` the
object `new CARingBuffer()` yields. -/
def AudioPlayer.construct (storage : AudioPlayer) (this : Nat) (ringBuffer : CARingBuffer) :
    AudioPlayer :=
  (CreateAUGraph { storage with
    mRingBuffer := ringBuffer, mFramesDecoded := 0, mFramesRendered := 0 } this).2

/-- The method `AudioPlayer::IsPlaying` (lines 158 to 170). -/
def IsPlaying (p : AudioPlayer) : Bool × AudioPlayer :=
  match AUGraphIsRunning p false with
  | (_, isRunning, p) => (isRunning, p)

/-- The method `AudioPlayer::Play()` (lines 117 to 129). -/
def Play (p : AudioPlayer) : AudioPlayer :=
  match IsPlaying p with
  | (true, p) => p
  | (false, p) => (AUGraphStart p).2

/-- The method `AudioPlayer::Pause` (lines 131 to 143). -/
def Pause (p : AudioPlayer) : AudioPlayer :=
  match IsPlaying p with
  | (false, p) => p
  | (true, p) => (AUGraphStop p).2

/-- The method `AudioPlayer::PlayPause` (lines 145 to 148). -/
def PlayPause (p : AudioPlayer) : AudioPlayer :=
  match IsPlaying p with
  | (true, p) => Pause p
  | (false, p) => Play p

/-- The method `AudioPlayer::Stop` (lines 150 to 156). -/
def Stop (p : AudioPlayer) : AudioPlayer :=
  match IsPlaying p with
  | (false, p) => p
  | (true, p) => Pause p

/-! ## Player parameters (lines 207 to 315 and 1033 to 1103) -/

/-- The parameter id `kHALOutputParam_Volume`. -/
def kHALOutputParam_Volume : Nat := 14

/-- The parameter id `kLimiterParam_PreGain`. -/
def kLimiterParam_PreGain : Nat := 2

/-- The property id `kAudioUnitProperty_BypassEffect`. -/
def kAudioUnitProperty_BypassEffect : Nat := 21

/-- The call `AudioUnitSetParameter(au, parameterID, scope, element, value, 0)`. -/
def AudioUnitSetParameter (p : AudioPlayer) (au : AudioUnit) (parameterID : Nat)
    (scope : AudioUnitScope) (element : Nat) (value : Float32) : OSStatus × AudioPlayer :=
  p.call (.AudioUnitSetParameter au parameterID scope element value)
    (fun g => { g with parameters := (au, parameterID, scope, element, value) :: g.parameters })

/-- The call `AUParameterSet(NULL, NULL, &parameter, value, 0)`. -/
def AUParameterSet (p : AudioPlayer) (au : AudioUnit) (parameterID : Nat)
    (scope : AudioUnitScope) (element : Nat) (value : Float32) : OSStatus × AudioPlayer :=
  p.call (.AUParameterSet au parameterID scope element value)
    (fun g => { g with parameters := (au, parameterID, scope, element, value) :: g.parameters })

/-- The value of `kAudioUnitProperty_BypassEffect` of a unit: the one set last, 0 at first. -/
def AUGraph.bypassOf (g : AUGraph) (au : AudioUnit) : Nat :=
  match g.bypass.find? (fun x => x.1 = au) with
  | some x => x.2
  | none => 0

/-- The query `AudioUnitGetProperty(au, kAudioUnitProperty_BypassEffect, global scope, 0, &data,
&size)`. -/
def AudioUnitGetProperty_BypassEffect (p : AudioPlayer) (au : AudioUnit) (outData : Nat) :
    OSStatus × Nat × AudioPlayer :=
  match p.call (.AudioUnitGetProperty au kAudioUnitProperty_BypassEffect .Global 0) id with
  | (result, q) =>
    if noErr ≠ result then (result, outData, q) else (result, q.mAUGraph.bypassOf au, q)

/-- The call `AudioUnitSetProperty(au, kAudioUnitProperty_BypassEffect, global scope, 0, &flag,
sizeof(flag))`. -/
def AudioUnitSetProperty_BypassEffect (p : AudioPlayer) (au : AudioUnit) (flag : Nat) :
    OSStatus × AudioPlayer :=
  p.call (.AudioUnitSetProperty_UInt32 au kAudioUnitProperty_BypassEffect .Global 0 flag)
    (fun g => { g with bypass := (au, flag) :: g.bypass })

/-- The method `AudioPlayer::SetVolume` (lines 207 to 240).  The `return -1` of line 222 leaves a
function that returns `bool`: the value handed back is `-1` converted, that is `true`. -/
def SetVolume (p : AudioPlayer) (volume : Float32) : Bool × AudioPlayer :=
  match AUGraphNodeInfo p p.mOutputNode none with
  | (auResult, au, p) =>
  if noErr ≠ auResult then (decide ((-1 : Int) ≠ 0), p) else
  match AudioUnitSetParameter p au kHALOutputParam_Volume .Global 0 volume with
  | (result, p) =>
  if noErr ≠ result then (false, p) else
  (true, p)

/-- The method `AudioPlayer::PreGainIsEnabled` (lines 1070 to 1103). -/
def PreGainIsEnabled (p : AudioPlayer) : Bool × AudioPlayer :=
  match AUGraphNodeInfo p p.mLimiterNode none with
  | (result, au, p) =>
  if noErr ≠ result then (false, p) else
  match AudioUnitGetProperty_BypassEffect p au 0 with
  | (result, bypassed, p) =>
  if noErr ≠ result then (false, p) else
  (decide (bypassed ≠ 0), p)

/-- The method `AudioPlayer::EnablePreGain` (lines 1033 to 1068). -/
def EnablePreGain (p : AudioPlayer) (flag : Nat) : Bool × AudioPlayer :=
  -- `flag && PreGainIsEnabled()`
  match (if flag ≠ 0 then PreGainIsEnabled p else (false, p)) with
  | (true, p) => (true, p)
  | (false, p) =>
  -- `!flag && false == PreGainIsEnabled()`
  match (if flag = 0 then ((!(PreGainIsEnabled p).1), (PreGainIsEnabled p).2)
      else (false, p)) with
  | (true, p) => (true, p)
  | (false, p) =>
  match AUGraphNodeInfo p p.mLimiterNode none with
  | (result, au, p) =>
  if noErr ≠ result then (false, p) else
  match AudioUnitSetProperty_BypassEffect p au flag with
  | (result, p) =>
  if noErr ≠ result then (false, p) else
  (true, p)

/-- The method `AudioPlayer::SetPreGain` (lines 276 to 315). -/
def SetPreGain (p : AudioPlayer) (preGain : Float32) : Bool × AudioPlayer :=
  if preGain.isZero then EnablePreGain p 0 else
  match AUGraphNodeInfo p p.mLimiterNode none with
  | (result, au, p) =>
  if noErr ≠ result then (false, p) else
  match AUParameterSet p au kLimiterParam_PreGain .Global 0 preGain with
  | (result, p) =>
  if noErr ≠ result then (false, p) else
  (true, p)

/-! ## Playlist management and the render callback (lines 319 to 397) -/

/-- The macro `RING_BUFFER_SIZE_FRAMES`. -/
def RING_BUFFER_SIZE_FRAMES : Nat := 16384

/-- The method `AudioPlayer::Play(AudioDecoder *)` (lines 319 to 339), for a non-null decoder.
The status of `SetAUGraphFormat` is tested for logging only. -/
def Play.decoder (p : AudioPlayer) (decoder : AudioDecoder) : Bool × AudioPlayer :=
  match SetAUGraphFormat { p with d := some decoder } decoder.GetFormat with
  | (_, p) =>
    -- allocate enough space in the ring buffer for the new format
    (true, { p with
      mRingBuffer := p.mRingBuffer.Allocate decoder.GetFormat.mChannelsPerFrame
        decoder.GetFormat.mBytesPerFrame RING_BUFFER_SIZE_FRAMES })

/-- The method `AudioPlayer::Enqueue` (lines 341 to 361), for a non-null decoder: its body is
commented out but for `return false`. -/
def Enqueue (p : AudioPlayer) (_decoder : AudioDecoder) : Bool × AudioPlayer :=
  (false, p)

/-- The method `AudioPlayer::Render` (lines 365 to 397); the action flags, the time stamp and
the bus number are unused. -/
def Render (p : AudioPlayer) (inNumberFrames : Nat) (ioData : AudioBufferList) :
    OSStatus × AudioBufferList × AudioPlayer :=
  match p.mRingBuffer.Fetch ioData inNumberFrames p.mFramesRendered false with
  | (rbResult, ioData, ringBuffer) =>
    if kCARingBufferError_OK ≠ rbResult then (ioErr, ioData, { p with mRingBuffer := ringBuffer })
    else
      (noErr, ioData, { p with
        mRingBuffer := ringBuffer, mFramesRendered := p.mFramesRendered + inNumberFrames })

/-! ## Decoder creation (`Decoders/AudioDecoder.cpp`)

Objects that the code reaches through pointers and destroys with `delete` are kept in a small
object store: input sources live at addresses, and every `delete` is logged, so that ownership
reads off the log.  The `CFErrorRef *error` out-parameter is not carried.
-/

/-- A `CFURLRef`, with what `CFURLCopyPathExtension` yields for it (`none` for `NULL`). -/
structure CFURL where
  string : String
  pathExtension : Option String
  deriving DecidableEq, Repr

/-- Modelled from the spec: the class `InputSource` is not part of the sources at hand.  Section 6
describes it as an abstract seekable byte source supplying `IsOpen`, `Open`, `SupportsSeeking`
and a URL; `opens` is the outcome its `Open` would have. -/
structure InputSource where
  mURL : Option CFURL
  mIsOpen : Bool
  opens : Bool
  supportsSeeking : Bool
  deriving DecidableEq, Repr

/-- The address of an `InputSource` object; a null pointer is `none : Option InputSourceRef`. -/
abbrev InputSourceRef := Nat

/-- One entry of `sRegisteredSubclasses`: the capability queries of a decoder kind.  Modelled from
the spec: the decoder classes themselves are not part of the sources at hand; `opens` is the
outcome of the kind's `Open` on an input source and `supportsSeeking` the kind's static capability
flag of section 4.1. -/
structure SubclassInfo where
  name : String
  mHandlesFilesWithExtension : String → Bool
  mHandlesMIMEType : String → Bool
  opens : InputSource → Bool
  supportsSeeking : Bool

/-- The arguments of the three region overloads: starting frame; starting frame and frame count;
starting frame, frame count and repeat count. -/
inductive RegionArgs where
  | start (startingFrame : Int)
  | startCount (startingFrame : Int) (frameCount : Nat)
  | startCountRepeat (startingFrame : Int) (frameCount : Nat) (repeatCount : Nat)
  deriving DecidableEq, Repr

/-- A decoder object: one built by a registered kind over an input source (the constructor
`Decoder(InputSource *)` of line 398), or a region decoder wrapping another decoder. -/
inductive Decoder where
  | file (kind : SubclassInfo) (mInputSource : Option InputSourceRef) (mIsOpen : Bool)
  | region (decoder : Decoder) (args : RegionArgs)

/-- The member `mInputSource`; a region decoder is built by the default constructor of line 392,
which sets it to null. -/
def Decoder.mInputSource : Decoder → Option InputSourceRef
  | .file _ s _ => s
  | .region _ _ => none

/-- The accessor `IsOpen`. -/
def Decoder.IsOpen : Decoder → Bool
  | .file _ _ o => o
  | .region d _ => d.IsOpen

/-- The assignment `decoder->mInputSource = nullptr`. -/
def Decoder.clearInputSource : Decoder → Decoder
  | .file k _ o => .file k none o
  | .region d a => .region d a

/-- The virtual `SupportsSeeking`. -/
def Decoder.SupportsSeeking : Decoder → Bool
  | .file k _ _ => k.supportsSeeking
  | .region d _ => d.SupportsSeeking

/-- The statics of `Decoder` and the object store. -/
structure Runtime where
  sAutomaticallyOpenDecoders : Bool
  sRegisteredSubclasses : List SubclassInfo
  /-- The input source object at each address. -/
  inputSources : InputSourceRef → InputSource
  /-- What `InputSource::CreateInputSourceForURL` is able to build for a URL. -/
  sourceForURL : CFURL → Option InputSource
  /-- The next free address. -/
  nextRef : InputSourceRef
  /-- Every `delete` of an input source, oldest first. -/
  deleted : List InputSourceRef
  /-- Every decoder destroyed, oldest first, as it was when destroyed. -/
  destroyed : List Decoder

/-- The accessor `AutomaticallyOpenDecoders`. -/
def Runtime.AutomaticallyOpenDecoders (rt : Runtime) : Bool :=
  rt.sAutomaticallyOpenDecoders

/-- The statement `delete inputSource`. -/
def Runtime.deleteInputSource (rt : Runtime) (inputSource : InputSourceRef) : Runtime :=
  { rt with deleted := rt.deleted ++ [inputSource] }

/-- The destructor `Decoder::~Decoder` (lines 407 to 414) run by `delete decoder`: it deletes the
input source the decoder still points to.  Modelled from the spec for a region decoder, which owns
the decoder it wraps and destroys it with itself. -/
def Runtime.deleteDecoder (rt : Runtime) : Decoder → Runtime
  | .file k s o =>
    match s with
    | some inputSource =>
      { rt with deleted := rt.deleted ++ [inputSource], destroyed := rt.destroyed ++ [.file k s o] }
    | none => { rt with destroyed := rt.destroyed ++ [.file k s o] }
  | .region d a =>
    let rt1 := rt.deleteDecoder d
    { rt1 with destroyed := rt1.destroyed ++ [.region d a] }

/-- The call `inputSource->IsOpen()`. -/
def Runtime.inputSourceIsOpen (rt : Runtime) (inputSource : InputSourceRef) : Bool :=
  (rt.inputSources inputSource).mIsOpen

/-- The call `inputSource->Open(error)`: on success the object is marked open. -/
def Runtime.inputSourceOpen (rt : Runtime) (inputSource : InputSourceRef) : Bool × Runtime :=
  if (rt.inputSources inputSource).opens then
    (true, { rt with inputSources := fun r =>
      if r = inputSource then { rt.inputSources inputSource with mIsOpen := true }
      else rt.inputSources r })
  else (false, rt)

/-- Modelled from the spec: `InputSource::CreateInputSourceForURL` is not part of the sources at
hand.  It is the first stage of the creation helpers (resolve input stream): a new input source
object for the URL, at a fresh address, or null. -/
def Runtime.CreateInputSourceForURL (rt : Runtime) (url : CFURL) :
    Option InputSourceRef × Runtime :=
  match rt.sourceForURL url with
  | none => (none, rt)
  | some obj =>
    (some rt.nextRef, { rt with
      inputSources := fun r => if r = rt.nextRef then obj else rt.inputSources r,
      nextRef := rt.nextRef + 1 })

/-- The factory `subclassInfo.mCreateDecoder(inputSource)`: the kind's constructor runs the base
constructor `Decoder(InputSource *)` of line 398, which stores the input source and starts
closed. -/
def SubclassInfo.mCreateDecoder (k : SubclassInfo) (inputSource : InputSourceRef) : Decoder :=
  .file k (some inputSource) false

/-- Modelled from the spec: the virtual `Open` of a decoder kind is not part of the sources at
hand.  By section 3 it either transitions the decoder to open or fails with no partial-open
state. -/
def Decoder.Open (rt : Runtime) : Decoder → Bool × Decoder
  | .file k s o =>
    match s with
    | some inputSource =>
      if k.opens (rt.inputSources inputSource) then (true, .file k s true) else (false, .file k s o)
    | none => (false, .file k s o)
  | .region d a => ((Decoder.Open rt d).1, .region (Decoder.Open rt d).2 a)

/-- The loops of lines 158 to 169 and 203 to 214, which differ in the capability query only:
walk the registered kinds in order; a kind that handles the key builds a decoder, which is opened
when decoders open automatically and, if that fails, detached from the input source and deleted;
the first decoder left standing ends the loop. -/
def CreateDecoderForInputSource.resolve (handles : SubclassInfo → Bool)
    (inputSource : InputSourceRef) : List SubclassInfo → Runtime → Option Decoder × Runtime
  | [], rt => (none, rt)
  | subclassInfo :: rest, rt =>
    if handles subclassInfo then
      let decoder := subclassInfo.mCreateDecoder inputSource
      if rt.AutomaticallyOpenDecoders then
        match Decoder.Open rt decoder with
        | (true, decoder) => (some decoder, rt)
        | (false, decoder) =>
          CreateDecoderForInputSource.resolve handles inputSource rest
            (rt.deleteDecoder decoder.clearInputSource)
      else (some decoder, rt)
    else CreateDecoderForInputSource.resolve handles inputSource rest rt

/-- Lines 180 to 217 of `CreateDecoderForInputSource`: the extension-based resolution. -/
def CreateDecoderForInputSource.byExtension (inputSource : InputSourceRef) (rt : Runtime) :
    Option Decoder × Runtime :=
  match (rt.inputSources inputSource).mURL with
  | none => (none, rt)
  | some inputURL =>
    match inputURL.pathExtension with
    | none => (none, rt)
    | some pathExtension =>
      CreateDecoderForInputSource.resolve (fun k => k.mHandlesFilesWithExtension pathExtension)
        inputSource rt.sRegisteredSubclasses rt

/-- The function `Decoder::CreateDecoderForInputSource(inputSource, mimeType, error)` of
line 133. -/
def CreateDecoderForInputSource (inputSource : Option InputSourceRef) (mimeType : Option String)
    (rt : Runtime) : Option Decoder × Runtime :=
  match inputSource with
  | none => (none, rt)
  | some inputSource =>
    -- open the input source if it isn't already
    match (if rt.AutomaticallyOpenDecoders && !rt.inputSourceIsOpen inputSource
        then rt.inputSourceOpen inputSource else (true, rt)) with
    | (false, rt) => (none, rt)
    | (true, rt) =>
      match mimeType with
      | some mimeType =>
        -- the MIME type takes precedence over the file extension
        match CreateDecoderForInputSource.resolve (fun k => k.mHandlesMIMEType mimeType)
            inputSource rt.sRegisteredSubclasses rt with
        | (some decoder, rt) => (some decoder, rt)
        | (none, rt) => CreateDecoderForInputSource.byExtension inputSource rt
      | none => CreateDecoderForInputSource.byExtension inputSource rt

/-- The overload `Decoder::CreateDecoderForInputSource(inputSource, error)` of line 128. -/
def CreateDecoderForInputSource.noMIMEType (inputSource : Option InputSourceRef) (rt : Runtime) :
    Option Decoder × Runtime :=
  CreateDecoderForInputSource inputSource none rt

/-- The function `Decoder::CreateDecoderForURL(url, mimeType, error)` of line 107. -/
def CreateDecoderForURL (url : Option CFURL) (mimeType : Option String) (rt : Runtime) :
    Option Decoder × Runtime :=
  match url with
  | none => (none, rt)
  | some url =>
    match rt.CreateInputSourceForURL url with
    | (none, rt) => (none, rt)
    | (some inputSource, rt) =>
      match CreateDecoderForInputSource (some inputSource) mimeType rt with
      | (some decoder, rt) => (some decoder, rt)
      | (none, rt) => (none, rt.deleteInputSource inputSource)

/-- The three overloads of `Decoder::CreateDecoderForDecoderRegion` (lines 357 to 388), which
differ in the arguments handed to the region decoder only.  Modelled from the spec for the
constructor of `LoopableRegionDecoder`, which is not part of the sources at hand: the region
decoder wraps the decoder it is given. -/
def CreateDecoderForDecoderRegion (decoder : Option Decoder) (args : RegionArgs) :
    Option Decoder :=
  match decoder with
  | none => none
  | some decoder => if !decoder.SupportsSeeking then none else some (.region decoder args)

/-- The three overloads of `Decoder::CreateDecoderForInputSourceRegion` (lines 273 to 355), which
differ in the region arguments only. -/
def CreateDecoderForInputSourceRegion (inputSource : Option InputSourceRef) (args : RegionArgs)
    (rt : Runtime) : Option Decoder × Runtime :=
  match inputSource with
  | none => (none, rt)
  | some inputSource =>
    if !(rt.inputSources inputSource).supportsSeeking then (none, rt) else
    match CreateDecoderForInputSource.noMIMEType (some inputSource) rt with
    | (none, rt) => (none, rt)
    | (some decoder, rt) =>
      if !decoder.SupportsSeeking then (none, rt.deleteDecoder decoder) else
      match CreateDecoderForDecoderRegion (some decoder) args with
      | none => (none, rt.deleteDecoder decoder)
      | some regionDecoder => (some regionDecoder, rt)

/-- The three overloads of `Decoder::CreateDecoderForURLRegion` (lines 219 to 271), which differ
in the region arguments only. -/
def CreateDecoderForURLRegion (url : Option CFURL) (args : RegionArgs) (rt : Runtime) :
    Option Decoder × Runtime :=
  match url with
  | none => (none, rt)
  | some url =>
    match rt.CreateInputSourceForURL url with
    | (none, rt) => (none, rt)
    | (some inputSource, rt) =>
      match CreateDecoderForInputSourceRegion (some inputSource) args rt with
      | (some decoder, rt) => (some decoder, rt)
      | (none, rt) => (none, rt.deleteInputSource inputSource)

/-! ## The Musepack metadata kind (`Metadata/MusepackMetadata.cpp`, lines 43 to 73) -/

/-- The result type `CFComparisonResult` of CFBase.h. -/
abbrev CFComparisonResult := Int

/-- The result `kCFCompareLessThan`. -/
def kCFCompareLessThan : CFComparisonResult := -1

/-- The result `kCFCompareEqualTo`. -/
def kCFCompareEqualTo : CFComparisonResult := 0

/-- The result `kCFCompareGreaterThan`. -/
def kCFCompareGreaterThan : CFComparisonResult := 1

/-- The compare option `kCFCompareCaseInsensitive`. -/
def kCFCompareCaseInsensitive : Nat := 1

/-- The CoreFoundation function `CFStringCompare(theString1, theString2, compareOptions)`: the
strings are compared character by character, case folded first when
`kCFCompareCaseInsensitive` is among the options.  The folding is that of the letters A to Z,
which are the only cased characters in the strings the metadata kind compares with. -/
def CFStringCompare (theString1 theString2 : String) (compareOptions : Nat) :
    CFComparisonResult :=
  let fold : String → List Char := fun s =>
    if compareOptions % 2 = 1 then s.data.map Char.toLower else s.data
  if fold theString1 = fold theString2 then kCFCompareEqualTo
  else if fold theString1 < fold theString2 then kCFCompareLessThan
  else kCFCompareGreaterThan

/-- The function `MusepackMetadata::CreateSupportedFileExtensions` (lines 43 to 47): the array
it creates. -/
def MusepackMetadata.CreateSupportedFileExtensions : List String :=
  ["mpc"]

/-- The function `MusepackMetadata::CreateSupportedMIMETypes` (lines 49 to 53): the array it
creates. -/
def MusepackMetadata.CreateSupportedMIMETypes : List String :=
  ["audio/musepack"]

/-- The function `MusepackMetadata::HandlesFilesWithExtension` (lines 55 to 63). -/
def MusepackMetadata.HandlesFilesWithExtension (extension : String) : Bool :=
  if kCFCompareEqualTo = CFStringCompare extension "mpc" kCFCompareCaseInsensitive then true
  else false

/-- The function `MusepackMetadata::HandlesMIMEType` (lines 65 to 73). -/
def MusepackMetadata.HandlesMIMEType (mimeType : String) : Bool :=
  if kCFCompareEqualTo = CFStringCompare mimeType "audio/mpeg" kCFCompareCaseInsensitive then true
  else false

/-! ## Predicates used to state the properties -/

/-- The calls a run from `p` to `q` has added to the log. -/
def AudioPlayer.newCalls (p q : AudioPlayer) : List (AUCall × OSStatus) :=
  q.calls.drop p.calls.length

/-- The status with which pushing the new format onto the nodes (line 916) returns, when
`SetAUGraphFormat` gets that far. -/
def SetAUGraphFormat.formatStepStatus (p : AudioPlayer) (format : AudioStreamBasicDescription) :
    Option OSStatus :=
  match SetAUGraphFormat.prepare p with
  | .ok (_, q) => some (SetPropertyOnAUGraphNodes q kAudioUnitProperty_StreamFormat format).1
  | .error _ => none

/-- The run from `p` to `q` has issued calls `T`. -/
def AudioPlayer.Issued (p q : AudioPlayer) (T : List (AUCall × OSStatus)) : Prop :=
  q.calls = p.calls ++ T

/-- A run that leaves the toolbox responses and the player's own members alone. -/
structure Frame (p q : AudioPlayer) : Prop where
  hal : q.hal = p.hal
  format : q.mAUGraphFormat = p.mAUGraphFormat
  limiterNode : q.mLimiterNode = p.mLimiterNode
  outputNode : q.mOutputNode = p.mOutputNode
  framesDecoded : q.mFramesDecoded = p.mFramesDecoded
  framesRendered : q.mFramesRendered = p.mFramesRendered
  ringBuffer : q.mRingBuffer = p.mRingBuffer
  decoder : q.d = p.d
  /-- The log has only grown. -/
  grown : ∃ T, q.calls = p.calls ++ T
  /-- Every call added to the log carries the response of the toolbox at its position. -/
  faithful : ∀ i x, p.calls.length ≤ i → q.calls[i]? = some x → x.2 = p.hal i

/-- Every call of the list returned `noErr`. -/
def AllOk (T : List (AUCall × OSStatus)) : Prop :=
  ∀ x ∈ T, x.2 = noErr

/-- No call of the list establishes an interaction. -/
def NoInteraction (T : List (AUCall × OSStatus)) : Prop :=
  ∀ x ∈ T, x.1.isInteraction = false

/-- The calls `T` end in a failed call, every call before it succeeded, and `r` is the status of
the failed call when that call is structural. -/
def Stops (r : OSStatus) (T : List (AUCall × OSStatus)) : Prop :=
  r ≠ noErr ∧ ∃ T0 c s, T = T0 ++ [(c, s)] ∧ AllOk T0 ∧ s ≠ noErr ∧
    (c.isStructural = true → s = r)

/-- One call `c` with status `r` and effect `eff` leads from `p` to `q`. -/
structure CallStep (p q : AudioPlayer) (c : AUCall) (r : OSStatus) (eff : AUGraph → AUGraph) :
    Prop where
  frame : Frame p q
  calls : q.calls = p.calls ++ [(c, r)]
  status : r = p.hal p.calls.length
  graph : q.mAUGraph = if r = noErr then eff p.mAUGraph else p.mAUGraph

/-- The run from `p` to `q` issued the calls `T`, all of which succeeded, and left the player's
members alone. -/
structure Reached (p q : AudioPlayer) (T : List (AUCall × OSStatus)) : Prop where
  frame : Frame p q
  calls : q.calls = p.calls ++ T
  allOk : AllOk T

/-- Every structural call of the list returned `noErr`. -/
def Clean (T : List (AUCall × OSStatus)) : Prop :=
  ∀ x ∈ T, x.1.isStructural = true → x.2 = noErr

/-- The interactions and the run state of the graph of `q`. -/
structure GraphIs (q : AudioPlayer) (ints : List AUNodeInteraction) (init running : Bool) :
    Prop where
  interactions : q.mAUGraph.interactions = ints
  isInitialized : q.mAUGraph.isInitialized = init
  isRunning : q.mAUGraph.isRunning = running

/-- What an early return of `SetAUGraphFormat.prepare` leaves behind: the interactions are still
there, the run state has at most been stepped down, and the log ends in the failed call. -/
structure PrepareFailed (p : AudioPlayer) (e : OSStatus) (q : AudioPlayer) : Prop where
  frame : Frame p q
  interactions : q.mAUGraph.interactions = p.mAUGraph.interactions
  isInitialized : q.mAUGraph.isInitialized = true → p.mAUGraph.isInitialized = true
  isRunning : q.mAUGraph.isRunning = true → p.mAUGraph.isRunning = true
  calls : ∃ T, q.calls = p.calls ++ T ∧ Stops e T

/-- What a completed `SetAUGraphFormat.prepare` leaves behind: the graph is stopped,
uninitialized and without interactions, and the locals hold what was there before. -/
structure Prepared (p : AudioPlayer) (l : SetAUGraphFormat.Locals) (q : AudioPlayer) : Prop where
  frame : Frame p q
  graph : GraphIs q [] false false
  locals : l = ⟨p.mAUGraph.isRunning, p.mAUGraph.isInitialized, p.mAUGraph.interactions.length,
    p.mAUGraph.interactions.map some⟩
  calls : ∃ T, q.calls = p.calls ++ T ∧ AllOk T ∧ ∀ x ∈ T, x.1.isInteraction = false

/-- What `SetAUGraphFormat` does once `SetAUGraphFormat.prepare` has completed with locals `l` in
state `q`: `q1` and `T2` are the state after and the calls of lines 914 to 933, `q2` and `T3` the
state after and the calls of lines 936 to 1009, `r` the status returned. -/
structure FormatRun (p : AudioPlayer) (format : AudioStreamBasicDescription)
    (q q1 q2 : AudioPlayer) (T2 T3 : List (AUCall × OSStatus)) (r : OSStatus) : Prop where
  result : SetAUGraphFormat p format = (r, q2)
  hal1 : q1.hal = q.hal
  format1 : q1.mAUGraphFormat =
    (if (SetPropertyOnAUGraphNodes q kAudioUnitProperty_StreamFormat format).1 = noErr
      then format else q.mAUGraphFormat)
  graph1 : GraphIs q1 [] false false
  calls1 : q1.calls = q.calls ++ T2
  plain1 : ∀ x ∈ T2, x.1.isStructural = false
  frame1 : Frame q { q1 with mAUGraphFormat := q.mAUGraphFormat }
  frame2 : Frame q1 q2
  calls2 : q2.calls = q1.calls ++ T3
  outcome : (r = noErr ∧ AllOk T3 ∧
      T3.filter (fun x => x.1.isInteraction) =
        p.mAUGraph.interactions.map (fun x => (x.restoreCall, noErr)) ∧
      GraphIs q2 p.mAUGraph.interactions p.mAUGraph.isInitialized p.mAUGraph.isRunning) ∨
    (Stops r T3 ∧
      (∃ k, q2.mAUGraph.interactions = p.mAUGraph.interactions.take k ∧
        ((∀ x ∈ T3, x.1.isInteraction = true → x.2 = noErr) →
          k = p.mAUGraph.interactions.length)) ∧
      (q2.mAUGraph.isInitialized = true → p.mAUGraph.isInitialized = true) ∧
      q2.mAUGraph.isRunning = false)

/-- A run that leaves the toolbox responses, the player's members, the interactions and the run
state of the graph alone, and issues no structural call. -/
structure Quiet (p q : AudioPlayer) : Prop where
  frame : Frame p q
  interactions : q.mAUGraph.interactions = p.mAUGraph.interactions
  isInitialized : q.mAUGraph.isInitialized = p.mAUGraph.isInitialized
  isRunning : q.mAUGraph.isRunning = p.mAUGraph.isRunning
  calls : ∃ T, q.calls = p.calls ++ T ∧ ∀ x ∈ T, x.1.isStructural = false

/-- What a creation helper may do to the object store without touching an input source the caller
owns: `rt2` has the same `delete` log as `rt`, and the decoders destroyed on the way had been
detached from their input source first. -/
structure KeepsInputSources (rt rt2 : Runtime) : Prop where
  auto : rt2.sAutomaticallyOpenDecoders = rt.sAutomaticallyOpenDecoders
  deleted : rt2.deleted = rt.deleted
  destroyed : ∃ ds, rt2.destroyed = rt.destroyed ++ ds ∧ ∀ d ∈ ds, d.mInputSource = none

/-- What a creation helper that opens decoders automatically may do to the object store: the
decoders destroyed on the way are closed ones. -/
structure DestroysClosed (rt rt2 : Runtime) : Prop where
  auto : rt2.sAutomaticallyOpenDecoders = rt.sAutomaticallyOpenDecoders
  destroyed : ∃ ds, rt2.destroyed = rt.destroyed ++ ds ∧ ∀ d ∈ ds, d.IsOpen = false

/-- The two frame counters of `q` are those of `p`. -/
structure SameCounters (p q : AudioPlayer) : Prop where
  framesDecoded : q.mFramesDecoded = p.mFramesDecoded
  framesRendered : q.mFramesRendered = p.mFramesRendered

/-- The toolbox calls that only read: they have no effect on the graph. -/
def AUCall.isQuery : AUCall → Bool
  | .AUGraphIsRunning => true
  | .AUGraphIsInitialized => true
  | .AUGraphGetNumberOfInteractions => true
  | .AUGraphGetInteractionInfo _ => true
  | .AUGraphGetNodeCount => true
  | .AUGraphGetIndNode _ => true
  | .AUGraphNodeInfo _ => true
  | .AudioUnitGetProperty _ _ _ _ => true
  | _ => false

/-- The state-changing calls among those a run from `p` to `q` has added to the log. -/
def AudioPlayer.stateChanges (p q : AudioPlayer) : List (AUCall × OSStatus) :=
  (p.newCalls q).filter (fun x => !x.1.isQuery)

/-- The effect on the graph of a call that `SetPropertyOnAUGraphNodes` issues: setting a property
records it on the unit, and the queries change nothing. -/
def AUCall.propertyEffect : AUCall → AUGraph → AUGraph
  | .AudioUnitSetProperty au propertyID scope element data, g =>
    { g with nodes := g.nodes.map (fun n => n.setProperty au propertyID scope element data) }
  | _, g => g

/-- The log that issuing the calls `cs` one after the other leaves, the first at position `n` of
the toolbox responses, when the first call that fails ends the run. -/
def issuedUntilFailure (hal : Nat → OSStatus) : Nat → List AUCall → List (AUCall × OSStatus)
  | _, [] => []
  | n, c :: cs =>
    if hal n = noErr then (c, hal n) :: issuedUntilFailure hal (n + 1) cs else [(c, hal n)]

/-- The status of the first of the calls `cs` that fails, `noErr` when none does. -/
def firstFailure (hal : Nat → OSStatus) : Nat → List AUCall → OSStatus
  | _, [] => noErr
  | n, _ :: cs => if hal n = noErr then firstFailure hal (n + 1) cs else hal n

/-- The graph after the calls of a log: each call that returned `noErr` has had its effect. -/
def AUGraph.after (g : AUGraph) (T : List (AUCall × OSStatus)) : AUGraph :=
  T.foldl (fun g x => if x.2 = noErr then x.1.propertyEffect g else g) g

/-- The units of a graph in node order: node handle, input and output element count. -/
def AUGraph.units (g : AUGraph) : List (AUNode × Nat × Nat) :=
  g.nodes.map (fun n => (n.node, n.inputElementCount, n.outputElementCount))

/-- The calls that visiting the node at index `i` takes when none of them fails: fetch the node
and its unit; on the output node set the property once, on element 0 of the input scope; on any
other node set it on the elements `0..k-1` of the input scope and then on the elements `0..m-1`
of the output scope, `k` and `m` being the element counts asked of the unit. -/
def SetPropertyOnAUGraphNodes.nodeCalls (g : AUGraph) (outputNode : AUNode) (propertyID : Nat)
    (propertyData : AudioStreamBasicDescription) (i : Nat) : List AUCall :=
  let node : AUNode := ((g.nodes[i]?).map (fun n => n.node)).getD 0
  [AUCall.AUGraphGetIndNode i, AUCall.AUGraphNodeInfo node] ++
    (if outputNode = node then
      [AUCall.AudioUnitSetProperty (some node) propertyID .Input 0 propertyData]
    else
      [AUCall.AudioUnitGetProperty (some node) kAudioUnitProperty_ElementCount .Input 0] ++
        (List.range (g.elementCount (some node) .Input)).map
          (fun j => AUCall.AudioUnitSetProperty (some node) propertyID .Input j propertyData) ++
        [AUCall.AudioUnitGetProperty (some node) kAudioUnitProperty_ElementCount .Output 0] ++
        (List.range (g.elementCount (some node) .Output)).map
          (fun j => AUCall.AudioUnitSetProperty (some node) propertyID .Output j propertyData))

/-- The calls that pushing a property onto the nodes of the graph takes when none of them fails:
the node count, then the calls for each node, in index order. -/
def SetPropertyOnAUGraphNodes.specifiedCalls (g : AUGraph) (outputNode : AUNode)
    (propertyID : Nat) (propertyData : AudioStreamBasicDescription) : List AUCall :=
  AUCall.AUGraphGetNodeCount ::
    ((List.range g.nodes.length).map
      (SetPropertyOnAUGraphNodes.nodeCalls g outputNode propertyID propertyData)).flatten

/-- The run from `p` to `q` has issued the calls `cs` in turn up to the first that failed, `r` is
the status of that call (`noErr` when none failed), and the graph has the effects of the calls
that succeeded. -/
structure Ran (p q : AudioPlayer) (r : OSStatus) (cs : List AUCall) : Prop where
  frame : Frame p q
  calls : q.calls = p.calls ++ issuedUntilFailure p.hal p.calls.length cs
  status : r = firstFailure p.hal p.calls.length cs
  graph : q.mAUGraph = p.mAUGraph.after (issuedUntilFailure p.hal p.calls.length cs)

/-- The first registered kind, in registration order, that answers the capability query
`handles` with true and whose `Open` succeeds on the input source `source`. -/
def Runtime.firstKindThatOpens (rt : Runtime) (handles : SubclassInfo → Bool)
    (source : InputSource) : Option SubclassInfo :=
  rt.sRegisteredSubclasses.find? (fun k => handles k && k.opens source)

/-- The decoders that a resolution stage builds and fails to open when decoders open
automatically, in the order in which it meets them: one for each registered kind that handles the
key, up to the first kind that handles the key and opens; each as it is when it is destroyed,
detached from the input source and closed. -/
def Runtime.failedToOpen (rt : Runtime) (handles : SubclassInfo → Bool)
    (source : InputSource) : List Decoder :=
  ((rt.sRegisteredSubclasses.takeWhile (fun k => !(handles k && k.opens source))).filter
    handles).map (fun k => Decoder.file k none false)

/-! ## Example inputs -/

/-- A stereo 16-bit stream at 44.1 kHz. -/
def stereo44 : AudioStreamBasicDescription :=
  ⟨44100, 1819304813, 12, 4, 1, 4, 2, 16, 0⟩

/-- A stereo 16-bit stream at 48 kHz. -/
def stereo48 : AudioStreamBasicDescription :=
  ⟨48000, 1819304813, 12, 4, 1, 4, 2, 16, 0⟩

/-- The graph `CreateAUGraph` builds, running: peak limiter (node 1) into output (node 2), and
the render callback on input 0 of the limiter. -/
def playingGraph : AUGraph :=
  { nodes := [⟨1, 1, 1, []⟩, ⟨2, 1, 1, []⟩],
    interactions := [.connection ⟨1, 0, 2, 0⟩, .inputCallback ⟨1, 0, ⟨4096, 8192⟩⟩],
    isInitialized := true,
    isRunning := true }

/-- A player over `playingGraph` with active format `stereo44` and the given toolbox
responses. -/
def playingPlayer (hal : Nat → OSStatus) : AudioPlayer :=
  { hal := hal, calls := [], mAUGraph := playingGraph, mLimiterNode := 1, mOutputNode := 2,
    mAUGraphFormat := stereo44, mFramesDecoded := 0, mFramesRendered := 0 }

/-- The toolbox that fails the call at position `k` with status `e` and succeeds otherwise. -/
def failingAt (k : Nat) (e : OSStatus) : Nat → OSStatus :=
  fun n => if n = k then e else noErr

/-- The status `kAudioUnitErr_FormatNotSupported`. -/
def kAudioUnitErr_FormatNotSupported : OSStatus := -10868

/-- A decoder kind for Musepack files: extension "mpc", MIME type "audio/musepack"; its decoders
open any source and seek. -/
def musepackKind : SubclassInfo :=
  { name := "Musepack",
    mHandlesFilesWithExtension := fun e => e == "mpc",
    mHandlesMIMEType := fun m => m == "audio/musepack",
    opens := fun _ => true,
    supportsSeeking := true }

/-- A decoder kind for Ogg Vorbis files: extensions "ogg" and "oga", MIME type
"audio/ogg-vorbis". -/
def vorbisKind : SubclassInfo :=
  { name := "OggVorbis",
    mHandlesFilesWithExtension := fun e => e == "ogg" || e == "oga",
    mHandlesMIMEType := fun m => m == "audio/ogg-vorbis",
    opens := fun _ => true,
    supportsSeeking := true }

/-- A decoder kind for Ogg FLAC files, which claims the extensions "ogg" and "oga" as well. -/
def oggFLACKind : SubclassInfo :=
  { name := "OggFLAC",
    mHandlesFilesWithExtension := fun e => e == "ogg" || e == "oga",
    mHandlesMIMEType := fun m => m == "audio/ogg-flac",
    opens := fun _ => true,
    supportsSeeking := true }

/-- A decoder kind for MPEG streams whose decoders do not seek. -/
def streamKind : SubclassInfo :=
  { name := "MPEGStream",
    mHandlesFilesWithExtension := fun e => e == "mp3",
    mHandlesMIMEType := fun m => m == "audio/mpeg",
    opens := fun _ => true,
    supportsSeeking := false }

/-- The URL of a file with extension "ogg". -/
def oggURL : CFURL :=
  { string := "file:///music/track.ogg", pathExtension := some "ogg" }

/-- The URL of a file with extension "mp3". -/
def mp3URL : CFURL :=
  { string := "file:///music/track.mp3", pathExtension := some "mp3" }

/-- A runtime with the given registry in which decoders are not opened automatically; the one
input source, at address 0, is a closed seekable source for the given URL, and a new input source
of the same kind can be created for every URL. -/
def exampleRuntime (registry : List SubclassInfo) (url : Option CFURL) : Runtime :=
  { sAutomaticallyOpenDecoders := false,
    sRegisteredSubclasses := registry,
    inputSources := fun _ => ⟨url, false, true, true⟩,
    sourceForURL := fun u => some ⟨some u, false, true, true⟩,
    nextRef := 1,
    deleted := [],
    destroyed := [] }

/-- A ring buffer that holds the frames at positions 0 to 1023: a `Fetch` of a range inside
them fills the buffers (with the byte 7) and reports OK, any other reports
`kCARingBufferError_TooMuch` and leaves the buffers as they are. -/
def storedRingBuffer : CARingBuffer :=
  { mNumberChannels := 2, mBytesPerFrame := 4, mCapacityFrames := 1024,
    fetch := fun _ nFrames startRead _ abl =>
      if startRead + nFrames ≤ 1024 then (kCARingBufferError_OK, abl.map (fun b => b.map (fun _ => 7)))
      else (kCARingBufferError_TooMuch, abl) }

/-- The playing player with `storedRingBuffer` and the given number of frames rendered. -/
def renderingPlayer (framesRendered : Nat) : AudioPlayer :=
  { playingPlayer (fun _ => noErr) with
    mRingBuffer := storedRingBuffer, mFramesRendered := framesRendered }

/-- A decoder of a stereo 48 kHz stream. -/
def stereo48Decoder : AudioDecoder :=
  { address := 16384, mFormat := stereo48 }

/-! # Properties -/

/-! ## The toolbox calls -/

theorem Frame.frame_refl (p : AudioPlayer) : Frame p p := by
  refine ⟨rfl, rfl, rfl, rfl, rfl, rfl, rfl, rfl, ⟨[], by simp⟩, ?_⟩
  intro i x hi hx
  rw [List.getElem?_eq_none hi] at hx
  cases hx

theorem Frame.frame_trans {p q r : AudioPlayer} (h1 : Frame p q) (h2 : Frame q r) : Frame p r := by
  obtain ⟨T1, hT1⟩ := h1.grown
  obtain ⟨T2, hT2⟩ := h2.grown
  refine ⟨h2.hal.trans h1.hal, h2.format.trans h1.format, h2.limiterNode.trans h1.limiterNode,
    h2.outputNode.trans h1.outputNode, h2.framesDecoded.trans h1.framesDecoded,
    h2.framesRendered.trans h1.framesRendered, h2.ringBuffer.trans h1.ringBuffer,
    h2.decoder.trans h1.decoder, ⟨T1 ++ T2, ?_⟩, ?_⟩
  · rw [hT2, hT1, List.append_assoc]
  · intro i x hi hx
    by_cases hq : i < q.calls.length
    · rw [hT2, List.getElem?_append_left hq] at hx
      exact h1.faithful i x hi hx
    · rw [← h1.hal]
      exact h2.faithful i x (by omega) hx

theorem Frame.allOk {p q : AudioPlayer} {T : List (AUCall × OSStatus)} (h : Frame p q)
    (hok : ∀ n, p.hal n = noErr) (hc : q.calls = p.calls ++ T) : AllOk T := by
  intro x hx
  obtain ⟨j, hj⟩ := List.getElem?_of_mem hx
  have h1 : q.calls[p.calls.length + j]? = some x := by
    rw [hc, List.getElem?_append_right (by omega)]
    simpa using hj
  rw [h.faithful _ x (by omega) h1]
  exact hok _

theorem Frame.of_call (p : AudioPlayer) (c : AUCall) (g : AUGraph) :
    Frame p { p with calls := p.calls ++ [(c, p.hal p.calls.length)], mAUGraph := g } := by
  refine ⟨rfl, rfl, rfl, rfl, rfl, rfl, rfl, rfl, ⟨_, rfl⟩, ?_⟩
  intro i x hi hx
  have hi2 : i = p.calls.length := by
    by_contra hne
    have : (p.calls ++ [(c, p.hal p.calls.length)])[i]? = none := by
      apply List.getElem?_eq_none
      simp only [List.length_append, List.length_singleton]
      omega
    simp only at hx
    rw [this] at hx
    cases hx
  subst hi2
  simp only [List.getElem?_concat_length] at hx
  cases hx
  rfl

theorem call_step (p : AudioPlayer) (c : AUCall) (eff : AUGraph → AUGraph) :
    CallStep p (p.call c eff).2 c (p.call c eff).1 eff := by
  unfold AudioPlayer.call
  by_cases h : p.hal p.calls.length = noErr
  · have h2 : ¬ (noErr ≠ p.hal p.calls.length) := fun e => e h.symm
    rw [if_neg h2]
    exact ⟨Frame.of_call p c _, rfl, rfl, by simp [h]⟩
  · have h2 : noErr ≠ p.hal p.calls.length := fun e => h e.symm
    rw [if_pos h2]
    exact ⟨Frame.of_call p c p.mAUGraph, rfl, rfl, by simp [h]⟩

theorem Quiet.quiet_refl (p : AudioPlayer) : Quiet p p :=
  ⟨Frame.frame_refl p, rfl, rfl, rfl, [], by simp, by simp⟩

theorem Quiet.quiet_trans {p q r : AudioPlayer} (h1 : Quiet p q) (h2 : Quiet q r) : Quiet p r := by
  obtain ⟨T1, hT1, hs1⟩ := h1.calls
  obtain ⟨T2, hT2, hs2⟩ := h2.calls
  refine ⟨h1.frame.frame_trans h2.frame,
    h2.interactions.trans h1.interactions, h2.isInitialized.trans h1.isInitialized,
    h2.isRunning.trans h1.isRunning, T1 ++ T2, ?_, ?_⟩
  · rw [hT2, hT1, List.append_assoc]
  · intro x hx
    rcases List.mem_append.1 hx with h | h
    · exact hs1 x h
    · exact hs2 x h

theorem quiet_call (p : AudioPlayer) (c : AUCall) (eff : AUGraph → AUGraph)
    (hc : c.isStructural = false)
    (hi : (eff p.mAUGraph).interactions = p.mAUGraph.interactions)
    (hn : (eff p.mAUGraph).isInitialized = p.mAUGraph.isInitialized)
    (hr : (eff p.mAUGraph).isRunning = p.mAUGraph.isRunning) : Quiet p (p.call c eff).2 := by
  have h := call_step p c eff
  refine ⟨h.frame, ?_, ?_, ?_, [(c, (p.call c eff).1)], h.calls, ?_⟩
  · rw [h.graph]; split <;> simp [hi]
  · rw [h.graph]; split <;> simp [hn]
  · rw [h.graph]; split <;> simp [hr]
  · intro x hx
    simp only [List.mem_singleton] at hx
    subst hx
    exact hc

theorem AUGraphGetNodeCount_quiet (p : AudioPlayer) (o : Nat) :
    Quiet p (AUGraphGetNodeCount p o).2.2 := by
  have h := quiet_call p .AUGraphGetNodeCount id rfl rfl rfl rfl
  unfold AUGraphGetNodeCount
  split
  rename_i r q heq
  rw [heq] at h
  split <;> exact h

theorem AUGraphGetIndNode_quiet (p : AudioPlayer) (i : Nat) (o : AUNode) :
    Quiet p (AUGraphGetIndNode p i o).2.2 := by
  have h := quiet_call p (.AUGraphGetIndNode i) id rfl rfl rfl rfl
  unfold AUGraphGetIndNode
  split
  rename_i r q heq
  rw [heq] at h
  split <;> exact h

theorem AUGraphNodeInfo_quiet (p : AudioPlayer) (n : AUNode) (o : AudioUnit) :
    Quiet p (AUGraphNodeInfo p n o).2.2 := by
  have h := quiet_call p (.AUGraphNodeInfo n) id rfl rfl rfl rfl
  unfold AUGraphNodeInfo
  split
  rename_i r q heq
  rw [heq] at h
  split <;> exact h

theorem AudioUnitGetProperty_ElementCount_quiet (p : AudioPlayer) (au : AudioUnit)
    (s : AudioUnitScope) (o : Nat) : Quiet p (AudioUnitGetProperty_ElementCount p au s o).2.2 := by
  have h := quiet_call p (.AudioUnitGetProperty au kAudioUnitProperty_ElementCount s 0) id rfl
    rfl rfl rfl
  unfold AudioUnitGetProperty_ElementCount
  split
  rename_i r q heq
  rw [heq] at h
  split <;> exact h

theorem AudioUnitSetProperty_quiet (p : AudioPlayer) (au : AudioUnit) (pid : Nat)
    (s : AudioUnitScope) (e : Nat) (d : AudioStreamBasicDescription) :
    Quiet p (AudioUnitSetProperty p au pid s e d).2 :=
  quiet_call p _ _ rfl rfl rfl rfl

theorem elements_quiet (au : AudioUnit) (pid : Nat) (s : AudioUnitScope)
    (d : AudioStreamBasicDescription) (n j : Nat) (p : AudioPlayer) :
    Quiet p (SetPropertyOnAUGraphNodes.elements au pid s d n j p).2 := by
  induction n generalizing j p with
  | zero => exact Quiet.quiet_refl p
  | succ n ih =>
    unfold SetPropertyOnAUGraphNodes.elements
    have h := AudioUnitSetProperty_quiet p au pid s j d
    rcases hx : AudioUnitSetProperty p au pid s j d with ⟨r, q⟩
    rw [hx] at h
    simp only
    split
    · exact h
    · exact h.quiet_trans (ih (j + 1) q)

theorem node_quiet (pid : Nat) (d : AudioStreamBasicDescription) (i : Nat) (p : AudioPlayer) :
    Quiet p (SetPropertyOnAUGraphNodes.node pid d i p).2 := by
  unfold SetPropertyOnAUGraphNodes.node
  have h1 := AUGraphGetIndNode_quiet p i 0
  rcases hx1 : AUGraphGetIndNode p i 0 with ⟨r1, node, p1⟩
  rw [hx1] at h1
  simp only
  split
  · exact h1
  have h2 := AUGraphNodeInfo_quiet p1 node none
  rcases hx2 : AUGraphNodeInfo p1 node none with ⟨r2, au, p2⟩
  rw [hx2] at h2
  simp only
  split
  · exact h1.quiet_trans h2
  split
  · exact (h1.quiet_trans h2).quiet_trans (AudioUnitSetProperty_quiet p2 au pid .Input 0 d)
  have h3 := AudioUnitGetProperty_ElementCount_quiet p2 au .Input 0
  rcases hx3 : AudioUnitGetProperty_ElementCount p2 au .Input 0 with ⟨r3, n3, p3⟩
  rw [hx3] at h3
  simp only
  split
  · exact (h1.quiet_trans h2).quiet_trans h3
  have h4 := elements_quiet au pid .Input d n3 0 p3
  rcases hx4 : SetPropertyOnAUGraphNodes.elements au pid .Input d n3 0 p3 with ⟨r4, p4⟩
  rw [hx4] at h4
  simp only
  split
  · exact ((h1.quiet_trans h2).quiet_trans h3).quiet_trans h4
  have h5 := AudioUnitGetProperty_ElementCount_quiet p4 au .Output 0
  rcases hx5 : AudioUnitGetProperty_ElementCount p4 au .Output 0 with ⟨r5, n5, p5⟩
  rw [hx5] at h5
  simp only
  split
  · exact (((h1.quiet_trans h2).quiet_trans h3).quiet_trans h4).quiet_trans h5
  · exact ((((h1.quiet_trans h2).quiet_trans h3).quiet_trans h4).quiet_trans h5).quiet_trans
      (elements_quiet au pid .Output d n5 0 p5)

theorem loop_quiet (pid : Nat) (d : AudioStreamBasicDescription) (n i : Nat) (p : AudioPlayer) :
    Quiet p (SetPropertyOnAUGraphNodes.loop pid d n i p).2 := by
  induction n generalizing i p with
  | zero => exact Quiet.quiet_refl p
  | succ n ih =>
    unfold SetPropertyOnAUGraphNodes.loop
    have h := node_quiet pid d i p
    rcases hx : SetPropertyOnAUGraphNodes.node pid d i p with ⟨r, q⟩
    rw [hx] at h
    simp only
    split
    · exact h
    · exact h.quiet_trans (ih (i + 1) q)

theorem SetPropertyOnAUGraphNodes_quiet (p : AudioPlayer) (pid : Nat)
    (d : AudioStreamBasicDescription) : Quiet p (SetPropertyOnAUGraphNodes p pid d).2 := by
  unfold SetPropertyOnAUGraphNodes
  have h := AUGraphGetNodeCount_quiet p 0
  rcases hx : AUGraphGetNodeCount p 0 with ⟨r, n, q⟩
  rw [hx] at h
  simp only
  split
  · exact h
  · exact h.quiet_trans (loop_quiet pid d n 0 q)

/-! ## Call logs -/

theorem AllOk.allOk_nil : AllOk [] := by
  intro x hx; cases hx

theorem AllOk.allOk_append {T1 T2 : List (AUCall × OSStatus)} (h1 : AllOk T1) (h2 : AllOk T2) :
    AllOk (T1 ++ T2) := by
  intro x hx
  rcases List.mem_append.1 hx with h | h
  · exact h1 x h
  · exact h2 x h

theorem AllOk.allOk_single (c : AUCall) : AllOk [(c, noErr)] := by
  intro x hx
  simp only [List.mem_singleton] at hx
  subst hx; rfl

theorem NoInteraction.plain_nil : NoInteraction [] := by
  intro x hx; cases hx

theorem NoInteraction.plain_append {T1 T2 : List (AUCall × OSStatus)} (h1 : NoInteraction T1)
    (h2 : NoInteraction T2) : NoInteraction (T1 ++ T2) := by
  intro x hx
  rcases List.mem_append.1 hx with h | h
  · exact h1 x h
  · exact h2 x h

theorem NoInteraction.plain_single (c : AUCall) (r : OSStatus) (hc : c.isInteraction = false) :
    NoInteraction [(c, r)] := by
  intro x hx
  simp only [List.mem_singleton] at hx
  subst hx; exact hc

theorem NoInteraction.plain_optional (b : Bool) (c : AUCall) (r : OSStatus)
    (hc : c.isInteraction = false) :
    NoInteraction (if b = true then [(c, r)] else []) := by
  cases b
  · exact NoInteraction.plain_nil
  · exact NoInteraction.plain_single c r hc

theorem AllOk.allOk_optional (b : Bool) (c : AUCall) :
    AllOk (if b = true then [(c, noErr)] else []) := by
  cases b
  · exact AllOk.allOk_nil
  · exact AllOk.allOk_single c

theorem Stops.append_left {r : OSStatus} {T1 T2 : List (AUCall × OSStatus)} (h1 : AllOk T1)
    (h2 : Stops r T2) : Stops r (T1 ++ T2) := by
  obtain ⟨hr, T0, c, s, hT, hA, hs, hc⟩ := h2
  exact ⟨hr, T1 ++ T0, c, s, by rw [hT, List.append_assoc], h1.allOk_append hA, hs, hc⟩

theorem Stops.stops_single {r : OSStatus} (c : AUCall) (hr : r ≠ noErr) : Stops r [(c, r)] :=
  ⟨hr, [], c, r, rfl, AllOk.allOk_nil, hr, fun _ => rfl⟩

theorem Reached.reached_refl (p : AudioPlayer) : Reached p p [] :=
  ⟨Frame.frame_refl p, by simp, AllOk.allOk_nil⟩

theorem Reached.step {p q q1 : AudioPlayer} {T : List (AUCall × OSStatus)} {c : AUCall}
    {r : OSStatus} {eff : AUGraph → AUGraph} (h : Reached p q T) (hs : CallStep q q1 c r eff)
    (hr : r = noErr) : Reached p q1 (T ++ [(c, noErr)]) := by
  refine ⟨h.frame.frame_trans hs.frame, ?_, h.allOk.allOk_append (AllOk.allOk_single c)⟩
  rw [hs.calls, h.calls, hr, List.append_assoc]

theorem Reached.fail {p q q1 : AudioPlayer} {T : List (AUCall × OSStatus)} {c : AUCall}
    {r : OSStatus} {eff : AUGraph → AUGraph} (h : Reached p q T) (hs : CallStep q q1 c r eff)
    (hr : r ≠ noErr) :
    Frame p q1 ∧ q1.mAUGraph = q.mAUGraph ∧ ∃ T1, q1.calls = p.calls ++ T1 ∧ Stops r T1 := by
  refine ⟨h.frame.frame_trans hs.frame, ?_, T ++ [(c, r)], ?_, Stops.append_left h.allOk
    (Stops.stops_single c hr)⟩
  · rw [hs.graph, if_neg hr]
  · rw [hs.calls, h.calls, List.append_assoc]

theorem CallStep.graph_ok {p q : AudioPlayer} {c : AUCall} {r : OSStatus}
    {eff : AUGraph → AUGraph} (hs : CallStep p q c r eff) (hr : r = noErr) :
    q.mAUGraph = eff p.mAUGraph := by
  rw [hs.graph, if_pos hr]

/-! ## The queries -/

theorem AUGraphIsRunning_spec (p : AudioPlayer) (o : Bool) :
    ∃ r q, AUGraphIsRunning p o = (r, (if r = noErr then p.mAUGraph.isRunning else o), q) ∧
      CallStep p q .AUGraphIsRunning r id := by
  have h := call_step p .AUGraphIsRunning id
  unfold AUGraphIsRunning
  rcases hx : p.call .AUGraphIsRunning id with ⟨r, q⟩
  rw [hx] at h
  replace h : CallStep p q .AUGraphIsRunning r id := h
  refine ⟨r, q, ?_, h⟩
  by_cases hr : r = noErr
  · have h2 : ¬ (noErr ≠ r) := fun e => e hr.symm
    have hg : q.mAUGraph = p.mAUGraph := h.graph_ok hr
    simp only [if_neg h2, if_pos hr, hg]
  · have h2 : noErr ≠ r := fun e => hr e.symm
    simp only [if_pos h2, if_neg hr]

theorem AUGraphIsInitialized_spec (p : AudioPlayer) (o : Bool) :
    ∃ r q, AUGraphIsInitialized p o =
        (r, (if r = noErr then p.mAUGraph.isInitialized else o), q) ∧
      CallStep p q .AUGraphIsInitialized r id := by
  have h := call_step p .AUGraphIsInitialized id
  unfold AUGraphIsInitialized
  rcases hx : p.call .AUGraphIsInitialized id with ⟨r, q⟩
  rw [hx] at h
  replace h : CallStep p q .AUGraphIsInitialized r id := h
  refine ⟨r, q, ?_, h⟩
  by_cases hr : r = noErr
  · have h2 : ¬ (noErr ≠ r) := fun e => e hr.symm
    have hg : q.mAUGraph = p.mAUGraph := h.graph_ok hr
    simp only [if_neg h2, if_pos hr, hg]
  · have h2 : noErr ≠ r := fun e => hr e.symm
    simp only [if_pos h2, if_neg hr]

theorem AUGraphGetNumberOfInteractions_spec (p : AudioPlayer) (o : Nat) :
    ∃ r q, AUGraphGetNumberOfInteractions p o =
        (r, (if r = noErr then p.mAUGraph.interactions.length else o), q) ∧
      CallStep p q .AUGraphGetNumberOfInteractions r id := by
  have h := call_step p .AUGraphGetNumberOfInteractions id
  unfold AUGraphGetNumberOfInteractions
  rcases hx : p.call .AUGraphGetNumberOfInteractions id with ⟨r, q⟩
  rw [hx] at h
  replace h : CallStep p q .AUGraphGetNumberOfInteractions r id := h
  refine ⟨r, q, ?_, h⟩
  by_cases hr : r = noErr
  · have h2 : ¬ (noErr ≠ r) := fun e => e hr.symm
    have hg : q.mAUGraph = p.mAUGraph := h.graph_ok hr
    simp only [if_neg h2, if_pos hr, hg]
  · have h2 : noErr ≠ r := fun e => hr e.symm
    simp only [if_pos h2, if_neg hr]

theorem AUGraphGetInteractionInfo_spec (p : AudioPlayer) (i : Nat)
    (o : Option AUNodeInteraction) :
    ∃ r q, AUGraphGetInteractionInfo p i o =
        (r, (if r = noErr then (p.mAUGraph.interactions[i]?).orElse (fun _ => o) else o), q) ∧
      CallStep p q (.AUGraphGetInteractionInfo i) r id := by
  have h := call_step p (.AUGraphGetInteractionInfo i) id
  unfold AUGraphGetInteractionInfo
  rcases hx : p.call (.AUGraphGetInteractionInfo i) id with ⟨r, q⟩
  rw [hx] at h
  replace h : CallStep p q (.AUGraphGetInteractionInfo i) r id := h
  refine ⟨r, q, ?_, h⟩
  by_cases hr : r = noErr
  · have h2 : ¬ (noErr ≠ r) := fun e => e hr.symm
    have hg : q.mAUGraph = p.mAUGraph := h.graph_ok hr
    simp only [if_neg h2, if_pos hr, hg]
    cases p.mAUGraph.interactions[i]? <;> rfl
  · have h2 : noErr ≠ r := fun e => hr e.symm
    simp only [if_pos h2, if_neg hr]

theorem calloc_spec (p : AudioPlayer) (n : Nat) :
    ∃ r q, calloc p n = (decide (r = noErr), q) ∧ CallStep p q (.calloc n) r id := by
  have h := call_step p (.calloc n) id
  unfold calloc
  rcases hx : p.call (.calloc n) id with ⟨r, q⟩
  rw [hx] at h
  replace h : CallStep p q (.calloc n) r id := h
  exact ⟨r, q, rfl, h⟩

/-! ## The loops of `SetAUGraphFormat` -/

theorem capture_spec (G : List AUNodeInteraction) (n : Nat) :
    ∀ (i : Nat) (arr : List (Option AUNodeInteraction)) (p : AudioPlayer),
      p.mAUGraph.interactions = G → i + n = G.length → arr.length = G.length →
      (∀ j, j < i → arr[j]? = some (G[j]?)) →
      ∃ r arr1 q T, SetAUGraphFormat.capture n i arr p = (r, arr1, q) ∧ Frame p q ∧
        q.mAUGraph = p.mAUGraph ∧ q.calls = p.calls ++ T ∧ NoInteraction T ∧
        ((r = noErr ∧ AllOk T ∧ arr1 = G.map some) ∨ Stops r T) := by
  induction n with
  | zero =>
    intro i arr p _ hi hlen harr
    refine ⟨noErr, arr, p, [], rfl, Frame.frame_refl p, rfl, by simp, NoInteraction.plain_nil,
      Or.inl ⟨rfl, AllOk.allOk_nil, ?_⟩⟩
    apply List.ext_getElem?
    intro j
    by_cases hj : j < i
    · rw [harr j hj, List.getElem?_map]
      have hjG : j < G.length := by omega
      rw [List.getElem?_eq_getElem hjG]
      rfl
    · rw [List.getElem?_eq_none (by omega), List.getElem?_eq_none (by simp; omega)]
  | succ n ih =>
    intro i arr p hG hi hlen harr
    obtain ⟨r, q, heq, hs⟩ := AUGraphGetInteractionInfo_spec p i (arr.getD i none)
    unfold SetAUGraphFormat.capture
    rw [heq]
    by_cases hr : r = noErr
    · have h2 : ¬ (noErr ≠ r) := fun e => e hr.symm
      have hiG : i < G.length := by omega
      have hg : q.mAUGraph = p.mAUGraph := hs.graph_ok hr
      simp only [if_neg h2, if_pos hr, hG, List.getElem?_eq_getElem hiG]
      have hih := ih (i + 1) (arr.set i (some G[i])) q (by rw [hg, hG]) (by omega)
        (by simp [hlen]) (by
          intro j hj
          by_cases hji : j = i
          · subst hji
            rw [List.getElem?_set_self (by omega), List.getElem?_eq_getElem hiG]
          · rw [List.getElem?_set_ne (fun e => hji e.symm)]
            exact harr j (by omega))
      obtain ⟨r1, arr1, q1, T1, heq1, hF1, hg1, hc1, hN1, hres⟩ := hih
      refine ⟨r1, arr1, q1, (AUCall.AUGraphGetInteractionInfo i, noErr) :: T1, ?_,
        hs.frame.frame_trans hF1, hg1.trans hg, ?_,
        (NoInteraction.plain_single (.AUGraphGetInteractionInfo i) noErr rfl).plain_append hN1, ?_⟩
      · exact heq1
      · rw [hc1, hs.calls, hr, List.append_assoc]; rfl
      · rcases hres with ⟨h1, h2, h3⟩ | h
        · exact Or.inl ⟨h1, (AllOk.allOk_single _).allOk_append h2, h3⟩
        · exact Or.inr (Stops.append_left (AllOk.allOk_single _) h)
    · have h2 : noErr ≠ r := fun e => hr e.symm
      simp only [if_pos h2, if_neg hr]
      refine ⟨r, arr, q, [(AUCall.AUGraphGetInteractionInfo i, r)], rfl, hs.frame, ?_, hs.calls,
        NoInteraction.plain_single (.AUGraphGetInteractionInfo i) r rfl, Or.inr (Stops.stops_single _ hr)⟩
      rw [hs.graph, if_neg hr]

theorem getD_of_drop_eq_cons {α : Type} (arr : List (Option α)) (i : Nat) (x : α)
    (rest : List (Option α)) (h : arr.drop i = some x :: rest) :
    arr.getD i none = some x ∧ arr.drop (i + 1) = rest := by
  constructor
  · have h1 : (arr.drop i).head? = arr[i]? := List.head?_drop arr i
    rw [h] at h1
    rw [List.getD_eq_getElem?_getD, ← h1]
    rfl
  · rw [← List.tail_drop, h]
    rfl

theorem reconnect_spec (arr : List (Option AUNodeInteraction)) (ints : List AUNodeInteraction) :
    ∀ (i : Nat) (p : AudioPlayer), arr.drop i = ints.map some →
      ∃ r q, SetAUGraphFormat.reconnect arr ints.length i p = (r, q) ∧ Frame p q ∧
        q.mAUGraph.isInitialized = p.mAUGraph.isInitialized ∧
        q.mAUGraph.isRunning = p.mAUGraph.isRunning ∧
        ((r = noErr ∧ q.calls = p.calls ++ ints.map (fun x => (x.restoreCall, noErr)) ∧
            q.mAUGraph.interactions = p.mAUGraph.interactions ++ ints) ∨
          (r ≠ noErr ∧ ∃ k x, ints[k]? = some x ∧
            q.calls = p.calls ++ ((ints.take k).map (fun x => (x.restoreCall, noErr)) ++
              [(x.restoreCall, r)]) ∧
            q.mAUGraph.interactions = p.mAUGraph.interactions ++ ints.take k)) := by
  induction ints with
  | nil =>
    intro i p _
    exact ⟨noErr, p, rfl, Frame.frame_refl p, rfl, rfl, Or.inl ⟨rfl, by simp, by simp⟩⟩
  | cons x rest ih =>
    intro i p harr
    obtain ⟨hget, hdrop⟩ := getD_of_drop_eq_cons arr i x (rest.map some) harr
    have key : ∀ (eff : AUGraph → AUGraph),
        (∀ g, (eff g).interactions = g.interactions ++ [x]) →
        (∀ g, (eff g).isInitialized = g.isInitialized) →
        (∀ g, (eff g).isRunning = g.isRunning) →
        ∃ r q, (match p.call x.restoreCall eff with
          | (result, q) =>
            if noErr ≠ result then (result, q)
            else SetAUGraphFormat.reconnect arr rest.length (i + 1) q) = (r, q) ∧ Frame p q ∧
        q.mAUGraph.isInitialized = p.mAUGraph.isInitialized ∧
        q.mAUGraph.isRunning = p.mAUGraph.isRunning ∧
        ((r = noErr ∧ q.calls = p.calls ++ (x :: rest).map (fun x => (x.restoreCall, noErr)) ∧
            q.mAUGraph.interactions = p.mAUGraph.interactions ++ (x :: rest)) ∨
          (r ≠ noErr ∧ ∃ k y, (x :: rest)[k]? = some y ∧
            q.calls = p.calls ++ (((x :: rest).take k).map (fun x => (x.restoreCall, noErr)) ++
              [(y.restoreCall, r)]) ∧
            q.mAUGraph.interactions = p.mAUGraph.interactions ++ (x :: rest).take k)) := by
      intro eff he1 he2 he3
      have hs := call_step p x.restoreCall eff
      rcases hx : p.call x.restoreCall eff with ⟨r0, q0⟩
      rw [hx] at hs
      replace hs : CallStep p q0 x.restoreCall r0 eff := hs
      by_cases hr : r0 = noErr
      · have h2 : ¬ (noErr ≠ r0) := fun e => e hr.symm
        have hg : q0.mAUGraph = eff p.mAUGraph := hs.graph_ok hr
        simp only [if_neg h2]
        obtain ⟨r1, q1, heq1, hF1, hn1, hr1, hres⟩ := ih (i + 1) q0 hdrop
        refine ⟨r1, q1, heq1, hs.frame.frame_trans hF1, ?_, ?_, ?_⟩
        · rw [hn1, hg, he2]
        · rw [hr1, hg, he3]
        · rcases hres with ⟨h1, h2, h3⟩ | ⟨h1, k, y, hk, h2, h3⟩
          · refine Or.inl ⟨h1, ?_, ?_⟩
            · rw [h2, hs.calls, hr, List.append_assoc]; rfl
            · rw [h3, hg, he1, List.append_assoc]; rfl
          · refine Or.inr ⟨h1, k + 1, y, by simpa using hk, ?_, ?_⟩
            · rw [h2, hs.calls, hr, List.append_assoc]; rfl
            · rw [h3, hg, he1, List.append_assoc]; rfl
      · have h2 : noErr ≠ r0 := fun e => hr e.symm
        simp only [if_pos h2]
        refine ⟨r0, q0, rfl, hs.frame, ?_, ?_, Or.inr ⟨hr, 0, x, by simp, ?_, ?_⟩⟩
        · rw [hs.graph, if_neg hr]
        · rw [hs.graph, if_neg hr]
        · rw [hs.calls]; rfl
        · rw [hs.graph, if_neg hr]; simp
    simp only [List.length_cons]
    unfold SetAUGraphFormat.reconnect
    rw [hget]
    cases x with
    | connection c =>
      exact key (fun g => { g with
        interactions := g.interactions ++
          [.connection ⟨c.sourceNode, c.sourceOutputNumber, c.destNode, c.destInputNumber⟩] })
        (fun g => rfl) (fun g => rfl) (fun g => rfl)
    | inputCallback c =>
      exact key (fun g => { g with
        interactions := g.interactions ++
          [.inputCallback ⟨c.destNode, c.destInputNumber, c.cback⟩] })
        (fun g => rfl) (fun g => rfl) (fun g => rfl)

/-! ## `SetAUGraphFormat.prepare` -/

theorem optional_call (b : Bool) (q : AudioPlayer) (c : AUCall) (eff : AUGraph → AUGraph)
    (r0 : OSStatus) (hr0 : r0 = noErr) :
    ∃ r q1, (if b = true then q.call c eff else (r0, q)) = (r, q1) ∧ Frame q q1 ∧
      ((r = noErr ∧ q1.calls = q.calls ++ (if b = true then [(c, noErr)] else []) ∧
          q1.mAUGraph = if b = true then eff q.mAUGraph else q.mAUGraph) ∨
        (r ≠ noErr ∧ q1.calls = q.calls ++ [(c, r)] ∧ q1.mAUGraph = q.mAUGraph)) := by
  cases b with
  | false =>
    refine ⟨r0, q, by simp, Frame.frame_refl q, Or.inl ⟨hr0, by simp, by simp⟩⟩
  | true =>
    have hs := call_step q c eff
    rcases hx : q.call c eff with ⟨r, q1⟩
    rw [hx] at hs
    replace hs : CallStep q q1 c r eff := hs
    refine ⟨r, q1, by simp, hs.frame, ?_⟩
    by_cases hr : r = noErr
    · refine Or.inl ⟨hr, ?_, ?_⟩
      · rw [hs.calls, hr]; simp
      · rw [hs.graph_ok hr]; simp
    · refine Or.inr ⟨hr, hs.calls, ?_⟩
      rw [hs.graph, if_neg hr]

theorem PrepareFailed.of_step {p q q1 : AudioPlayer} {T : List (AUCall × OSStatus)}
    {init running : Bool} {c : AUCall} {r : OSStatus} (R : Reached p q T)
    (G : GraphIs q p.mAUGraph.interactions init running)
    (hi : init = true → p.mAUGraph.isInitialized = true)
    (hr : running = true → p.mAUGraph.isRunning = true)
    (hF : Frame q q1) (hc : q1.calls = q.calls ++ [(c, r)]) (hg : q1.mAUGraph = q.mAUGraph)
    (hne : r ≠ noErr) : PrepareFailed p r q1 := by
  refine ⟨R.frame.frame_trans hF, ?_, ?_, ?_, T ++ [(c, r)], ?_,
    Stops.append_left R.allOk (Stops.stops_single c hne)⟩
  · rw [hg, G.interactions]
  · rw [hg, G.isInitialized]; exact hi
  · rw [hg, G.isRunning]; exact hr
  · rw [hc, R.calls, List.append_assoc]

theorem Reached.extend {p q q1 : AudioPlayer} {T T1 : List (AUCall × OSStatus)}
    (R : Reached p q T) (hF : Frame q q1) (hc : q1.calls = q.calls ++ T1) (hA : AllOk T1) :
    Reached p q1 (T ++ T1) :=
  ⟨R.frame.frame_trans hF, by rw [hc, R.calls, List.append_assoc], R.allOk.allOk_append hA⟩

theorem prepare_spec (p : AudioPlayer) :
    (∃ e q, SetAUGraphFormat.prepare p = .error (e, q) ∧ PrepareFailed p e q) ∨
      (∃ l q, SetAUGraphFormat.prepare p = .ok (l, q) ∧ Prepared p l q) := by
  unfold SetAUGraphFormat.prepare
  have R0 := Reached.reached_refl p
  have N0 := NoInteraction.plain_nil
  have G0 : GraphIs p p.mAUGraph.interactions p.mAUGraph.isInitialized p.mAUGraph.isRunning :=
    ⟨rfl, rfl, rfl⟩
  -- is the graph running?
  obtain ⟨r1, q1, heq1, hs1⟩ := AUGraphIsRunning_spec p false
  rw [heq1]
  by_cases hr1 : r1 = noErr
  swap
  · have h2 : noErr ≠ r1 := fun e => hr1 e.symm
    simp only [if_pos h2]
    exact Or.inl ⟨r1, q1, rfl, PrepareFailed.of_step R0 G0 id id hs1.frame hs1.calls
      (by rw [hs1.graph, if_neg hr1]) hr1⟩
  have h2 : ¬ (noErr ≠ r1) := fun e => e hr1.symm
  simp only [if_neg h2, if_pos hr1]
  have R1 := R0.extend hs1.frame hs1.calls (by rw [hr1]; exact AllOk.allOk_single _)
  have N1 := N0.plain_append (NoInteraction.plain_single .AUGraphIsRunning r1 rfl)
  have hg1 : q1.mAUGraph = p.mAUGraph := hs1.graph_ok hr1
  have G1 : GraphIs q1 p.mAUGraph.interactions p.mAUGraph.isInitialized p.mAUGraph.isRunning := by
    constructor <;> rw [hg1]
  -- stop it
  obtain ⟨r2, q2, heq2, hF2, hres2⟩ := optional_call p.mAUGraph.isRunning q1 .AUGraphStop
    (fun g => { g with isRunning := false }) r1 hr1
  unfold AUGraphStop
  rw [heq2]
  rcases hres2 with ⟨hr2, hc2, hg2⟩ | ⟨hr2, hc2, hg2⟩
  swap
  · have h2 : noErr ≠ r2 := fun e => hr2 e.symm
    simp only [if_pos h2]
    exact Or.inl ⟨r2, q2, rfl, PrepareFailed.of_step R1 G1 id id hF2 hc2 hg2 hr2⟩
  have h3 : ¬ (noErr ≠ r2) := fun e => e hr2.symm
  simp only [if_neg h3]
  have R2 := R1.extend hF2 hc2 (AllOk.allOk_optional _ _)
  have N2 := N1.plain_append (NoInteraction.plain_optional p.mAUGraph.isRunning .AUGraphStop noErr rfl)
  have G2 : GraphIs q2 p.mAUGraph.interactions p.mAUGraph.isInitialized false := by
    constructor
    · rw [hg2]; split <;> simp [G1.interactions]
    · rw [hg2]; split <;> simp [G1.isInitialized]
    · rw [hg2]; split
      · rfl
      · rename_i hb; rw [G1.isRunning]; simpa using hb
  -- is the graph initialized?
  obtain ⟨r3, q3, heq3, hs3⟩ := AUGraphIsInitialized_spec q2 false
  rw [heq3]
  by_cases hr3 : r3 = noErr
  swap
  · have h2 : noErr ≠ r3 := fun e => hr3 e.symm
    simp only [if_pos h2]
    exact Or.inl ⟨r3, q3, rfl, PrepareFailed.of_step R2 G2 id (fun h => by cases h) hs3.frame
      hs3.calls (by rw [hs3.graph, if_neg hr3]) hr3⟩
  have h4 : ¬ (noErr ≠ r3) := fun e => e hr3.symm
  simp only [if_neg h4, if_pos hr3]
  have R3 := R2.extend hs3.frame hs3.calls (by rw [hr3]; exact AllOk.allOk_single _)
  have N3 := N2.plain_append (NoInteraction.plain_single .AUGraphIsInitialized r3 rfl)
  have hg3 : q3.mAUGraph = q2.mAUGraph := hs3.graph_ok hr3
  have G3 : GraphIs q3 p.mAUGraph.interactions p.mAUGraph.isInitialized false := by
    constructor <;> rw [hg3]
    · exact G2.interactions
    · exact G2.isInitialized
    · exact G2.isRunning
  rw [G2.isInitialized]
  -- uninitialize it
  obtain ⟨r4, q4, heq4, hF4, hres4⟩ := optional_call p.mAUGraph.isInitialized q3
    AUCall.AUGraphUninitialize (fun g => { g with isInitialized := false }) r3 hr3
  unfold AUGraphUninitialize
  rw [heq4]
  rcases hres4 with ⟨hr4, hc4, hg4⟩ | ⟨hr4, hc4, hg4⟩
  swap
  · have h2 : noErr ≠ r4 := fun e => hr4 e.symm
    simp only [if_pos h2]
    exact Or.inl ⟨r4, q4, rfl, PrepareFailed.of_step R3 G3 id (fun h => by cases h) hF4 hc4 hg4
      hr4⟩
  have h5 : ¬ (noErr ≠ r4) := fun e => e hr4.symm
  simp only [if_neg h5]
  have R4 := R3.extend hF4 hc4 (AllOk.allOk_optional _ _)
  have N4 := N3.plain_append
    (NoInteraction.plain_optional p.mAUGraph.isInitialized AUCall.AUGraphUninitialize noErr rfl)
  have G4 : GraphIs q4 p.mAUGraph.interactions false false := by
    constructor
    · rw [hg4]; split <;> simp [G3.interactions]
    · rw [hg4]; split
      · rfl
      · rename_i hb; rw [G3.isInitialized]; simpa using hb
    · rw [hg4]; split <;> simp [G3.isRunning]
  -- how many interactions?
  obtain ⟨r5, q5, heq5, hs5⟩ := AUGraphGetNumberOfInteractions_spec q4 0
  rw [heq5]
  by_cases hr5 : r5 = noErr
  swap
  · have h2 : noErr ≠ r5 := fun e => hr5 e.symm
    simp only [if_pos h2]
    exact Or.inl ⟨r5, q5, rfl, PrepareFailed.of_step R4 G4 (fun h => by cases h)
      (fun h => by cases h) hs5.frame hs5.calls (by rw [hs5.graph, if_neg hr5]) hr5⟩
  have h6 : ¬ (noErr ≠ r5) := fun e => e hr5.symm
  simp only [if_neg h6, if_pos hr5]
  have R5 := R4.extend hs5.frame hs5.calls (by rw [hr5]; exact AllOk.allOk_single _)
  have N5 := N4.plain_append (NoInteraction.plain_single .AUGraphGetNumberOfInteractions r5 rfl)
  have hg5 : q5.mAUGraph = q4.mAUGraph := hs5.graph_ok hr5
  have G5 : GraphIs q5 p.mAUGraph.interactions false false := by
    constructor <;> rw [hg5]
    · exact G4.interactions
    · exact G4.isInitialized
    · exact G4.isRunning
  rw [G4.interactions]
  -- the array
  obtain ⟨r6, q6, heq6, hs6⟩ := calloc_spec q5 p.mAUGraph.interactions.length
  rw [heq6]
  by_cases hr6 : r6 = noErr
  swap
  · simp only [hr6, decide_False, Bool.not_false, if_true]
    refine Or.inl ⟨memFullErr, q6, rfl, R5.frame.frame_trans hs6.frame, ?_, ?_, ?_, _, ?_,
      Stops.append_left R5.allOk ⟨by decide, [], .calloc p.mAUGraph.interactions.length, r6,
        rfl, AllOk.allOk_nil, hr6, fun h => by cases h⟩⟩
    · rw [hs6.graph, if_neg hr6, G5.interactions]
    · rw [hs6.graph, if_neg hr6, G5.isInitialized]; intro h; cases h
    · rw [hs6.graph, if_neg hr6, G5.isRunning]; intro h; cases h
    · rw [hs6.calls, R5.calls, List.append_assoc]; rfl
  simp only [hr6, decide_True, Bool.not_true, Bool.false_eq_true, if_false]
  have R6 := R5.extend hs6.frame hs6.calls (by rw [hr6]; exact AllOk.allOk_single _)
  have N6 := N5.plain_append (NoInteraction.plain_single (.calloc p.mAUGraph.interactions.length) r6 rfl)
  have hg6 : q6.mAUGraph = q5.mAUGraph := hs6.graph_ok hr6
  have G6 : GraphIs q6 p.mAUGraph.interactions false false := by
    constructor <;> rw [hg6]
    · exact G5.interactions
    · exact G5.isInitialized
    · exact G5.isRunning
  -- capture
  obtain ⟨r7, arr7, q7, T7, heq7, hF7, hg7, hc7, hN7, hres7⟩ :=
    capture_spec p.mAUGraph.interactions p.mAUGraph.interactions.length 0
      (List.replicate p.mAUGraph.interactions.length none) q6 G6.interactions (by simp)
      (by simp) (by intro j hj; omega)
  rw [heq7]
  have G7 : GraphIs q7 p.mAUGraph.interactions false false := by
    constructor <;> rw [hg7]
    · exact G6.interactions
    · exact G6.isInitialized
    · exact G6.isRunning
  rcases hres7 with ⟨hr7, hA7, harr7⟩ | hS7
  swap
  · have h2 : noErr ≠ r7 := fun e => hS7.1 e.symm
    simp only [if_pos h2]
    refine Or.inl ⟨r7, q7, rfl, R6.frame.frame_trans hF7, G7.interactions, ?_, ?_, _, ?_,
      Stops.append_left R6.allOk hS7⟩
    · rw [G7.isInitialized]; intro h; cases h
    · rw [G7.isRunning]; intro h; cases h
    · rw [hc7, R6.calls, List.append_assoc]
  have h7 : ¬ (noErr ≠ r7) := fun e => e hr7.symm
  simp only [if_neg h7]
  have R7 := R6.extend hF7 hc7 hA7
  have N7 := N6.plain_append hN7
  -- clear the connections
  unfold AUGraphClearConnections
  have hs8 := call_step q7 .AUGraphClearConnections (fun g => { g with interactions := [] })
  rcases hx8 : q7.call .AUGraphClearConnections (fun g => { g with interactions := [] }) with
    ⟨r8, q8⟩
  rw [hx8] at hs8
  replace hs8 : CallStep q7 q8 .AUGraphClearConnections r8
    (fun g => { g with interactions := [] }) := hs8
  by_cases hr8 : r8 = noErr
  swap
  · have h2 : noErr ≠ r8 := fun e => hr8 e.symm
    simp only [if_pos h2]
    exact Or.inl ⟨r8, q8, rfl, PrepareFailed.of_step R7 G7 (fun h => by cases h)
      (fun h => by cases h) hs8.frame hs8.calls (by rw [hs8.graph, if_neg hr8]) hr8⟩
  have h8 : ¬ (noErr ≠ r8) := fun e => e hr8.symm
  simp only [if_neg h8]
  have R8 := R7.extend hs8.frame hs8.calls (by rw [hr8]; exact AllOk.allOk_single _)
  have N8 := N7.plain_append (NoInteraction.plain_single .AUGraphClearConnections r8 rfl)
  have hg8 := hs8.graph_ok hr8
  refine Or.inr ⟨_, q8, rfl, R8.frame, ?_, ?_, _, R8.calls, R8.allOk, N8⟩
  · constructor
    · rw [hg8]
    · rw [hg8]; exact G7.isInitialized
    · rw [hg8]; exact G7.isRunning
  · rw [harr7]

/-! ## `SetAUGraphFormat.restore` -/

theorem restoreCall_isInteraction (x : AUNodeInteraction) : x.restoreCall.isInteraction = true := by
  cases x <;> rfl

theorem restoreCall_isStructural (x : AUNodeInteraction) : x.restoreCall.isStructural = true := by
  cases x <;> rfl

theorem AllOk.restoreCalls (ints : List AUNodeInteraction) :
    AllOk (ints.map (fun x => (x.restoreCall, noErr))) := by
  intro x hx
  obtain ⟨y, _, rfl⟩ := List.mem_map.1 hx
  rfl

theorem filter_restoreCalls (ints : List AUNodeInteraction) :
    (ints.map (fun x => (x.restoreCall, noErr))).filter (fun x => x.1.isInteraction) =
      ints.map (fun x => (x.restoreCall, noErr)) := by
  rw [List.filter_eq_self]
  intro x hx
  obtain ⟨y, _, rfl⟩ := List.mem_map.1 hx
  exact restoreCall_isInteraction y

theorem NoInteraction.filter {T : List (AUCall × OSStatus)} (h : NoInteraction T) :
    T.filter (fun x => x.1.isInteraction) = [] := by
  rw [List.filter_eq_nil_iff]
  intro x hx
  rw [h x hx]
  simp

theorem restore_spec (res : OSStatus) (l : SetAUGraphFormat.Locals)
    (ints : List AUNodeInteraction) (q : AudioPlayer) (hl : l.interactions = ints.map some)
    (hc : l.interactionCount = ints.length) :
    ∃ r q1 T, SetAUGraphFormat.restore res l q = (r, q1) ∧ Frame q q1 ∧
      q1.calls = q.calls ++ T ∧
      ((r = noErr ∧ AllOk T ∧
          T.filter (fun x => x.1.isInteraction) = ints.map (fun x => (x.restoreCall, noErr)) ∧
          GraphIs q1 (q.mAUGraph.interactions ++ ints)
            (l.graphIsInitialized || q.mAUGraph.isInitialized)
            (l.graphIsRunning || q.mAUGraph.isRunning)) ∨
        (Stops r T ∧
          (∃ k, q1.mAUGraph.interactions = q.mAUGraph.interactions ++ ints.take k ∧
            ((∀ x ∈ T, x.1.isInteraction = true → x.2 = noErr) → k = ints.length)) ∧
          (q1.mAUGraph.isInitialized = true →
            l.graphIsInitialized = true ∨ q.mAUGraph.isInitialized = true) ∧
          (q1.mAUGraph.isRunning = true → q.mAUGraph.isRunning = true))) := by
  unfold SetAUGraphFormat.restore
  -- the interactions
  obtain ⟨r1, q1, heq1, hF1, hn1, hu1, hres1⟩ := reconnect_spec l.interactions ints 0 q
    (by simpa using hl)
  rw [hc, heq1]
  rcases hres1 with ⟨hr1, hc1, hi1⟩ | ⟨hr1, k, x, hk, hc1, hi1⟩
  swap
  · have h2 : noErr ≠ r1 := fun e => hr1 e.symm
    simp only [if_pos h2]
    refine ⟨r1, q1, (ints.take k).map (fun x => (x.restoreCall, noErr)) ++
      [(x.restoreCall, r1)], rfl, hF1, hc1, Or.inr ⟨?_, ⟨k, hi1, ?_⟩, ?_, ?_⟩⟩
    · exact ⟨hr1, (ints.take k).map (fun x => (x.restoreCall, noErr)), x.restoreCall, r1, rfl,
        AllOk.restoreCalls _, hr1, fun _ => rfl⟩
    · intro hall
      exact absurd (hall (x.restoreCall, r1) (by simp) (restoreCall_isInteraction x)) hr1
    · rw [hn1]; exact Or.inr
    · rw [hu1]; exact id
  have h1 : ¬ (noErr ≠ r1) := fun e => e hr1.symm
  simp only [if_neg h1]
  -- initialize again
  obtain ⟨r2, q2, heq2, hF2, hres2⟩ := optional_call l.graphIsInitialized q1 .AUGraphInitialize
    (fun g => { g with isInitialized := true }) r1 hr1
  unfold AUGraphInitialize
  rw [heq2]
  rcases hres2 with ⟨hr2, hc2, hg2⟩ | ⟨hr2, hc2, hg2⟩
  swap
  · have h2 : noErr ≠ r2 := fun e => hr2 e.symm
    simp only [if_pos h2]
    refine ⟨r2, q2, ints.map (fun x => (x.restoreCall, noErr)) ++ [(.AUGraphInitialize, r2)],
      rfl, hF1.frame_trans hF2, ?_, Or.inr ⟨?_, ⟨ints.length, ?_, fun _ => rfl⟩, ?_, ?_⟩⟩
    · rw [hc2, hc1, List.append_assoc]
    · exact Stops.append_left (AllOk.restoreCalls _) (Stops.stops_single _ hr2)
    · rw [hg2, hi1, List.take_length]
    · rw [hg2, hn1]; exact Or.inr
    · rw [hg2, hu1]; exact id
  have h2 : ¬ (noErr ≠ r2) := fun e => e hr2.symm
  simp only [if_neg h2]
  have G2 : GraphIs q2 (q.mAUGraph.interactions ++ ints)
      (l.graphIsInitialized || q.mAUGraph.isInitialized) q.mAUGraph.isRunning := by
    constructor
    · rw [hg2]; split <;> simp [hi1]
    · rw [hg2]; split
      · rename_i hb; simp [hb]
      · rename_i hb; simp [hb, hn1]
    · rw [hg2]; split <;> simp [hu1]
  -- start again
  obtain ⟨r3, q3, heq3, hF3, hres3⟩ := optional_call l.graphIsRunning q2 .AUGraphStart
    (fun g => { g with isRunning := true }) r2 hr2
  unfold AUGraphStart
  rw [heq3]
  rcases hres3 with ⟨hr3, hc3, hg3⟩ | ⟨hr3, hc3, hg3⟩
  swap
  · have h3 : noErr ≠ r3 := fun e => hr3 e.symm
    simp only [if_pos h3]
    refine ⟨r3, q3, ints.map (fun x => (x.restoreCall, noErr)) ++
        ((if l.graphIsInitialized = true then [(.AUGraphInitialize, noErr)] else []) ++
          [(.AUGraphStart, r3)]),
      rfl, (hF1.frame_trans hF2).frame_trans hF3, ?_,
      Or.inr ⟨?_, ⟨ints.length, ?_, fun _ => rfl⟩, ?_, ?_⟩⟩
    · rw [hc3, hc2, hc1, List.append_assoc, List.append_assoc]
    · exact Stops.append_left (AllOk.restoreCalls _)
        (Stops.append_left (AllOk.allOk_optional _ _) (Stops.stops_single _ hr3))
    · rw [hg3, G2.interactions, List.take_length]
    · rw [hg3, G2.isInitialized]; intro h; simpa using h
    · rw [hg3, G2.isRunning]; exact id
  have h3 : ¬ (noErr ≠ r3) := fun e => e hr3.symm
  simp only [if_neg h3]
  refine ⟨noErr, q3, ints.map (fun x => (x.restoreCall, noErr)) ++
      ((if l.graphIsInitialized = true then [(.AUGraphInitialize, noErr)] else []) ++
        (if l.graphIsRunning = true then [(.AUGraphStart, noErr)] else [])),
    rfl, (hF1.frame_trans hF2).frame_trans hF3, ?_, Or.inl ⟨rfl, ?_, ?_, ?_⟩⟩
  · rw [hc3, hc2, hc1, List.append_assoc, List.append_assoc]
  · exact (AllOk.restoreCalls _).allOk_append ((AllOk.allOk_optional _ _).allOk_append (AllOk.allOk_optional _ _))
  · rw [List.filter_append, List.filter_append, filter_restoreCalls,
      (NoInteraction.plain_optional l.graphIsInitialized .AUGraphInitialize noErr rfl).filter,
      (NoInteraction.plain_optional l.graphIsRunning .AUGraphStart noErr rfl).filter]
    simp
  · constructor
    · rw [hg3]; split <;> simp [G2.interactions]
    · rw [hg3]; split <;> simp [G2.isInitialized]
    · rw [hg3]; split
      · rename_i hb; simp [hb]
      · rename_i hb; simp [hb, G2.isRunning]

/-! ## `SetPropertyOnAUGraphNodes` when the toolbox always succeeds -/

theorem applyFormat_spec (format : AudioStreamBasicDescription) (q : AudioPlayer) :
    ∃ r q1 T, SetAUGraphFormat.applyFormat format q = (r, q1) ∧
      Frame q { q1 with mAUGraphFormat := q.mAUGraphFormat } ∧
      q1.mAUGraphFormat =
        (if (SetPropertyOnAUGraphNodes q kAudioUnitProperty_StreamFormat format).1 = noErr
          then format else q.mAUGraphFormat) ∧
      GraphIs q1 q.mAUGraph.interactions q.mAUGraph.isInitialized q.mAUGraph.isRunning ∧
      q1.calls = q.calls ++ T ∧ (∀ x ∈ T, x.1.isStructural = false) := by
  unfold SetAUGraphFormat.applyFormat
  have h1 := SetPropertyOnAUGraphNodes_quiet q kAudioUnitProperty_StreamFormat format
  rcases hx1 : SetPropertyOnAUGraphNodes q kAudioUnitProperty_StreamFormat format with ⟨r1, q1⟩
  rw [hx1] at h1
  replace h1 : Quiet q q1 := h1
  by_cases hr1 : r1 = noErr
  · have n1 : ¬ (noErr ≠ r1) := fun e => e hr1.symm
    obtain ⟨T, hT, hN⟩ := h1.calls
    simp only [if_neg n1, if_pos hr1]
    refine ⟨r1, _, T, rfl, ?_, rfl, ⟨h1.interactions, h1.isInitialized, h1.isRunning⟩, hT, hN⟩
    exact ⟨h1.frame.hal, rfl, h1.frame.limiterNode, h1.frame.outputNode,
      h1.frame.framesDecoded, h1.frame.framesRendered, h1.frame.ringBuffer, h1.frame.decoder,
      h1.frame.grown, h1.frame.faithful⟩
  · have n1 : noErr ≠ r1 := fun e => hr1 e.symm
    simp only [if_pos n1, if_neg hr1]
    have h2 := SetPropertyOnAUGraphNodes_quiet q1 kAudioUnitProperty_StreamFormat
      q1.mAUGraphFormat
    rcases hx2 : SetPropertyOnAUGraphNodes q1 kAudioUnitProperty_StreamFormat q1.mAUGraphFormat
      with ⟨r2, q2⟩
    rw [hx2] at h2
    replace h2 : Quiet q1 q2 := h2
    have h12 := h1.quiet_trans h2
    obtain ⟨T, hT, hN⟩ := h12.calls
    refine ⟨r2, q2, T, rfl, ?_, h12.frame.format,
      ⟨h12.interactions, h12.isInitialized, h12.isRunning⟩, hT, hN⟩
    exact ⟨h12.frame.hal, rfl, h12.frame.limiterNode, h12.frame.outputNode,
      h12.frame.framesDecoded, h12.frame.framesRendered, h12.frame.ringBuffer,
      h12.frame.decoder, h12.frame.grown, h12.frame.faithful⟩

/-! ## `SetAUGraphFormat` as a whole -/

theorem prepare_error {p : AudioPlayer} {e : OSStatus} {q : AudioPlayer}
    (h : SetAUGraphFormat.prepare p = .error (e, q)) : PrepareFailed p e q := by
  rcases prepare_spec p with ⟨e1, q1, h1, hP⟩ | ⟨l1, q1, h1, _⟩
  · rw [h] at h1
    injection h1 with h1
    injection h1 with ha hb
    subst ha; subst hb
    exact hP
  · rw [h] at h1
    cases h1

theorem prepare_ok {p : AudioPlayer} {l : SetAUGraphFormat.Locals} {q : AudioPlayer}
    (h : SetAUGraphFormat.prepare p = .ok (l, q)) : Prepared p l q := by
  rcases prepare_spec p with ⟨e1, q1, h1, _⟩ | ⟨l1, q1, h1, hP⟩
  · rw [h] at h1
    cases h1
  · rw [h] at h1
    injection h1 with h1
    injection h1 with ha hb
    subst ha; subst hb
    exact hP

theorem SetAUGraphFormat_of_error {p : AudioPlayer} {e : OSStatus} {q : AudioPlayer}
    (format : AudioStreamBasicDescription) (h : SetAUGraphFormat.prepare p = .error (e, q)) :
    SetAUGraphFormat p format = (e, q) := by
  unfold SetAUGraphFormat
  rw [h]

theorem SetAUGraphFormat_of_ok {p : AudioPlayer} {l : SetAUGraphFormat.Locals} {q : AudioPlayer}
    (format : AudioStreamBasicDescription) (h : SetAUGraphFormat.prepare p = .ok (l, q)) :
    ∃ q1 q2 T2 T3 r, FormatRun p format q q1 q2 T2 T3 r := by
  have hP := prepare_ok h
  obtain ⟨r1, q1, T2, heq1, hF1, hfmt1, hG1, hc1, hN1⟩ := applyFormat_spec format q
  obtain ⟨r, q2, T3, heq2, hF2, hc2, hres⟩ := restore_spec r1 l p.mAUGraph.interactions q1
    (by rw [hP.locals]) (by rw [hP.locals])
  have hG1' : GraphIs q1 [] false false :=
    ⟨hG1.interactions.trans hP.graph.interactions, hG1.isInitialized.trans hP.graph.isInitialized,
      hG1.isRunning.trans hP.graph.isRunning⟩
  refine ⟨q1, q2, T2, T3, r, ?_, hF1.hal, hfmt1, hG1', hc1, hN1, hF1, hF2, hc2, ?_⟩
  · unfold SetAUGraphFormat
    rw [h]
    simp only [heq1, heq2]
  · rcases hres with ⟨h1, h2, h3, h4⟩ | ⟨h1, ⟨k, hk1, hk2⟩, h3, h4⟩
    · refine Or.inl ⟨h1, h2, h3, ?_, ?_, ?_⟩
      · rw [h4.interactions, hG1'.interactions]; rfl
      · rw [h4.isInitialized, hG1'.isInitialized, hP.locals]; simp
      · rw [h4.isRunning, hG1'.isRunning, hP.locals]; simp
    · refine Or.inr ⟨h1, ⟨k, ?_, hk2⟩, ?_, ?_⟩
      · rw [hk1, hG1'.interactions]; rfl
      · intro hq
        rcases h3 hq with h | h
        · rw [hP.locals] at h; exact h
        · rw [hG1'.isInitialized] at h; cases h
      · cases hb : q2.mAUGraph.isRunning with
        | false => rfl
        | true =>
          have := h4 hb
          rw [hG1'.isRunning] at this
          cases this

/-! ## The claims about `SetAUGraphFormat` -/

theorem newCalls_eq {p q : AudioPlayer} {T : List (AUCall × OSStatus)}
    (h : q.calls = p.calls ++ T) : p.newCalls q = T := by
  unfold AudioPlayer.newCalls
  rw [h, List.drop_left]

theorem SetAUGraphFormat_format_of_error {p : AudioPlayer} {e : OSStatus} {q : AudioPlayer}
    (format : AudioStreamBasicDescription) (h : SetAUGraphFormat.prepare p = .error (e, q)) :
    (SetAUGraphFormat p format).2.mAUGraphFormat = p.mAUGraphFormat := by
  rw [SetAUGraphFormat_of_error format h]
  exact (prepare_error h).frame.format

theorem SetAUGraphFormat_format_of_ok {p : AudioPlayer} {l : SetAUGraphFormat.Locals}
    {q : AudioPlayer} (format : AudioStreamBasicDescription)
    (h : SetAUGraphFormat.prepare p = .ok (l, q)) :
    (SetAUGraphFormat p format).2.mAUGraphFormat =
      (if (SetPropertyOnAUGraphNodes q kAudioUnitProperty_StreamFormat format).1 = noErr
        then format else p.mAUGraphFormat) := by
  obtain ⟨q1, q2, T2, T3, r, hR⟩ := SetAUGraphFormat_of_ok format h
  rw [hR.result]
  show q2.mAUGraphFormat = _
  rw [hR.frame2.format, hR.format1, (prepare_ok h).frame.format]

/-- C2: the active format after `SetAUGraphFormat` differs from the one before only if steps 1
to 3 completed and pushing the new format onto the nodes returned `noErr`; when a step before
that fails, or when pushing the new format fails, the active format is the previous one. -/
theorem SetAUGraphFormat_format_changes_only_on_success (p : AudioPlayer)
    (format : AudioStreamBasicDescription) :
    ((SetAUGraphFormat p format).2.mAUGraphFormat ≠ p.mAUGraphFormat →
        ∃ l q, SetAUGraphFormat.prepare p = .ok (l, q) ∧
          (SetPropertyOnAUGraphNodes q kAudioUnitProperty_StreamFormat format).1 = noErr ∧
          (SetAUGraphFormat p format).2.mAUGraphFormat = format) ∧
      (∀ e q, SetAUGraphFormat.prepare p = .error (e, q) →
        (SetAUGraphFormat p format).2.mAUGraphFormat = p.mAUGraphFormat) ∧
      (∀ l q, SetAUGraphFormat.prepare p = .ok (l, q) →
        (SetPropertyOnAUGraphNodes q kAudioUnitProperty_StreamFormat format).1 ≠ noErr →
        (SetAUGraphFormat p format).2.mAUGraphFormat = p.mAUGraphFormat) := by
  refine ⟨?_, ?_, ?_⟩
  · intro hne
    rcases hprep : SetAUGraphFormat.prepare p with ⟨e, q⟩ | ⟨l, q⟩
    · exact absurd (SetAUGraphFormat_format_of_error format hprep) hne
    · have h := SetAUGraphFormat_format_of_ok format hprep
      by_cases hsp :
          (SetPropertyOnAUGraphNodes q kAudioUnitProperty_StreamFormat format).1 = noErr
      · rw [if_pos hsp] at h
        exact ⟨l, q, rfl, hsp, h⟩
      · rw [if_neg hsp] at h
        exact absurd h hne
  · intro e q h
    exact SetAUGraphFormat_format_of_error format h
  · intro l q h hsp
    rw [SetAUGraphFormat_format_of_ok format h, if_neg hsp]

/-- C2, at concrete inputs: with every call succeeding the format changes and the format step
returned `noErr`; with `AUGraphStop` failing, and with the first `AudioUnitSetProperty` failing,
the active format stays `stereo44`. -/
theorem SetAUGraphFormat_format_changes_only_on_success_witness :
    (∃ l q, SetAUGraphFormat.prepare (playingPlayer (fun _ => noErr)) = .ok (l, q) ∧
        (SetPropertyOnAUGraphNodes q kAudioUnitProperty_StreamFormat stereo48).1 = noErr ∧
        (SetAUGraphFormat (playingPlayer (fun _ => noErr)) stereo48).2.mAUGraphFormat =
          stereo48) ∧
      (SetAUGraphFormat (playingPlayer (failingAt 1 (-1))) stereo48).2.mAUGraphFormat =
        stereo44 ∧
      (SetAUGraphFormat (playingPlayer (failingAt 13 kAudioUnitErr_FormatNotSupported))
        stereo48).2.mAUGraphFormat = stereo44 :=
  ⟨(SetAUGraphFormat_format_changes_only_on_success (playingPlayer (fun _ => noErr)) stereo48).1
      (by decide),
    (SetAUGraphFormat_format_changes_only_on_success (playingPlayer (failingAt 1 (-1)))
      stereo48).2.1 _ _ rfl,
    (SetAUGraphFormat_format_changes_only_on_success
      (playingPlayer (failingAt 13 kAudioUnitErr_FormatNotSupported)) stereo48).2.2 _ _ rfl
      (by decide)⟩

/-- C3 (the code at a failing input): on the running two-node graph the first
`AudioUnitSetProperty` of the new format fails with `kAudioUnitErr_FormatNotSupported`, so that
`SetPropertyOnAUGraphNodes` returns that status; the previous format is pushed again (the second
pass over the nodes is in the log), and `SetAUGraphFormat` returns `noErr`. -/
theorem SetAUGraphFormat_loses_format_failure :
    SetAUGraphFormat.formatStepStatus
        (playingPlayer (failingAt 13 kAudioUnitErr_FormatNotSupported)) stereo48 =
        some kAudioUnitErr_FormatNotSupported ∧
      (.AudioUnitSetProperty (some 2) kAudioUnitProperty_StreamFormat .Input 0 stereo44, noErr) ∈
        (SetAUGraphFormat (playingPlayer (failingAt 13 kAudioUnitErr_FormatNotSupported))
          stereo48).2.calls ∧
      (SetAUGraphFormat (playingPlayer (failingAt 13 kAudioUnitErr_FormatNotSupported))
        stereo48).1 = noErr := by
  decide

/-- C5 (the claim fails): on the running two-node graph pushing the new format fails, and when
`SetAUGraphFormat` returns the graph has its two interactions, not none. -/
theorem SetAUGraphFormat_reconnects_after_format_failure :
    SetAUGraphFormat.formatStepStatus
        (playingPlayer (failingAt 13 kAudioUnitErr_FormatNotSupported)) stereo48 =
        some kAudioUnitErr_FormatNotSupported ∧
      (SetAUGraphFormat (playingPlayer (failingAt 13 kAudioUnitErr_FormatNotSupported))
        stereo48).2.mAUGraph.interactions =
        [.connection ⟨1, 0, 2, 0⟩, .inputCallback ⟨1, 0, ⟨4096, 8192⟩⟩] := by
  decide

/-- C5 (amended): when pushing the new format onto the nodes fails, the active format stays the
previous one and the captured interactions are re-established as on the success path: if every
`AUGraphConnectNodeInput` and `AUGraphSetNodeInputCallback` of the call succeeds, the graph has
the interactions it had before the call. -/
theorem SetAUGraphFormat_format_failure_restores (p : AudioPlayer)
    (format : AudioStreamBasicDescription) (e : OSStatus)
    (hstep : SetAUGraphFormat.formatStepStatus p format = some e) (he : e ≠ noErr)
    (hall : ∀ x ∈ p.newCalls (SetAUGraphFormat p format).2,
      x.1.isInteraction = true → x.2 = noErr) :
    (SetAUGraphFormat p format).2.mAUGraphFormat = p.mAUGraphFormat ∧
      (SetAUGraphFormat p format).2.mAUGraph.interactions = p.mAUGraph.interactions := by
  rcases hprep : SetAUGraphFormat.prepare p with ⟨e1, q⟩ | ⟨l, q⟩
  · unfold SetAUGraphFormat.formatStepStatus at hstep
    rw [hprep] at hstep
    cases hstep
  · unfold SetAUGraphFormat.formatStepStatus at hstep
    rw [hprep] at hstep
    have hsp : (SetPropertyOnAUGraphNodes q kAudioUnitProperty_StreamFormat format).1 ≠ noErr := by
      intro h0
      apply he
      rw [← h0]
      exact (Option.some.inj hstep).symm
    refine ⟨by rw [SetAUGraphFormat_format_of_ok format hprep, if_neg hsp], ?_⟩
    obtain ⟨T1, hT1, _, _⟩ := (prepare_ok hprep).calls
    obtain ⟨q1, q2, T2, T3, r, hR⟩ := SetAUGraphFormat_of_ok format hprep
    rw [hR.result] at hall ⊢
    rcases hR.outcome with ⟨_, _, _, h4⟩ | ⟨_, ⟨k, hk, hk2⟩, _, _⟩
    · exact h4.interactions
    · have hc : q2.calls = p.calls ++ (T1 ++ (T2 ++ T3)) := by
        rw [hR.calls2, hR.calls1, hT1, List.append_assoc, List.append_assoc]
      have hkl := hk2 (fun x hx => hall x (by
        show x ∈ p.newCalls q2
        rw [newCalls_eq hc]
        exact List.mem_append_right _ (List.mem_append_right _ hx)))
      show q2.mAUGraph.interactions = _
      rw [hk, hkl, List.take_length]

/-- C5 (amended), at the input of the counterexample. -/
theorem SetAUGraphFormat_format_failure_restores_witness :
    (SetAUGraphFormat (playingPlayer (failingAt 13 kAudioUnitErr_FormatNotSupported))
        stereo48).2.mAUGraphFormat = stereo44 ∧
      (SetAUGraphFormat (playingPlayer (failingAt 13 kAudioUnitErr_FormatNotSupported))
        stereo48).2.mAUGraph.interactions =
        (playingPlayer (failingAt 13 kAudioUnitErr_FormatNotSupported)).mAUGraph.interactions :=
  SetAUGraphFormat_format_failure_restores
    (playingPlayer (failingAt 13 kAudioUnitErr_FormatNotSupported)) stereo48
    kAudioUnitErr_FormatNotSupported (by decide) (by decide) (by decide)

theorem AllOk.clean {T : List (AUCall × OSStatus)} (h : AllOk T) : Clean T :=
  fun x hx _ => h x hx

theorem Clean.clean_append {T1 T2 : List (AUCall × OSStatus)} (h1 : Clean T1) (h2 : Clean T2) :
    Clean (T1 ++ T2) := by
  intro x hx
  rcases List.mem_append.1 hx with h | h
  · exact h1 x h
  · exact h2 x h

theorem SetAUGraphFormat_log (p : AudioPlayer) (format : AudioStreamBasicDescription) :
    ∃ T, (SetAUGraphFormat p format).2.calls = p.calls ++ T ∧
      (Clean T ∨ ∃ T0 c s, T = T0 ++ [(c, s)] ∧ Clean T0 ∧
        (c.isStructural = true → s = (SetAUGraphFormat p format).1)) := by
  rcases hprep : SetAUGraphFormat.prepare p with ⟨e, q⟩ | ⟨l, q⟩
  · have hP := prepare_error hprep
    rw [SetAUGraphFormat_of_error format hprep]
    obtain ⟨T, hT, _, T0, c, s, hT0, hA, _, hc⟩ := hP.calls
    exact ⟨T, hT, Or.inr ⟨T0, c, s, hT0, hA.clean, hc⟩⟩
  · obtain ⟨T1, hT1, hA1, _⟩ := (prepare_ok hprep).calls
    obtain ⟨q1, q2, T2, T3, r, hR⟩ := SetAUGraphFormat_of_ok format hprep
    rw [hR.result]
    have hc : q2.calls = p.calls ++ (T1 ++ (T2 ++ T3)) := by
      rw [hR.calls2, hR.calls1, hT1, List.append_assoc, List.append_assoc]
    have hC2 : Clean T2 := by
      intro x hx hs
      rw [hR.plain1 x hx] at hs
      cases hs
    refine ⟨_, hc, ?_⟩
    rcases hR.outcome with ⟨_, h2, _, _⟩ | ⟨⟨_, T0, c, s, hT0, hA, _, hcs⟩, _⟩
    · exact Or.inl (hA1.clean.clean_append (hC2.clean_append h2.clean))
    · refine Or.inr ⟨T1 ++ (T2 ++ T0), c, s, ?_, hA1.clean.clean_append (hC2.clean_append hA.clean), hcs⟩
      rw [hT0, List.append_assoc, List.append_assoc]

/-- C6: when a structural call of `SetAUGraphFormat` (a run-state query or change, the capture
or the clearing of the interactions, the re-establishing of an interaction) fails with status
`e`, it is the last call the operation issues and the operation returns `e`. -/
theorem SetAUGraphFormat_aborts_on_structural_failure (p : AudioPlayer)
    (format : AudioStreamBasicDescription) (before after : List (AUCall × OSStatus))
    (c : AUCall) (e : OSStatus)
    (hlog : p.newCalls (SetAUGraphFormat p format).2 = before ++ (c, e) :: after)
    (hc : c.isStructural = true) (he : e ≠ noErr) :
    after = [] ∧ (SetAUGraphFormat p format).1 = e := by
  obtain ⟨T, hT, hres⟩ := SetAUGraphFormat_log p format
  rw [newCalls_eq hT] at hlog
  rcases hres with hC | ⟨T0, c1, s, hT0, hC0, hs⟩
  · exact absurd (hC (c, e) (by rw [hlog]; simp) hc) he
  · rw [hlog] at hT0
    rcases List.eq_nil_or_concat after with h | ⟨L, y, h⟩
    · subst h
      have h2 := List.append_inj' hT0 rfl
      have h3 : (c, e) = (c1, s) := by simpa using h2.2
      injection h3 with h4 h5
      subst h4; subst h5
      exact ⟨rfl, (hs hc).symm⟩
    · subst h
      have h1 : (before ++ (c, e) :: L) ++ [y] = T0 ++ [(c1, s)] := by
        rw [← hT0]; simp
      have h2 := List.append_inj' h1 rfl
      exact absurd (hC0 (c, e) (by rw [← h2.1]; simp) hc) he

/-- C6, at a concrete input: `AUGraphUninitialize` is the fourth call and fails with -1. -/
theorem SetAUGraphFormat_aborts_on_structural_failure_witness :
    (playingPlayer (failingAt 3 (-1))).newCalls
        (SetAUGraphFormat (playingPlayer (failingAt 3 (-1))) stereo48).2 =
        [(.AUGraphIsRunning, noErr), (.AUGraphStop, noErr), (.AUGraphIsInitialized, noErr)] ++
          [( AUCall.AUGraphUninitialize, -1)] ∧
      (SetAUGraphFormat (playingPlayer (failingAt 3 (-1))) stereo48).1 = -1 :=
  ⟨by decide,
    (SetAUGraphFormat_aborts_on_structural_failure (playingPlayer (failingAt 3 (-1))) stereo48
      [(.AUGraphIsRunning, noErr), (.AUGraphStop, noErr), (.AUGraphIsInitialized, noErr)] []
      AUCall.AUGraphUninitialize (-1) (by decide) rfl (by decide)).2⟩

/-! ## Decoder creation -/

theorem resolve_without_open (handles : SubclassInfo → Bool) (inputSource : InputSourceRef)
    (ks : List SubclassInfo) (rt : Runtime) (hauto : rt.sAutomaticallyOpenDecoders = false) :
    CreateDecoderForInputSource.resolve handles inputSource ks rt =
      ((ks.find? handles).map (fun k => k.mCreateDecoder inputSource), rt) := by
  induction ks with
  | nil => rfl
  | cons k rest ih =>
    unfold CreateDecoderForInputSource.resolve
    by_cases hk : handles k = true
    · simp [hk, Runtime.AutomaticallyOpenDecoders, hauto, List.find?]
    · have hk2 : handles k = false := by simpa using hk
      simp [hk2, List.find?, ih]

theorem CreateDecoderForInputSource_without_open (rt : Runtime) (inputSource : InputSourceRef)
    (mimeType : Option String) (hauto : rt.sAutomaticallyOpenDecoders = false) :
    CreateDecoderForInputSource (some inputSource) mimeType rt =
      match mimeType with
      | some m =>
        match CreateDecoderForInputSource.resolve (fun k => k.mHandlesMIMEType m) inputSource
            rt.sRegisteredSubclasses rt with
        | (some decoder, rt) => (some decoder, rt)
        | (none, rt) => CreateDecoderForInputSource.byExtension inputSource rt
      | none => CreateDecoderForInputSource.byExtension inputSource rt := by
  unfold CreateDecoderForInputSource
  simp [Runtime.AutomaticallyOpenDecoders, hauto]

/-- C7: with automatic opening disabled, a non-null input source and a MIME type that a
registered kind handles, `CreateDecoderForInputSource` returns the decoder built by the first
kind in registration order that handles the MIME type; whatever the input source's URL and path
extension are, the decoder is the same. -/
theorem CreateDecoderForInputSource_by_MIME (rt : Runtime) (inputSource : InputSourceRef)
    (mimeType : String) (k : SubclassInfo) (hauto : rt.sAutomaticallyOpenDecoders = false)
    (hk : rt.sRegisteredSubclasses.find? (fun k => k.mHandlesMIMEType mimeType) = some k) :
    CreateDecoderForInputSource (some inputSource) (some mimeType) rt =
        (some (k.mCreateDecoder inputSource), rt) ∧
      ∀ sources : InputSourceRef → InputSource,
        (CreateDecoderForInputSource (some inputSource) (some mimeType)
          { rt with inputSources := sources }).1 = some (k.mCreateDecoder inputSource) := by
  have key : ∀ rt2 : Runtime, rt2.sAutomaticallyOpenDecoders = false →
      rt2.sRegisteredSubclasses = rt.sRegisteredSubclasses →
      CreateDecoderForInputSource (some inputSource) (some mimeType) rt2 =
        (some (k.mCreateDecoder inputSource), rt2) := by
    intro rt2 h1 h2
    rw [CreateDecoderForInputSource_without_open rt2 inputSource _ h1]
    simp only
    rw [resolve_without_open _ _ _ _ h1, h2, hk]
    rfl
  refine ⟨key rt hauto rfl, ?_⟩
  intro sources
  rw [key { rt with inputSources := sources } hauto rfl]

/-- C7, at a concrete input: Musepack registered first, MIME type "audio/musepack", and an
input source whose file has the unrelated extension "ogg". -/
theorem CreateDecoderForInputSource_by_MIME_witness :
    [musepackKind, vorbisKind].find? (fun k => k.mHandlesMIMEType "audio/musepack") =
        some musepackKind ∧
      CreateDecoderForInputSource (some 0) (some "audio/musepack")
          (exampleRuntime [musepackKind, vorbisKind] (some oggURL)) =
        (some (musepackKind.mCreateDecoder 0),
          exampleRuntime [musepackKind, vorbisKind] (some oggURL)) :=
  ⟨rfl, (CreateDecoderForInputSource_by_MIME
    (exampleRuntime [musepackKind, vorbisKind] (some oggURL)) 0 "audio/musepack" musepackKind
    rfl rfl).1⟩

/-- C8: with automatic opening disabled and a non-null input source whose URL has a path
extension, when no MIME type is supplied or no registered kind handles the one supplied,
`CreateDecoderForInputSource` returns the decoder built by the first kind in registration order
that handles the extension, and null when no kind does. -/
theorem CreateDecoderForInputSource_by_extension (rt : Runtime) (inputSource : InputSourceRef)
    (mimeType : Option String) (url : CFURL) (extension : String)
    (hauto : rt.sAutomaticallyOpenDecoders = false)
    (hurl : (rt.inputSources inputSource).mURL = some url)
    (hext : url.pathExtension = some extension)
    (hmime : ∀ m, mimeType = some m →
      ∀ k ∈ rt.sRegisteredSubclasses, k.mHandlesMIMEType m = false) :
    CreateDecoderForInputSource (some inputSource) mimeType rt =
      ((rt.sRegisteredSubclasses.find? (fun k => k.mHandlesFilesWithExtension extension)).map
        (fun k => k.mCreateDecoder inputSource), rt) := by
  have hby : CreateDecoderForInputSource.byExtension inputSource rt =
      ((rt.sRegisteredSubclasses.find? (fun k => k.mHandlesFilesWithExtension extension)).map
        (fun k => k.mCreateDecoder inputSource), rt) := by
    unfold CreateDecoderForInputSource.byExtension
    rw [hurl]
    simp only
    rw [hext]
    simp only
    exact resolve_without_open _ _ _ _ hauto
  rw [CreateDecoderForInputSource_without_open rt inputSource _ hauto]
  cases mimeType with
  | none => exact hby
  | some m =>
    simp only
    rw [resolve_without_open _ _ _ _ hauto]
    have hnone : rt.sRegisteredSubclasses.find? (fun k => k.mHandlesMIMEType m) = none := by
      rw [List.find?_eq_none]
      intro k hk
      rw [hmime m rfl k hk]
      simp
    rw [hnone]
    exact hby

/-- C8, at a concrete input: two kinds claim the extension "ogg", no MIME type is supplied, and
the kind registered first builds the decoder. -/
theorem CreateDecoderForInputSource_by_extension_witness :
    CreateDecoderForInputSource (some 0) none
        (exampleRuntime [musepackKind, vorbisKind, oggFLACKind] (some oggURL)) =
      (some (vorbisKind.mCreateDecoder 0),
        exampleRuntime [musepackKind, vorbisKind, oggFLACKind] (some oggURL)) :=
  CreateDecoderForInputSource_by_extension
    (exampleRuntime [musepackKind, vorbisKind, oggFLACKind] (some oggURL)) 0 none oggURL "ogg"
    rfl rfl rfl (fun _ h => by cases h)

theorem KeepsInputSources.keeps_refl (rt : Runtime) : KeepsInputSources rt rt :=
  ⟨rfl, rfl, [], by simp, by simp⟩

theorem KeepsInputSources.keeps_trans {rt rt2 rt3 : Runtime} (h1 : KeepsInputSources rt rt2)
    (h2 : KeepsInputSources rt2 rt3) : KeepsInputSources rt rt3 := by
  obtain ⟨d1, hd1, hn1⟩ := h1.destroyed
  obtain ⟨d2, hd2, hn2⟩ := h2.destroyed
  refine ⟨h2.auto.trans h1.auto, h2.deleted.trans h1.deleted, d1 ++ d2, ?_, ?_⟩
  · rw [hd2, hd1, List.append_assoc]
  · intro d hd
    rcases List.mem_append.1 hd with h | h
    · exact hn1 d h
    · exact hn2 d h

theorem inputSourceOpen_keeps (rt : Runtime) (inputSource : InputSourceRef) :
    KeepsInputSources rt (rt.inputSourceOpen inputSource).2 := by
  unfold Runtime.inputSourceOpen
  split
  · exact ⟨rfl, rfl, [], by simp, by simp⟩
  · exact KeepsInputSources.keeps_refl rt

theorem resolve_keeps (handles : SubclassInfo → Bool) (inputSource : InputSourceRef)
    (ks : List SubclassInfo) :
    ∀ rt : Runtime,
      KeepsInputSources rt (CreateDecoderForInputSource.resolve handles inputSource ks rt).2 ∧
        ∀ d, (CreateDecoderForInputSource.resolve handles inputSource ks rt).1 = some d →
          d.mInputSource = some inputSource := by
  induction ks with
  | nil =>
    intro rt
    exact ⟨KeepsInputSources.keeps_refl rt, fun d h => by cases h⟩
  | cons k rest ih =>
    intro rt
    unfold CreateDecoderForInputSource.resolve
    by_cases hk : handles k = true
    · rw [if_pos hk]
      simp only
      by_cases hauto : rt.AutomaticallyOpenDecoders = true
      · rw [if_pos hauto]
        unfold SubclassInfo.mCreateDecoder Decoder.Open
        simp only
        by_cases ho : k.opens (rt.inputSources inputSource) = true
        · rw [if_pos ho]
          simp only
          refine ⟨KeepsInputSources.keeps_refl rt, ?_⟩
          intro d hd
          cases hd
          rfl
        · rw [if_neg ho]
          simp only
          have hstep : KeepsInputSources rt
              (rt.deleteDecoder (Decoder.file k (some inputSource) false).clearInputSource) :=
            ⟨rfl, rfl, [.file k none false], rfl, by
              intro d hd
              simp only [List.mem_singleton] at hd
              subst hd
              rfl⟩
          exact ⟨hstep.keeps_trans (ih _).1, (ih _).2⟩
      · rw [if_neg hauto]
        refine ⟨KeepsInputSources.keeps_refl rt, ?_⟩
        intro d hd
        cases hd
        rfl
    · rw [if_neg hk]
      exact ih rt

theorem byExtension_keeps (inputSource : InputSourceRef) (rt : Runtime) :
    KeepsInputSources rt (CreateDecoderForInputSource.byExtension inputSource rt).2 ∧
      ∀ d, (CreateDecoderForInputSource.byExtension inputSource rt).1 = some d →
        d.mInputSource = some inputSource := by
  unfold CreateDecoderForInputSource.byExtension
  split
  · exact ⟨KeepsInputSources.keeps_refl rt, fun d h => by cases h⟩
  · split
    · exact ⟨KeepsInputSources.keeps_refl rt, fun d h => by cases h⟩
    · exact resolve_keeps _ _ _ rt

theorem CreateDecoderForInputSource_keeps (inputSource : InputSourceRef)
    (mimeType : Option String) (rt : Runtime) :
    KeepsInputSources rt (CreateDecoderForInputSource (some inputSource) mimeType rt).2 ∧
      ∀ d, (CreateDecoderForInputSource (some inputSource) mimeType rt).1 = some d →
        d.mInputSource = some inputSource := by
  unfold CreateDecoderForInputSource
  simp only
  have hopen : ∀ b rt1, (if rt.AutomaticallyOpenDecoders && !rt.inputSourceIsOpen inputSource
      then rt.inputSourceOpen inputSource else (true, rt)) = (b, rt1) →
      KeepsInputSources rt rt1 := by
    intro b rt1 h
    split at h
    · have := inputSourceOpen_keeps rt inputSource
      rw [h] at this
      exact this
    · cases h
      exact KeepsInputSources.keeps_refl rt
  rcases hx : (if rt.AutomaticallyOpenDecoders && !rt.inputSourceIsOpen inputSource
      then rt.inputSourceOpen inputSource else (true, rt)) with ⟨b, rt1⟩
  have h1 := hopen b rt1 hx
  cases b with
  | false => exact ⟨h1, fun d h => by cases h⟩
  | true =>
    simp only
    cases mimeType with
    | none =>
      simp only
      exact ⟨h1.keeps_trans (byExtension_keeps inputSource rt1).1, (byExtension_keeps inputSource rt1).2⟩
    | some m =>
      simp only
      have h2 := resolve_keeps (fun k => k.mHandlesMIMEType m) inputSource
        rt1.sRegisteredSubclasses rt1
      rcases hy : CreateDecoderForInputSource.resolve (fun k => k.mHandlesMIMEType m) inputSource
        rt1.sRegisteredSubclasses rt1 with ⟨od, rt2⟩
      rw [hy] at h2
      cases od with
      | some d =>
        simp only
        exact ⟨h1.keeps_trans h2.1, h2.2⟩
      | none =>
        simp only
        exact ⟨(h1.keeps_trans h2.1).keeps_trans (byExtension_keeps inputSource rt2).1,
          (byExtension_keeps inputSource rt2).2⟩

/-- C9: whatever the registry, the MIME type and the automatic-opening flag,
`CreateDecoderForInputSource` (either overload) deletes no input source, so that the one passed
in is intact and the caller's when null is returned; every decoder it destroys has been detached
from its input source first; and a decoder it returns has the input source passed in. -/
theorem CreateDecoderForInputSource_ownership (rt : Runtime) (inputSource : InputSourceRef)
    (mimeType : Option String) :
    (CreateDecoderForInputSource (some inputSource) mimeType rt).2.deleted = rt.deleted ∧
      (∃ ds, (CreateDecoderForInputSource (some inputSource) mimeType rt).2.destroyed =
          rt.destroyed ++ ds ∧ ∀ d ∈ ds, d.mInputSource = none) ∧
      (∀ d, (CreateDecoderForInputSource (some inputSource) mimeType rt).1 = some d →
        d.mInputSource = some inputSource) ∧
      (CreateDecoderForInputSource.noMIMEType (some inputSource) rt).2.deleted = rt.deleted ∧
      (∃ ds, (CreateDecoderForInputSource.noMIMEType (some inputSource) rt).2.destroyed =
          rt.destroyed ++ ds ∧ ∀ d ∈ ds, d.mInputSource = none) ∧
      (∀ d, (CreateDecoderForInputSource.noMIMEType (some inputSource) rt).1 = some d →
        d.mInputSource = some inputSource) := by
  have h1 := CreateDecoderForInputSource_keeps inputSource mimeType rt
  have h2 := CreateDecoderForInputSource_keeps inputSource none rt
  exact ⟨h1.1.deleted, h1.1.destroyed, h1.2, h2.1.deleted, h2.1.destroyed, h2.2⟩

/-- C9, at a concrete input: decoders open automatically, the one kind that handles the
extension fails to open; null is returned, no input source has been deleted, and the decoder
destroyed had no input source any more. -/
theorem CreateDecoderForInputSource_ownership_witness :
    (CreateDecoderForInputSource (some 0) none
        { exampleRuntime [{ streamKind with opens := fun _ => false }] (some mp3URL) with
          sAutomaticallyOpenDecoders := true }).1.isNone = true ∧
      (CreateDecoderForInputSource (some 0) none
        { exampleRuntime [{ streamKind with opens := fun _ => false }] (some mp3URL) with
          sAutomaticallyOpenDecoders := true }).2.deleted = [] ∧
      ((CreateDecoderForInputSource (some 0) none
        { exampleRuntime [{ streamKind with opens := fun _ => false }] (some mp3URL) with
          sAutomaticallyOpenDecoders := true }).2.destroyed.map Decoder.mInputSource) = [none] :=
  ⟨by decide,
    (CreateDecoderForInputSource_ownership
      { exampleRuntime [{ streamKind with opens := fun _ => false }] (some mp3URL) with
        sAutomaticallyOpenDecoders := true } 0 none).1,
    by decide⟩

/-- C10 (the code at a failing input): the only registered kind handles "mp3" and its decoders
do not seek.  `CreateDecoderForInputSourceRegion`, for each of the three overloads, returns null
having deleted the caller's input source (address 0), and `CreateDecoderForURLRegion` returns
null having deleted the input source it created (address 1) twice. -/
theorem CreateDecoderForURLRegion_deletes_twice :
    ((CreateDecoderForInputSourceRegion (some 0) (.start 0)
          (exampleRuntime [streamKind] (some mp3URL))).1.isNone = true ∧
        (CreateDecoderForInputSourceRegion (some 0) (.start 0)
          (exampleRuntime [streamKind] (some mp3URL))).2.deleted = [0]) ∧
      ((CreateDecoderForInputSourceRegion (some 0) (.startCount 0 1000)
          (exampleRuntime [streamKind] (some mp3URL))).1.isNone = true ∧
        (CreateDecoderForInputSourceRegion (some 0) (.startCount 0 1000)
          (exampleRuntime [streamKind] (some mp3URL))).2.deleted = [0]) ∧
      ((CreateDecoderForInputSourceRegion (some 0) (.startCountRepeat 0 1000 2)
          (exampleRuntime [streamKind] (some mp3URL))).1.isNone = true ∧
        (CreateDecoderForInputSourceRegion (some 0) (.startCountRepeat 0 1000 2)
          (exampleRuntime [streamKind] (some mp3URL))).2.deleted = [0]) ∧
      ((CreateDecoderForURLRegion (some mp3URL) (.start 0)
          (exampleRuntime [streamKind] none)).1.isNone = true ∧
        (CreateDecoderForURLRegion (some mp3URL) (.start 0)
          (exampleRuntime [streamKind] none)).2.deleted = [1, 1]) := by
  decide

theorem DestroysClosed.closed_refl (rt : Runtime) : DestroysClosed rt rt :=
  ⟨rfl, [], by simp, by simp⟩

theorem DestroysClosed.closed_trans {rt rt2 rt3 : Runtime} (h1 : DestroysClosed rt rt2)
    (h2 : DestroysClosed rt2 rt3) : DestroysClosed rt rt3 := by
  obtain ⟨d1, hd1, hn1⟩ := h1.destroyed
  obtain ⟨d2, hd2, hn2⟩ := h2.destroyed
  refine ⟨h2.auto.trans h1.auto, d1 ++ d2, ?_, ?_⟩
  · rw [hd2, hd1, List.append_assoc]
  · intro d hd
    rcases List.mem_append.1 hd with h | h
    · exact hn1 d h
    · exact hn2 d h

theorem resolve_opened (handles : SubclassInfo → Bool) (inputSource : InputSourceRef)
    (ks : List SubclassInfo) :
    ∀ rt : Runtime, rt.sAutomaticallyOpenDecoders = true →
      DestroysClosed rt (CreateDecoderForInputSource.resolve handles inputSource ks rt).2 ∧
        ∀ d, (CreateDecoderForInputSource.resolve handles inputSource ks rt).1 = some d →
          d.IsOpen = true := by
  induction ks with
  | nil =>
    intro rt _
    exact ⟨DestroysClosed.closed_refl rt, fun d h => by cases h⟩
  | cons k rest ih =>
    intro rt hauto
    unfold CreateDecoderForInputSource.resolve
    by_cases hk : handles k = true
    · rw [if_pos hk]
      simp only
      rw [if_pos (show rt.AutomaticallyOpenDecoders = true from hauto)]
      unfold SubclassInfo.mCreateDecoder Decoder.Open
      simp only
      by_cases ho : k.opens (rt.inputSources inputSource) = true
      · rw [if_pos ho]
        simp only
        refine ⟨DestroysClosed.closed_refl rt, ?_⟩
        intro d hd
        cases hd
        rfl
      · rw [if_neg ho]
        simp only
        have hstep : DestroysClosed rt
            (rt.deleteDecoder (Decoder.file k (some inputSource) false).clearInputSource) :=
          ⟨rfl, [.file k none false], rfl, by
            intro d hd
            simp only [List.mem_singleton] at hd
            subst hd
            rfl⟩
        have h2 := ih (rt.deleteDecoder (Decoder.file k (some inputSource) false).clearInputSource)
          hauto
        exact ⟨hstep.closed_trans h2.1, h2.2⟩
    · rw [if_neg hk]
      exact ih rt hauto

theorem byExtension_opened (inputSource : InputSourceRef) (rt : Runtime)
    (hauto : rt.sAutomaticallyOpenDecoders = true) :
    DestroysClosed rt (CreateDecoderForInputSource.byExtension inputSource rt).2 ∧
      ∀ d, (CreateDecoderForInputSource.byExtension inputSource rt).1 = some d →
        d.IsOpen = true := by
  unfold CreateDecoderForInputSource.byExtension
  split
  · exact ⟨DestroysClosed.closed_refl rt, fun d h => by cases h⟩
  · split
    · exact ⟨DestroysClosed.closed_refl rt, fun d h => by cases h⟩
    · exact resolve_opened _ _ _ rt hauto

theorem CreateDecoderForInputSource_opened (rt : Runtime) (inputSource : InputSourceRef)
    (mimeType : Option String) (hauto : rt.sAutomaticallyOpenDecoders = true) :
    (∀ d, (CreateDecoderForInputSource (some inputSource) mimeType rt).1 = some d →
        d.IsOpen = true) ∧
      ∃ ds, (CreateDecoderForInputSource (some inputSource) mimeType rt).2.destroyed =
          rt.destroyed ++ ds ∧
        ∀ d ∈ ds, d.IsOpen = false ∧
          (CreateDecoderForInputSource (some inputSource) mimeType rt).1 ≠ some d := by
  have key : DestroysClosed rt (CreateDecoderForInputSource (some inputSource) mimeType rt).2 ∧
      ∀ d, (CreateDecoderForInputSource (some inputSource) mimeType rt).1 = some d →
        d.IsOpen = true := by
    unfold CreateDecoderForInputSource
    simp only
    have hopen : ∀ b rt1, (if rt.AutomaticallyOpenDecoders && !rt.inputSourceIsOpen inputSource
        then rt.inputSourceOpen inputSource else (true, rt)) = (b, rt1) →
        DestroysClosed rt rt1 := by
      intro b rt1 h
      split at h
      · have h1 := inputSourceOpen_keeps rt inputSource
        rw [h] at h1
        exact ⟨h1.auto, [], by simp [h1.destroyed, show rt1.destroyed = rt.destroyed from by
          unfold Runtime.inputSourceOpen at h
          split at h <;> cases h <;> rfl], by simp⟩
      · cases h
        exact DestroysClosed.closed_refl rt
    rcases hx : (if rt.AutomaticallyOpenDecoders && !rt.inputSourceIsOpen inputSource
        then rt.inputSourceOpen inputSource else (true, rt)) with ⟨b, rt1⟩
    have h1 := hopen b rt1 hx
    have hauto1 : rt1.sAutomaticallyOpenDecoders = true := h1.auto.trans hauto
    cases b with
    | false => exact ⟨h1, fun d h => by cases h⟩
    | true =>
      simp only
      cases mimeType with
      | none =>
        simp only
        exact ⟨h1.closed_trans (byExtension_opened inputSource rt1 hauto1).1,
          (byExtension_opened inputSource rt1 hauto1).2⟩
      | some m =>
        simp only
        have h2 := resolve_opened (fun k => k.mHandlesMIMEType m) inputSource
          rt1.sRegisteredSubclasses rt1 hauto1
        rcases hy : CreateDecoderForInputSource.resolve (fun k => k.mHandlesMIMEType m)
          inputSource rt1.sRegisteredSubclasses rt1 with ⟨od, rt2⟩
        rw [hy] at h2
        cases od with
        | some d =>
          simp only
          exact ⟨h1.closed_trans h2.1, h2.2⟩
        | none =>
          simp only
          have hauto2 : rt2.sAutomaticallyOpenDecoders = true := h2.1.auto.trans hauto1
          exact ⟨(h1.closed_trans h2.1).closed_trans (byExtension_opened inputSource rt2 hauto2).1,
            (byExtension_opened inputSource rt2 hauto2).2⟩
  refine ⟨key.2, ?_⟩
  obtain ⟨ds, hds, hcl⟩ := key.1.destroyed
  refine ⟨ds, hds, fun d hd => ⟨hcl d hd, ?_⟩⟩
  intro hret
  have h1 := key.2 d hret
  rw [hcl d hd] at h1
  cases h1

/-- C12: for each of the three overloads, `CreateDecoderForDecoderRegion` returns null exactly
when the decoder is null or does not support seeking, and otherwise the region decoder that
wraps the decoder with the overload's arguments; the function has no access to the object store,
so it destroys nothing. -/
theorem CreateDecoderForDecoderRegion_wraps_seekable (decoder : Option Decoder)
    (args : RegionArgs) :
    (CreateDecoderForDecoderRegion decoder args = none ↔
        decoder = none ∨ ∃ d, decoder = some d ∧ d.SupportsSeeking = false) ∧
      (∀ r, CreateDecoderForDecoderRegion decoder args = some r ↔
        ∃ d, decoder = some d ∧ d.SupportsSeeking = true ∧ r = .region d args) := by
  cases decoder with
  | none =>
    refine ⟨⟨fun _ => Or.inl rfl, fun _ => rfl⟩, fun r => ⟨fun h => ?_, ?_⟩⟩
    · cases h
    · rintro ⟨d, hd, _⟩
      cases hd
  | some d =>
    have e1 : CreateDecoderForDecoderRegion (some d) args =
        if d.SupportsSeeking = true then some (.region d args) else none := by
      unfold CreateDecoderForDecoderRegion
      simp only
      cases h : d.SupportsSeeking <;> simp
    rw [e1]
    cases hs : d.SupportsSeeking with
    | false =>
      refine ⟨⟨fun _ => Or.inr ⟨d, rfl, hs⟩, fun _ => by simp⟩, fun r => ⟨fun h => ?_, ?_⟩⟩
      · simp at h
      · rintro ⟨d1, hd1, hs1, _⟩
        cases hd1
        rw [hs] at hs1
        cases hs1
    | true =>
      refine ⟨⟨fun h => ?_, ?_⟩, fun r => ⟨fun h => ?_, ?_⟩⟩
      · simp at h
      · rintro (h | ⟨d1, hd1, hs1⟩)
        · cases h
        · cases hd1
          rw [hs] at hs1
          cases hs1
      · simp only [if_true] at h
        cases h
        exact ⟨d, rfl, hs, rfl⟩
      · rintro ⟨d1, hd1, _, hr⟩
        cases hd1
        rw [hr]
        simp

/-- C12, at concrete inputs: a Musepack decoder (seekable) is wrapped, a decoder of the stream
kind (not seekable) and the null decoder yield null. -/
theorem CreateDecoderForDecoderRegion_wraps_seekable_witness :
    (CreateDecoderForDecoderRegion (some (musepackKind.mCreateDecoder 0))
        (.startCountRepeat 100 1000 2)).isSome = true ∧
      (CreateDecoderForDecoderRegion (some (streamKind.mCreateDecoder 0)) (.start 0)).isNone =
        true ∧
      CreateDecoderForDecoderRegion none (.startCount 0 10) = none :=
  ⟨by decide, by decide,
    (CreateDecoderForDecoderRegion_wraps_seekable none (.startCount 0 10)).1.2 (Or.inl rfl)⟩

/-! ## The render callback -/

/-- C13: `Render` calls `Fetch` of the ring buffer once, for the requested number of frames, from
the position `mFramesRendered`, with partial reads disallowed, and hands back the buffers as
`Fetch` left them; when `Fetch` reports OK, `Render` returns `noErr` and `mFramesRendered` has
advanced by the requested number of frames. -/
theorem Render_fetches_once (p : AudioPlayer) (inNumberFrames : Nat) (ioData : AudioBufferList) :
    (Render p inNumberFrames ioData).2.2.mRingBuffer.fetchCalls =
        p.mRingBuffer.fetchCalls ++ [(inNumberFrames, p.mFramesRendered, false)] ∧
      (Render p inNumberFrames ioData).2.1 =
        (p.mRingBuffer.Fetch ioData inNumberFrames p.mFramesRendered false).2.1 ∧
      ((p.mRingBuffer.Fetch ioData inNumberFrames p.mFramesRendered false).1 =
          kCARingBufferError_OK →
        (Render p inNumberFrames ioData).1 = noErr ∧
          (Render p inNumberFrames ioData).2.2.mFramesRendered =
            p.mFramesRendered + inNumberFrames) := by
  unfold Render
  simp only
  by_cases h : kCARingBufferError_OK ≠
      (p.mRingBuffer.Fetch ioData inNumberFrames p.mFramesRendered false).1
  · rw [if_pos h]
    exact ⟨rfl, rfl, fun h2 => absurd h2.symm h⟩
  · rw [if_neg h]
    exact ⟨rfl, rfl, fun _ => ⟨rfl, rfl⟩⟩

/-- C13, at a concrete input: 512 frames from position 256, all of them stored. -/
theorem Render_fetches_once_witness :
    (Render (renderingPlayer 256) 512 [[0, 0, 0, 0]]).2.2.mRingBuffer.fetchCalls =
        [(512, 256, false)] ∧
      (Render (renderingPlayer 256) 512 [[0, 0, 0, 0]]).1 = noErr ∧
      (Render (renderingPlayer 256) 512 [[0, 0, 0, 0]]).2.2.mFramesRendered = 256 + 512 :=
  ⟨(Render_fetches_once (renderingPlayer 256) 512 [[0, 0, 0, 0]]).1,
    (Render_fetches_once (renderingPlayer 256) 512 [[0, 0, 0, 0]]).2.2 (by decide)⟩

/-- C14 (the claim fails): 512 frames are asked for from position 600, beyond what is stored;
`Fetch` reports an error, `Render` returns `ioErr`, which is not `noErr`, and the buffers hold
what they held before, not silence. -/
theorem Render_reports_fetch_error :
    (storedRingBuffer.Fetch [[1, 2, 3, 4]] 512 600 false).1 ≠ kCARingBufferError_OK ∧
      (Render (renderingPlayer 600) 512 [[1, 2, 3, 4]]).1 = ioErr ∧
      (Render (renderingPlayer 600) 512 [[1, 2, 3, 4]]).1 ≠ noErr ∧
      (Render (renderingPlayer 600) 512 [[1, 2, 3, 4]]).2.1 = [[1, 2, 3, 4]] := by
  decide

/-- C14 (amended): when `Fetch` reports an error, `Render` returns the error status `ioErr` and
hands back the buffers as `Fetch` left them, writing nothing to them itself. -/
theorem Render_returns_ioErr_on_fetch_error (p : AudioPlayer) (inNumberFrames : Nat)
    (ioData : AudioBufferList)
    (h : (p.mRingBuffer.Fetch ioData inNumberFrames p.mFramesRendered false).1 ≠
      kCARingBufferError_OK) :
    (Render p inNumberFrames ioData).1 = ioErr ∧ (Render p inNumberFrames ioData).1 ≠ noErr ∧
      (Render p inNumberFrames ioData).2.1 =
        (p.mRingBuffer.Fetch ioData inNumberFrames p.mFramesRendered false).2.1 := by
  unfold Render
  simp only
  rw [if_pos (fun e => h e.symm)]
  exact ⟨rfl, (by decide : ioErr ≠ noErr), rfl⟩

/-- C14 (amended), at the input of the counterexample. -/
theorem Render_returns_ioErr_on_fetch_error_witness :
    (Render (renderingPlayer 600) 512 [[1, 2, 3, 4]]).1 = ioErr ∧
      (Render (renderingPlayer 600) 512 [[1, 2, 3, 4]]).1 ≠ noErr ∧
      (Render (renderingPlayer 600) 512 [[1, 2, 3, 4]]).2.1 =
        ((renderingPlayer 600).mRingBuffer.Fetch [[1, 2, 3, 4]] 512
          (renderingPlayer 600).mFramesRendered false).2.1 :=
  Render_returns_ioErr_on_fetch_error (renderingPlayer 600) 512 [[1, 2, 3, 4]] (by decide)

/-! ## Channel layouts -/

/-- C16: `channelLayoutsAreEqual` is true exactly when the tags are equal and, for the bitmap
tag, the bitmaps are equal, for the descriptions tag, the description counts are equal and the
description arrays agree byte for byte over that count; for any other tag equal tags suffice. -/
theorem channelLayoutsAreEqual_iff (layoutA layoutB : AudioChannelLayout) :
    (channelLayoutsAreEqual layoutA layoutB = true ↔
        layoutA.mChannelLayoutTag = layoutB.mChannelLayoutTag ∧
          (layoutA.mChannelLayoutTag = kAudioChannelLayoutTag_UseChannelBitmap →
            layoutA.mChannelBitmap = layoutB.mChannelBitmap) ∧
          (layoutA.mChannelLayoutTag = kAudioChannelLayoutTag_UseChannelDescriptions →
            layoutA.mNumberChannelDescriptions = layoutB.mNumberChannelDescriptions ∧
              layoutA.descriptionBytes.take
                  (layoutA.mNumberChannelDescriptions * sizeof_AudioChannelDescription) =
                layoutB.descriptionBytes.take
                  (layoutA.mNumberChannelDescriptions * sizeof_AudioChannelDescription))) ∧
      (layoutA.mChannelLayoutTag ≠ kAudioChannelLayoutTag_UseChannelBitmap →
        layoutA.mChannelLayoutTag ≠ kAudioChannelLayoutTag_UseChannelDescriptions →
        (channelLayoutsAreEqual layoutA layoutB = true ↔
          layoutA.mChannelLayoutTag = layoutB.mChannelLayoutTag)) := by
  have hne : kAudioChannelLayoutTag_UseChannelBitmap ≠
      kAudioChannelLayoutTag_UseChannelDescriptions := by decide
  have main : channelLayoutsAreEqual layoutA layoutB = true ↔
      layoutA.mChannelLayoutTag = layoutB.mChannelLayoutTag ∧
        (layoutA.mChannelLayoutTag = kAudioChannelLayoutTag_UseChannelBitmap →
          layoutA.mChannelBitmap = layoutB.mChannelBitmap) ∧
        (layoutA.mChannelLayoutTag = kAudioChannelLayoutTag_UseChannelDescriptions →
          layoutA.mNumberChannelDescriptions = layoutB.mNumberChannelDescriptions ∧
            layoutA.descriptionBytes.take
                (layoutA.mNumberChannelDescriptions * sizeof_AudioChannelDescription) =
              layoutB.descriptionBytes.take
                (layoutA.mNumberChannelDescriptions * sizeof_AudioChannelDescription)) := by
    unfold channelLayoutsAreEqual
    by_cases ht : layoutA.mChannelLayoutTag = layoutB.mChannelLayoutTag
    · rw [if_neg (fun h => h ht)]
      by_cases hb : kAudioChannelLayoutTag_UseChannelBitmap = layoutA.mChannelLayoutTag
      · rw [if_pos hb]
        have hd : layoutA.mChannelLayoutTag ≠ kAudioChannelLayoutTag_UseChannelDescriptions :=
          fun h => hne (hb.trans h)
        simp only [decide_eq_true_eq]
        exact ⟨fun h => ⟨ht, fun _ => h, fun h2 => absurd h2 hd⟩, fun h => h.2.1 hb.symm⟩
      · rw [if_neg hb]
        by_cases hd : kAudioChannelLayoutTag_UseChannelDescriptions = layoutA.mChannelLayoutTag
        · rw [if_pos hd]
          by_cases hn :
              layoutA.mNumberChannelDescriptions = layoutB.mNumberChannelDescriptions
          · rw [if_neg (fun h => h hn)]
            simp only [decide_eq_true_eq, memcmp]
            constructor
            · intro h
              refine ⟨ht, fun h2 => absurd h2.symm hb, fun _ => ⟨hn, ?_⟩⟩
              by_contra hc
              rw [if_neg hc] at h
              cases h
            · intro h
              rw [if_pos (h.2.2 hd.symm).2]
          · rw [if_pos hn]
            exact ⟨fun h => (by cases h), fun h => absurd (h.2.2 hd.symm).1 hn⟩
        · rw [if_neg hd]
          exact ⟨fun _ => ⟨ht, fun h2 => absurd h2.symm hb, fun h2 => absurd h2.symm hd⟩,
            fun _ => rfl⟩
    · rw [if_pos ht]
      exact ⟨fun h => (by cases h), fun h => absurd h.1 ht⟩
  refine ⟨main, ?_⟩
  intro hb hd
  rw [main]
  exact ⟨fun h => h.1, fun h => ⟨h, fun h2 => absurd h2 hb, fun h2 => absurd h2 hd⟩⟩

/-- C16, at concrete inputs: two layouts with the tag 6553601 (stereo) and different bitmaps and
descriptions are equal; two layouts with the bitmap tag and different bitmaps are not; two
layouts with the descriptions tag, one description each, that differ in a coordinate are not. -/
theorem channelLayoutsAreEqual_iff_witness :
    channelLayoutsAreEqual ⟨6553601, 3, 0, []⟩ ⟨6553601, 0, 1, [⟨1, 0, 0, 0, 0⟩]⟩ = true ∧
      channelLayoutsAreEqual ⟨kAudioChannelLayoutTag_UseChannelBitmap, 3, 0, []⟩
        ⟨kAudioChannelLayoutTag_UseChannelBitmap, 7, 0, []⟩ = false ∧
      channelLayoutsAreEqual
        ⟨kAudioChannelLayoutTag_UseChannelDescriptions, 0, 1, [⟨1, 0, 0, 0, 0⟩]⟩
        ⟨kAudioChannelLayoutTag_UseChannelDescriptions, 0, 1, [⟨1, 0, 0, 0, 1065353216⟩]⟩ =
        false :=
  ⟨((channelLayoutsAreEqual_iff ⟨6553601, 3, 0, []⟩ ⟨6553601, 0, 1, [⟨1, 0, 0, 0, 0⟩]⟩).2
      (by decide) (by decide)).2 rfl,
    by decide, by decide⟩

/-! ## Playlist management -/

/-- C20: `Enqueue` returns false and leaves the player as it is: the current decoder, the active
format, the ring buffer, the frame counters and the graph are those before the call. -/
theorem Enqueue_changes_nothing (p : AudioPlayer) (decoder : AudioDecoder) :
    (Enqueue p decoder).1 = false ∧ (Enqueue p decoder).2 = p :=
  ⟨rfl, rfl⟩

/-! ## What the player's operations leave alone -/

theorem Frame.counters {p q : AudioPlayer} (h : Frame p q) : SameCounters p q :=
  ⟨h.framesDecoded, h.framesRendered⟩

theorem SameCounters.counters_trans {p q r : AudioPlayer} (h1 : SameCounters p q)
    (h2 : SameCounters q r) : SameCounters p r :=
  ⟨h2.framesDecoded.trans h1.framesDecoded, h2.framesRendered.trans h1.framesRendered⟩

theorem call_frame (p : AudioPlayer) (c : AUCall) (eff : AUGraph → AUGraph) :
    Frame p (p.call c eff).2 :=
  (call_step p c eff).frame

theorem IsPlaying_frame (p : AudioPlayer) : Frame p (IsPlaying p).2 := by
  obtain ⟨r, q, heq, hs⟩ := AUGraphIsRunning_spec p false
  unfold IsPlaying
  rw [heq]
  exact hs.frame

theorem Play_frame (p : AudioPlayer) : Frame p (Play p) := by
  unfold Play
  have h := IsPlaying_frame p
  rcases hx : IsPlaying p with ⟨b, q⟩
  rw [hx] at h
  cases b with
  | true => exact h
  | false => exact h.frame_trans (call_frame q _ _)

theorem Pause_frame (p : AudioPlayer) : Frame p (Pause p) := by
  unfold Pause
  have h := IsPlaying_frame p
  rcases hx : IsPlaying p with ⟨b, q⟩
  rw [hx] at h
  cases b with
  | false => exact h
  | true => exact h.frame_trans (call_frame q _ _)

theorem PlayPause_frame (p : AudioPlayer) : Frame p (PlayPause p) := by
  unfold PlayPause
  have h := IsPlaying_frame p
  rcases hx : IsPlaying p with ⟨b, q⟩
  rw [hx] at h
  cases b with
  | true => exact h.frame_trans (Pause_frame q)
  | false => exact h.frame_trans (Play_frame q)

theorem Stop_frame (p : AudioPlayer) : Frame p (Stop p) := by
  unfold Stop
  have h := IsPlaying_frame p
  rcases hx : IsPlaying p with ⟨b, q⟩
  rw [hx] at h
  cases b with
  | false => exact h
  | true => exact h.frame_trans (Pause_frame q)

theorem AUGraphNodeInfo_frame (p : AudioPlayer) (n : AUNode) (o : AudioUnit) :
    Frame p (AUGraphNodeInfo p n o).2.2 :=
  (AUGraphNodeInfo_quiet p n o).frame

theorem AudioUnitGetProperty_BypassEffect_frame (p : AudioPlayer) (au : AudioUnit) (o : Nat) :
    Frame p (AudioUnitGetProperty_BypassEffect p au o).2.2 := by
  have h := call_frame p (.AudioUnitGetProperty au kAudioUnitProperty_BypassEffect .Global 0) id
  unfold AudioUnitGetProperty_BypassEffect
  rcases hx : p.call (.AudioUnitGetProperty au kAudioUnitProperty_BypassEffect .Global 0) id
    with ⟨r, q⟩
  rw [hx] at h
  simp only
  split <;> exact h

theorem SetVolume_frame (p : AudioPlayer) (volume : Float32) : Frame p (SetVolume p volume).2 := by
  unfold SetVolume
  have h1 := AUGraphNodeInfo_frame p p.mOutputNode none
  rcases hx1 : AUGraphNodeInfo p p.mOutputNode none with ⟨r1, au, p1⟩
  rw [hx1] at h1
  simp only
  split
  · exact h1
  have h2 := call_frame p1 (.AudioUnitSetParameter au kHALOutputParam_Volume .Global 0 volume)
    (fun g => { g with
      parameters := (au, kHALOutputParam_Volume, .Global, 0, volume) :: g.parameters })
  unfold AudioUnitSetParameter
  rcases hx2 : p1.call (.AudioUnitSetParameter au kHALOutputParam_Volume .Global 0 volume)
    (fun g => { g with
      parameters := (au, kHALOutputParam_Volume, .Global, 0, volume) :: g.parameters })
    with ⟨r2, p2⟩
  rw [hx2] at h2
  simp only
  split <;> exact h1.frame_trans h2

theorem PreGainIsEnabled_frame (p : AudioPlayer) : Frame p (PreGainIsEnabled p).2 := by
  unfold PreGainIsEnabled
  have h1 := AUGraphNodeInfo_frame p p.mLimiterNode none
  rcases hx1 : AUGraphNodeInfo p p.mLimiterNode none with ⟨r1, au, p1⟩
  rw [hx1] at h1
  simp only
  split
  · exact h1
  have h2 := AudioUnitGetProperty_BypassEffect_frame p1 au 0
  rcases hx2 : AudioUnitGetProperty_BypassEffect p1 au 0 with ⟨r2, b, p2⟩
  rw [hx2] at h2
  simp only
  split <;> exact h1.frame_trans h2

theorem EnablePreGain_frame (p : AudioPlayer) (flag : Nat) :
    Frame p (EnablePreGain p flag).2 := by
  unfold EnablePreGain
  have h1 : Frame p (if flag ≠ 0 then PreGainIsEnabled p else (false, p)).2 := by
    split
    · exact PreGainIsEnabled_frame p
    · exact Frame.frame_refl p
  rcases hx1 : (if flag ≠ 0 then PreGainIsEnabled p else (false, p)) with ⟨b1, p1⟩
  rw [hx1] at h1
  cases b1 with
  | true => exact h1
  | false =>
    simp only
    have h2 : Frame p1 (if flag = 0 then ((!(PreGainIsEnabled p1).1), (PreGainIsEnabled p1).2)
        else (false, p1)).2 := by
      split
      · exact PreGainIsEnabled_frame p1
      · exact Frame.frame_refl p1
    rcases hx2 : (if flag = 0 then ((!(PreGainIsEnabled p1).1), (PreGainIsEnabled p1).2)
        else (false, p1)) with ⟨b2, p2⟩
    rw [hx2] at h2
    cases b2 with
    | true => exact h1.frame_trans h2
    | false =>
      simp only
      have h3 := AUGraphNodeInfo_frame p2 p2.mLimiterNode none
      rcases hx3 : AUGraphNodeInfo p2 p2.mLimiterNode none with ⟨r3, au, p3⟩
      rw [hx3] at h3
      simp only
      split
      · exact (h1.frame_trans h2).frame_trans h3
      have h4 := call_frame p3
        (.AudioUnitSetProperty_UInt32 au kAudioUnitProperty_BypassEffect .Global 0 flag)
        (fun g => { g with bypass := (au, flag) :: g.bypass })
      unfold AudioUnitSetProperty_BypassEffect
      rcases hx4 : p3.call
        (.AudioUnitSetProperty_UInt32 au kAudioUnitProperty_BypassEffect .Global 0 flag)
        (fun g => { g with bypass := (au, flag) :: g.bypass }) with ⟨r4, p4⟩
      rw [hx4] at h4
      simp only
      split <;> exact ((h1.frame_trans h2).frame_trans h3).frame_trans h4

theorem SetPreGain_frame (p : AudioPlayer) (preGain : Float32) :
    Frame p (SetPreGain p preGain).2 := by
  unfold SetPreGain
  split
  · exact EnablePreGain_frame p 0
  have h1 := AUGraphNodeInfo_frame p p.mLimiterNode none
  rcases hx1 : AUGraphNodeInfo p p.mLimiterNode none with ⟨r1, au, p1⟩
  rw [hx1] at h1
  simp only
  split
  · exact h1
  have h2 := call_frame p1 (.AUParameterSet au kLimiterParam_PreGain .Global 0 preGain)
    (fun g => { g with
      parameters := (au, kLimiterParam_PreGain, .Global, 0, preGain) :: g.parameters })
  unfold AUParameterSet
  rcases hx2 : p1.call (.AUParameterSet au kLimiterParam_PreGain .Global 0 preGain)
    (fun g => { g with
      parameters := (au, kLimiterParam_PreGain, .Global, 0, preGain) :: g.parameters })
    with ⟨r2, p2⟩
  rw [hx2] at h2
  simp only
  split <;> exact h1.frame_trans h2

theorem SetAUGraphFormat_members (p : AudioPlayer) (format : AudioStreamBasicDescription) :
    SameCounters p (SetAUGraphFormat p format).2 ∧
      (SetAUGraphFormat p format).2.mRingBuffer = p.mRingBuffer ∧
      (SetAUGraphFormat p format).2.d = p.d ∧
      (SetAUGraphFormat p format).2.hal = p.hal := by
  rcases hprep : SetAUGraphFormat.prepare p with ⟨e, q⟩ | ⟨l, q⟩
  · have hP := prepare_error hprep
    rw [SetAUGraphFormat_of_error format hprep]
    exact ⟨hP.frame.counters, hP.frame.ringBuffer, hP.frame.decoder, hP.frame.hal⟩
  · have hP := prepare_ok hprep
    obtain ⟨q1, q2, T2, T3, r, hR⟩ := SetAUGraphFormat_of_ok format hprep
    rw [hR.result]
    have hF := hP.frame.frame_trans hR.frame1
    exact ⟨⟨hR.frame2.framesDecoded.trans hF.framesDecoded,
        hR.frame2.framesRendered.trans hF.framesRendered⟩,
      hR.frame2.ringBuffer.trans hF.ringBuffer, hR.frame2.decoder.trans hF.decoder,
      hR.frame2.hal.trans hF.hal⟩

theorem AUGraphAddNode_frame (p : AudioPlayer) (description : ComponentDescription)
    (o : AUNode) : Frame p (AUGraphAddNode p description o).2.2 := by
  have h := call_frame p (.AUGraphAddNode description) (fun g =>
      { g with nodes := g.nodes ++ [⟨g.nodes.length + 1, 1, 1, []⟩] })
  unfold AUGraphAddNode
  rcases hx : p.call (.AUGraphAddNode description) (fun g =>
      { g with nodes := g.nodes ++ [⟨g.nodes.length + 1, 1, 1, []⟩] }) with ⟨r, q⟩
  rw [hx] at h
  simp only
  split <;> exact h

theorem CreateAUGraph_counters (p : AudioPlayer) (this : Nat) :
    SameCounters p (CreateAUGraph p this).2 := by
  unfold CreateAUGraph
  have h1 : SameCounters p (NewAUGraph p).2 := (call_frame p _ _).counters
  rcases hx1 : NewAUGraph p with ⟨r1, p1⟩
  rw [hx1] at h1
  simp only
  split
  · exact h1
  have h2 := (AUGraphAddNode_frame p1 ⟨1635083896, 1819112562, 1634758764, 0, 0⟩
    p1.mLimiterNode).counters
  rcases hx2 : AUGraphAddNode p1 ⟨1635083896, 1819112562, 1634758764, 0, 0⟩ p1.mLimiterNode
    with ⟨r2, n2, p2⟩
  rw [hx2] at h2
  simp only
  split
  · exact h1.counters_trans h2
  have h3 := (AUGraphAddNode_frame { p2 with mLimiterNode := n2 }
    ⟨1635086197, 1684366880, 1634758764, 0, 0⟩ p2.mOutputNode).counters
  rcases hx3 : AUGraphAddNode { p2 with mLimiterNode := n2 }
    ⟨1635086197, 1684366880, 1634758764, 0, 0⟩ p2.mOutputNode with ⟨r3, n3, p3⟩
  rw [hx3] at h3
  replace h3 : SameCounters p2 p3 := ⟨h3.framesDecoded, h3.framesRendered⟩
  simp only
  split
  · exact (h1.counters_trans h2).counters_trans h3
  have h4 : SameCounters p3 (AUGraphConnectNodeInput { p3 with mOutputNode := n3 }
      p3.mLimiterNode 0 n3 0).2 := by
    have := (call_frame { p3 with mOutputNode := n3 }
      (.AUGraphConnectNodeInput p3.mLimiterNode 0 n3 0)
      (fun g => { g with
        interactions := g.interactions ++ [.connection ⟨p3.mLimiterNode, 0, n3, 0⟩] })).counters
    exact ⟨this.framesDecoded, this.framesRendered⟩
  rcases hx4 : AUGraphConnectNodeInput { p3 with mOutputNode := n3 } p3.mLimiterNode 0 n3 0
    with ⟨r4, p4⟩
  rw [hx4] at h4
  simp only
  split
  · exact ((h1.counters_trans h2).counters_trans h3).counters_trans h4
  have h5 : SameCounters p4 (AUGraphSetNodeInputCallback p4 p4.mLimiterNode 0
      ⟨myAURenderCallback, this⟩).2 := (call_frame p4 _ _).counters
  rcases hx5 : AUGraphSetNodeInputCallback p4 p4.mLimiterNode 0 ⟨myAURenderCallback, this⟩
    with ⟨r5, p5⟩
  rw [hx5] at h5
  simp only
  split
  · exact (((h1.counters_trans h2).counters_trans h3).counters_trans h4).counters_trans h5
  have h6 : SameCounters p5 (AUGraphOpen p5).2 := (call_frame p5 _ _).counters
  rcases hx6 : AUGraphOpen p5 with ⟨r6, p6⟩
  rw [hx6] at h6
  simp only
  split
  · exact ((((h1.counters_trans h2).counters_trans h3).counters_trans h4).counters_trans
      h5).counters_trans h6
  have h7 : SameCounters p6 (AUGraphInitialize p6).2 := (call_frame p6 _ _).counters
  rcases hx7 : AUGraphInitialize p6 with ⟨r7, p7⟩
  rw [hx7] at h7
  simp only
  split <;>
    exact (((((h1.counters_trans h2).counters_trans h3).counters_trans h4).counters_trans
      h5).counters_trans h6).counters_trans h7

/-- C15: the constructor leaves both frame counters at 0; `Play`, `Pause`, `Stop`, `PlayPause`,
`Play(decoder)`, `Enqueue`, `SetVolume`, `SetPreGain`, `EnablePreGain`, `SetAUGraphFormat` (and
`IsPlaying`, `PreGainIsEnabled`) leave both counters as they are; `Render` leaves
`mFramesDecoded` as it is and never decreases `mFramesRendered`. -/
theorem framesRendered_changed_only_by_Render (storage p : AudioPlayer) (this : Nat)
    (ringBuffer : CARingBuffer) (decoder : AudioDecoder) (volume preGain : Float32)
    (flag inNumberFrames : Nat) (ioData : AudioBufferList)
    (format : AudioStreamBasicDescription) :
    ((AudioPlayer.construct storage this ringBuffer).mFramesRendered = 0 ∧
        (AudioPlayer.construct storage this ringBuffer).mFramesDecoded = 0) ∧
      SameCounters p (Play p) ∧ SameCounters p (Pause p) ∧ SameCounters p (Stop p) ∧
      SameCounters p (PlayPause p) ∧ SameCounters p (Play.decoder p decoder).2 ∧
      SameCounters p (Enqueue p decoder).2 ∧ SameCounters p (SetVolume p volume).2 ∧
      SameCounters p (SetPreGain p preGain).2 ∧ SameCounters p (EnablePreGain p flag).2 ∧
      SameCounters p (SetAUGraphFormat p format).2 ∧ SameCounters p (IsPlaying p).2 ∧
      SameCounters p (PreGainIsEnabled p).2 ∧
      (p.mFramesRendered ≤ (Render p inNumberFrames ioData).2.2.mFramesRendered ∧
        (Render p inNumberFrames ioData).2.2.mFramesDecoded = p.mFramesDecoded) := by
  refine ⟨?_, (Play_frame p).counters, (Pause_frame p).counters, (Stop_frame p).counters,
    (PlayPause_frame p).counters, ?_, ⟨rfl, rfl⟩, (SetVolume_frame p volume).counters,
    (SetPreGain_frame p preGain).counters, (EnablePreGain_frame p flag).counters,
    (SetAUGraphFormat_members p format).1, (IsPlaying_frame p).counters,
    (PreGainIsEnabled_frame p).counters, ?_⟩
  · have h := CreateAUGraph_counters
      { storage with mRingBuffer := ringBuffer, mFramesDecoded := 0, mFramesRendered := 0 } this
    exact ⟨h.framesRendered, h.framesDecoded⟩
  · have h := (SetAUGraphFormat_members { p with d := some decoder } decoder.GetFormat).1
    unfold Play.decoder
    exact ⟨h.framesDecoded, h.framesRendered⟩
  · unfold Render
    simp only
    split
    · exact ⟨Nat.le_refl _, rfl⟩
    · exact ⟨Nat.le_add_right _ _, rfl⟩

/-- C15, at concrete inputs: a render of 512 stored frames moves `mFramesRendered` from 256 to
768, and a following `Stop` and `Play(decoder)` leave it there. -/
theorem framesRendered_changed_only_by_Render_witness :
    (Render (renderingPlayer 256) 512 [[0, 0, 0, 0]]).2.2.mFramesRendered = 768 ∧
      (Stop (Render (renderingPlayer 256) 512 [[0, 0, 0, 0]]).2.2).mFramesRendered = 768 ∧
      (Play.decoder (Render (renderingPlayer 256) 512 [[0, 0, 0, 0]]).2.2
        stereo48Decoder).2.mFramesRendered = 768 :=
  ⟨by decide,
    (framesRendered_changed_only_by_Render (renderingPlayer 0)
      (Render (renderingPlayer 256) 512 [[0, 0, 0, 0]]).2.2 0 {} stereo48Decoder ⟨0⟩ ⟨0⟩ 0 0 []
      stereo48).2.2.2.1.framesRendered.trans (by decide),
    (framesRendered_changed_only_by_Render (renderingPlayer 0)
      (Render (renderingPlayer 256) 512 [[0, 0, 0, 0]]).2.2 0 {} stereo48Decoder ⟨0⟩ ⟨0⟩ 0 0 []
      stereo48).2.2.2.2.2.1.framesRendered.trans (by decide)⟩

/-! ## Playback control when the toolbox succeeds -/

theorem call_ok (p : AudioPlayer) (c : AUCall) (eff : AUGraph → AUGraph)
    (h : p.hal p.calls.length = noErr) :
    p.call c eff =
      (noErr, { p with calls := p.calls ++ [(c, noErr)], mAUGraph := eff p.mAUGraph }) := by
  unfold AudioPlayer.call
  rw [h, if_neg (fun e => e rfl)]

theorem IsPlaying_ok (p : AudioPlayer) (h : p.hal p.calls.length = noErr) :
    IsPlaying p =
      (p.mAUGraph.isRunning, { p with calls := p.calls ++ [(.AUGraphIsRunning, noErr)] }) := by
  unfold IsPlaying AUGraphIsRunning
  rw [call_ok p _ _ h]
  simp

theorem Pause_ok (p : AudioPlayer) (hok : ∀ n, p.hal n = noErr) :
    Pause p =
      if p.mAUGraph.isRunning = true then
        { p with
          calls := p.calls ++ [(.AUGraphIsRunning, noErr), (.AUGraphStop, noErr)],
          mAUGraph := { p.mAUGraph with isRunning := false } }
      else { p with calls := p.calls ++ [(.AUGraphIsRunning, noErr)] } := by
  unfold Pause
  rw [IsPlaying_ok p (hok _)]
  cases hr : p.mAUGraph.isRunning with
  | false => simp
  | true =>
    simp only [if_true]
    unfold AUGraphStop
    rw [call_ok ({ p with calls := p.calls ++ [(AUCall.AUGraphIsRunning, noErr)] } : AudioPlayer) _ _ (hok _)]
    simp

theorem Stop_ok (p : AudioPlayer) (hok : ∀ n, p.hal n = noErr) :
    Stop p =
      if p.mAUGraph.isRunning = true then
        { p with
          calls := p.calls ++
            [(.AUGraphIsRunning, noErr), (.AUGraphIsRunning, noErr), (.AUGraphStop, noErr)],
          mAUGraph := { p.mAUGraph with isRunning := false } }
      else { p with calls := p.calls ++ [(.AUGraphIsRunning, noErr)] } := by
  unfold Stop
  rw [IsPlaying_ok p (hok _)]
  cases hr : p.mAUGraph.isRunning with
  | false => simp
  | true =>
    simp only [if_true]
    rw [Pause_ok ({ p with calls := p.calls ++ [(AUCall.AUGraphIsRunning, noErr)] } : AudioPlayer) (fun n => hok n)]
    simp [hr]

/-- C19: `Play(decoder)` makes the decoder the current one, runs `SetAUGraphFormat` with the
decoder's format on the player so bound (graph, active format and log are what that call
leaves), and calls `Allocate` of the ring buffer once, with the channels per frame and the
bytes per frame of the decoder's format and the capacity 16384 = 2^14, whatever the format. -/
theorem Play_decoder_binds_formats_allocates (p : AudioPlayer) (decoder : AudioDecoder) :
    (Play.decoder p decoder).2.d = some decoder ∧
      (Play.decoder p decoder).2.mAUGraph =
        (SetAUGraphFormat { p with d := some decoder } decoder.GetFormat).2.mAUGraph ∧
      (Play.decoder p decoder).2.mAUGraphFormat =
        (SetAUGraphFormat { p with d := some decoder } decoder.GetFormat).2.mAUGraphFormat ∧
      (Play.decoder p decoder).2.calls =
        (SetAUGraphFormat { p with d := some decoder } decoder.GetFormat).2.calls ∧
      (Play.decoder p decoder).2.mRingBuffer.allocateCalls =
        p.mRingBuffer.allocateCalls ++
          [(decoder.GetFormat.mChannelsPerFrame, decoder.GetFormat.mBytesPerFrame, 16384)] ∧
      (Play.decoder p decoder).2.mRingBuffer.mCapacityFrames = 16384 ∧
      RING_BUFFER_SIZE_FRAMES = 2 ^ 14 := by
  have h := SetAUGraphFormat_members { p with d := some decoder } decoder.GetFormat
  unfold Play.decoder
  refine ⟨h.2.2.1, rfl, rfl, rfl, ?_, rfl, by decide⟩
  show ((SetAUGraphFormat { p with d := some decoder } decoder.GetFormat).2.mRingBuffer.Allocate
    _ _ _).allocateCalls = _
  unfold CARingBuffer.Allocate
  simp only
  rw [h.2.1]
  rfl

/-- C19, at a concrete input: the playing player is handed a stereo 48 kHz decoder. -/
theorem Play_decoder_binds_formats_allocates_witness :
    (Play.decoder (renderingPlayer 0) stereo48Decoder).2.d = some stereo48Decoder ∧
      (Play.decoder (renderingPlayer 0) stereo48Decoder).2.mAUGraphFormat = stereo48 ∧
      (Play.decoder (renderingPlayer 0) stereo48Decoder).2.mRingBuffer.allocateCalls =
        [(2, 4, 16384)] :=
  ⟨(Play_decoder_binds_formats_allocates (renderingPlayer 0) stereo48Decoder).1, by decide,
    by decide⟩

/-! ## `SetPropertyOnAUGraphNodes`: the calls it makes -/

theorem issuedUntilFailure_cons (hal : Nat → OSStatus) (n : Nat) (c : AUCall) (cs : List AUCall) :
    issuedUntilFailure hal n (c :: cs) =
      if hal n = noErr then (c, hal n) :: issuedUntilFailure hal (n + 1) cs else [(c, hal n)] :=
  rfl

theorem firstFailure_cons (hal : Nat → OSStatus) (n : Nat) (c : AUCall) (cs : List AUCall) :
    firstFailure hal n (c :: cs) =
      if hal n = noErr then firstFailure hal (n + 1) cs else hal n :=
  rfl

theorem issuedUntilFailure_length (hal : Nat → OSStatus) (cs : List AUCall) :
    ∀ n, firstFailure hal n cs = noErr → (issuedUntilFailure hal n cs).length = cs.length := by
  induction cs with
  | nil => intro n _; rfl
  | cons c cs ih =>
    intro n h
    rw [firstFailure_cons] at h
    rw [issuedUntilFailure_cons]
    by_cases hn : hal n = noErr
    · rw [if_pos hn] at h
      rw [if_pos hn, List.length_cons, List.length_cons, ih (n + 1) h]
    · rw [if_neg hn] at h
      exact absurd h hn

theorem issuedUntilFailure_append (hal : Nat → OSStatus) (a b : List AUCall) :
    ∀ n, firstFailure hal n a = noErr →
      issuedUntilFailure hal n (a ++ b) =
          issuedUntilFailure hal n a ++ issuedUntilFailure hal (n + a.length) b ∧
        firstFailure hal n (a ++ b) = firstFailure hal (n + a.length) b := by
  induction a with
  | nil => intro n _; exact ⟨rfl, rfl⟩
  | cons c cs ih =>
    intro n h
    rw [firstFailure_cons] at h
    by_cases hn : hal n = noErr
    · rw [if_pos hn] at h
      have h2 := ih (n + 1) h
      have e : n + (c :: cs).length = n + 1 + cs.length := by
        rw [List.length_cons]; omega
      rw [e]
      constructor
      · rw [List.cons_append, issuedUntilFailure_cons, issuedUntilFailure_cons, if_pos hn,
          if_pos hn, h2.1]
        rfl
      · rw [List.cons_append, firstFailure_cons, if_pos hn, h2.2]
    · rw [if_neg hn] at h
      exact absurd h hn

theorem issuedUntilFailure_stop (hal : Nat → OSStatus) (a b : List AUCall) :
    ∀ n, firstFailure hal n a ≠ noErr →
      issuedUntilFailure hal n (a ++ b) = issuedUntilFailure hal n a ∧
        firstFailure hal n (a ++ b) = firstFailure hal n a := by
  induction a with
  | nil => intro n h; exact absurd rfl h
  | cons c cs ih =>
    intro n h
    rw [firstFailure_cons] at h
    by_cases hn : hal n = noErr
    · rw [if_pos hn] at h
      have h2 := ih (n + 1) h
      constructor
      · rw [List.cons_append, issuedUntilFailure_cons, issuedUntilFailure_cons, if_pos hn,
          if_pos hn, h2.1]
      · rw [List.cons_append, firstFailure_cons, firstFailure_cons, if_pos hn, if_pos hn, h2.2]
    · constructor
      · rw [List.cons_append, issuedUntilFailure_cons, issuedUntilFailure_cons, if_neg hn,
          if_neg hn]
      · rw [List.cons_append, firstFailure_cons, firstFailure_cons, if_neg hn, if_neg hn]

theorem issuedUntilFailure_ok (hal : Nat → OSStatus) (cs : List AUCall) :
    ∀ n, firstFailure hal n cs = noErr →
      issuedUntilFailure hal n cs = cs.map (fun c => (c, noErr)) := by
  induction cs with
  | nil => intro n _; rfl
  | cons c cs ih =>
    intro n h
    rw [firstFailure_cons] at h
    rw [issuedUntilFailure_cons]
    by_cases hn : hal n = noErr
    · rw [if_pos hn] at h
      rw [if_pos hn, ih (n + 1) h, hn]
      rfl
    · rw [if_neg hn] at h
      exact absurd h hn

theorem issuedUntilFailure_failed (hal : Nat → OSStatus) (cs : List AUCall) :
    ∀ n, firstFailure hal n cs ≠ noErr →
      ∃ done c rest, cs = done ++ c :: rest ∧
        issuedUntilFailure hal n cs =
          done.map (fun c => (c, noErr)) ++ [(c, firstFailure hal n cs)] := by
  induction cs with
  | nil => intro n h; exact absurd rfl h
  | cons c cs ih =>
    intro n h
    rw [firstFailure_cons] at h
    by_cases hn : hal n = noErr
    · rw [if_pos hn] at h
      obtain ⟨done, c1, rest, hcs, hT⟩ := ih (n + 1) h
      refine ⟨c :: done, c1, rest, by rw [hcs]; rfl, ?_⟩
      rw [issuedUntilFailure_cons, firstFailure_cons, if_pos hn, if_pos hn, hT, hn]
      rfl
    · refine ⟨[], c, cs, rfl, ?_⟩
      rw [issuedUntilFailure_cons, firstFailure_cons, if_neg hn, if_neg hn]
      rfl

theorem AUGraph.after_append (g : AUGraph) (T1 T2 : List (AUCall × OSStatus)) :
    g.after (T1 ++ T2) = (g.after T1).after T2 := by
  unfold AUGraph.after
  rw [List.foldl_append]

theorem AUGraphNode.setProperty_unit (n : AUGraphNode) (au : AudioUnit) (pid : Nat)
    (s : AudioUnitScope) (e : Nat) (d : AudioStreamBasicDescription) :
    ((n.setProperty au pid s e d).node, (n.setProperty au pid s e d).inputElementCount,
        (n.setProperty au pid s e d).outputElementCount) =
      (n.node, n.inputElementCount, n.outputElementCount) := by
  unfold AUGraphNode.setProperty
  split <;> rfl

theorem AUCall.propertyEffect_units (c : AUCall) (g : AUGraph) :
    (c.propertyEffect g).units = g.units := by
  cases c <;> try rfl
  unfold AUCall.propertyEffect AUGraph.units
  simp only [List.map_map]
  apply List.map_congr_left
  intro n _
  exact AUGraphNode.setProperty_unit n _ _ _ _ _

theorem AUGraph.after_units (T : List (AUCall × OSStatus)) :
    ∀ g : AUGraph, (g.after T).units = g.units := by
  induction T with
  | nil => intro g; rfl
  | cons x T ih =>
    intro g
    show (AUGraph.after (if x.2 = noErr then x.1.propertyEffect g else g) T).units = _
    rw [ih]
    split
    · exact AUCall.propertyEffect_units _ g
    · rfl

theorem Ran.same_units {p q : AudioPlayer} {r : OSStatus} {cs : List AUCall} (h : Ran p q r cs) :
    q.mAUGraph.units = p.mAUGraph.units := by
  rw [h.graph]
  exact AUGraph.after_units _ _

theorem Ran.ran_nil (p : AudioPlayer) : Ran p p noErr [] :=
  ⟨Frame.frame_refl p, (List.append_nil _).symm, rfl, rfl⟩

theorem Ran.of_call_step {p q : AudioPlayer} {c : AUCall} {r : OSStatus} {eff : AUGraph → AUGraph}
    (h : CallStep p q c r eff) (he : eff p.mAUGraph = c.propertyEffect p.mAUGraph) :
    Ran p q r [c] := by
  have e1 : issuedUntilFailure p.hal p.calls.length [c] = [(c, r)] := by
    rw [issuedUntilFailure_cons, h.status]
    split <;> rfl
  have e2 : firstFailure p.hal p.calls.length [c] = r := by
    rw [firstFailure_cons, h.status]
    split
    · rename_i hn
      exact hn.symm
    · rfl
  refine ⟨h.frame, by rw [h.calls, e1], e2.symm, ?_⟩
  rw [e1, h.graph, he]
  rfl

theorem Ran.seq {p q s : AudioPlayer} {r : OSStatus} {a b : List AUCall}
    (h1 : Ran p q noErr a) (h2 : Ran q s r b) : Ran p s r (a ++ b) := by
  have hf : firstFailure p.hal p.calls.length a = noErr := h1.status.symm
  have ha := issuedUntilFailure_append p.hal a b _ hf
  have hlen : q.calls.length = p.calls.length + a.length := by
    rw [h1.calls, List.length_append, issuedUntilFailure_length p.hal a _ hf]
  have h2c := h2.calls
  have h2s := h2.status
  have h2g := h2.graph
  rw [h1.frame.hal, hlen] at h2c h2s h2g
  refine ⟨h1.frame.frame_trans h2.frame, ?_, ?_, ?_⟩
  · rw [h2c, h1.calls, ha.1, List.append_assoc]
  · rw [h2s, ha.2]
  · rw [h2g, h1.graph, ha.1, AUGraph.after_append]

theorem Ran.stopped {p q : AudioPlayer} {r : OSStatus} {a : List AUCall} (h1 : Ran p q r a)
    (hr : r ≠ noErr) (b : List AUCall) : Ran p q r (a ++ b) := by
  have hf : firstFailure p.hal p.calls.length a ≠ noErr := by
    rw [← h1.status]
    exact hr
  have ha := issuedUntilFailure_stop p.hal a b _ hf
  refine ⟨h1.frame, ?_, ?_, ?_⟩
  · rw [ha.1, h1.calls]
  · rw [ha.2, ← h1.status]
  · rw [ha.1, h1.graph]

theorem AUGraphGetNodeCount_spec (p : AudioPlayer) (o : Nat) :
    ∃ r q, AUGraphGetNodeCount p o = (r, (if r = noErr then p.mAUGraph.nodes.length else o), q) ∧
      CallStep p q .AUGraphGetNodeCount r id := by
  have h := call_step p .AUGraphGetNodeCount id
  unfold AUGraphGetNodeCount
  rcases hx : p.call .AUGraphGetNodeCount id with ⟨r, q⟩
  rw [hx] at h
  replace h : CallStep p q .AUGraphGetNodeCount r id := h
  refine ⟨r, q, ?_, h⟩
  by_cases hr : r = noErr
  · have h2 : ¬ (noErr ≠ r) := fun e => e hr.symm
    have hg : q.mAUGraph = p.mAUGraph := h.graph_ok hr
    simp only [if_neg h2, if_pos hr, hg]
  · have h2 : noErr ≠ r := fun e => hr e.symm
    simp only [if_pos h2, if_neg hr]

theorem AUGraphGetIndNode_spec (p : AudioPlayer) (i : Nat) (o : AUNode) :
    ∃ r q, AUGraphGetIndNode p i o =
        (r, (if r = noErr then ((p.mAUGraph.nodes[i]?).map (fun n => n.node)).getD o else o), q) ∧
      CallStep p q (.AUGraphGetIndNode i) r id := by
  have h := call_step p (.AUGraphGetIndNode i) id
  unfold AUGraphGetIndNode
  rcases hx : p.call (.AUGraphGetIndNode i) id with ⟨r, q⟩
  rw [hx] at h
  replace h : CallStep p q (.AUGraphGetIndNode i) r id := h
  refine ⟨r, q, ?_, h⟩
  by_cases hr : r = noErr
  · have h2 : ¬ (noErr ≠ r) := fun e => e hr.symm
    have hg : q.mAUGraph = p.mAUGraph := h.graph_ok hr
    simp only [if_neg h2, if_pos hr, hg]
  · have h2 : noErr ≠ r := fun e => hr e.symm
    simp only [if_pos h2, if_neg hr]

theorem AUGraphNodeInfo_spec (p : AudioPlayer) (node : AUNode) (o : AudioUnit) :
    ∃ r q, AUGraphNodeInfo p node o = (r, (if r = noErr then some node else o), q) ∧
      CallStep p q (.AUGraphNodeInfo node) r id := by
  have h := call_step p (.AUGraphNodeInfo node) id
  unfold AUGraphNodeInfo
  rcases hx : p.call (.AUGraphNodeInfo node) id with ⟨r, q⟩
  rw [hx] at h
  replace h : CallStep p q (.AUGraphNodeInfo node) r id := h
  refine ⟨r, q, ?_, h⟩
  by_cases hr : r = noErr
  · have h2 : ¬ (noErr ≠ r) := fun e => e hr.symm
    simp only [if_neg h2, if_pos hr]
  · have h2 : noErr ≠ r := fun e => hr e.symm
    simp only [if_pos h2, if_neg hr]

theorem AudioUnitGetProperty_ElementCount_spec (p : AudioPlayer) (au : AudioUnit)
    (s : AudioUnitScope) (o : Nat) :
    ∃ r q, AudioUnitGetProperty_ElementCount p au s o =
        (r, (if r = noErr then p.mAUGraph.elementCount au s else o), q) ∧
      CallStep p q (.AudioUnitGetProperty au kAudioUnitProperty_ElementCount s 0) r id := by
  have h := call_step p (.AudioUnitGetProperty au kAudioUnitProperty_ElementCount s 0) id
  unfold AudioUnitGetProperty_ElementCount
  rcases hx : p.call (.AudioUnitGetProperty au kAudioUnitProperty_ElementCount s 0) id
    with ⟨r, q⟩
  rw [hx] at h
  replace h : CallStep p q (.AudioUnitGetProperty au kAudioUnitProperty_ElementCount s 0) r id :=
    h
  refine ⟨r, q, ?_, h⟩
  by_cases hr : r = noErr
  · have h2 : ¬ (noErr ≠ r) := fun e => e hr.symm
    have hg : q.mAUGraph = p.mAUGraph := h.graph_ok hr
    simp only [if_neg h2, if_pos hr, hg]
  · have h2 : noErr ≠ r := fun e => hr e.symm
    simp only [if_pos h2, if_neg hr]

theorem AudioUnitSetProperty_ran (p : AudioPlayer) (au : AudioUnit) (pid : Nat)
    (s : AudioUnitScope) (e : Nat) (d : AudioStreamBasicDescription) :
    Ran p (AudioUnitSetProperty p au pid s e d).2 (AudioUnitSetProperty p au pid s e d).1
      [.AudioUnitSetProperty au pid s e d] :=
  Ran.of_call_step (call_step p _ _) rfl

theorem elements_ran (au : AudioUnit) (pid : Nat) (s : AudioUnitScope)
    (d : AudioStreamBasicDescription) (n : Nat) :
    ∀ (j : Nat) (p : AudioPlayer),
      Ran p (SetPropertyOnAUGraphNodes.elements au pid s d n j p).2
        (SetPropertyOnAUGraphNodes.elements au pid s d n j p).1
        ((List.range' j n).map (fun j => AUCall.AudioUnitSetProperty au pid s j d)) := by
  induction n with
  | zero => intro j p; exact Ran.ran_nil p
  | succ n ih =>
    intro j p
    unfold SetPropertyOnAUGraphNodes.elements
    have h := AudioUnitSetProperty_ran p au pid s j d
    rcases hx : AudioUnitSetProperty p au pid s j d with ⟨r, q⟩
    rw [hx] at h
    replace h : Ran p q r [.AudioUnitSetProperty au pid s j d] := h
    rw [List.range'_succ, List.map_cons]
    simp only
    split
    · rename_i hr
      exact h.stopped (fun e => hr e.symm) _
    · rename_i hr
      have hr2 : r = noErr := by
        by_contra hc
        exact hr (fun e => hc e.symm)
      subst hr2
      exact h.seq (ih (j + 1) q)

theorem AUGraph.elementCount_units (g : AUGraph) (au : AudioUnit) (s : AudioUnitScope) :
    g.elementCount au s =
      match g.units.find? (fun u => some u.1 = au) with
      | none => 0
      | some u =>
        match s with
        | .Input => u.2.1
        | .Output => u.2.2
        | .Global => 1 := by
  unfold AUGraph.elementCount AUGraph.units
  induction g.nodes with
  | nil => rfl
  | cons n ns ih =>
    simp only [List.map_cons, List.find?_cons]
    by_cases h : some n.node = au
    · simp [h]
    · simp [h, ih]

theorem AUGraph.elementCount_congr {g g2 : AUGraph} (h : g2.units = g.units) (au : AudioUnit)
    (s : AudioUnitScope) : g2.elementCount au s = g.elementCount au s := by
  rw [AUGraph.elementCount_units, AUGraph.elementCount_units, h]

theorem AUGraph.node_units (g : AUGraph) (i : Nat) :
    (g.nodes[i]?).map (fun n => n.node) = (g.units[i]?).map (fun u => u.1) := by
  unfold AUGraph.units
  rw [List.getElem?_map]
  cases g.nodes[i]? <;> rfl

theorem AUGraph.length_units (g : AUGraph) : g.units.length = g.nodes.length := by
  unfold AUGraph.units
  rw [List.length_map]

theorem nodeCalls_congr {g g2 : AUGraph} (h : g2.units = g.units) (outputNode : AUNode)
    (pid : Nat) (d : AudioStreamBasicDescription) (i : Nat) :
    SetPropertyOnAUGraphNodes.nodeCalls g2 outputNode pid d i =
      SetPropertyOnAUGraphNodes.nodeCalls g outputNode pid d i := by
  unfold SetPropertyOnAUGraphNodes.nodeCalls
  simp only [AUGraph.node_units, h, AUGraph.elementCount_congr h]

theorem node_ran (pid : Nat) (d : AudioStreamBasicDescription) (i : Nat) (p : AudioPlayer) :
    Ran p (SetPropertyOnAUGraphNodes.node pid d i p).2 (SetPropertyOnAUGraphNodes.node pid d i p).1
      (SetPropertyOnAUGraphNodes.nodeCalls p.mAUGraph p.mOutputNode pid d i) := by
  unfold SetPropertyOnAUGraphNodes.node SetPropertyOnAUGraphNodes.nodeCalls
  obtain ⟨r1, p1, e1, s1⟩ := AUGraphGetIndNode_spec p i 0
  have R1 : Ran p p1 r1 [.AUGraphGetIndNode i] := Ran.of_call_step s1 rfl
  rw [e1]
  simp only
  by_cases hr1 : r1 = noErr
  swap
  · rw [if_pos (fun e => hr1 e.symm)]
    exact R1.stopped hr1 _
  subst hr1
  rw [if_neg (fun e => e rfl), if_pos rfl]
  generalize ((p.mAUGraph.nodes[i]?).map (fun n => n.node)).getD 0 = node
  obtain ⟨r2, p2, e2, s2⟩ := AUGraphNodeInfo_spec p1 node none
  have R2 : Ran p p2 r2 ([.AUGraphGetIndNode i] ++ [.AUGraphNodeInfo node]) :=
    R1.seq (Ran.of_call_step s2 rfl)
  rw [e2]
  simp only
  by_cases hr2 : r2 = noErr
  swap
  · rw [if_pos (fun e => hr2 e.symm)]
    exact R2.stopped hr2 _
  subst hr2
  rw [if_neg (fun e => e rfl), if_pos rfl]
  have ho : p2.mOutputNode = p.mOutputNode := R2.frame.outputNode
  rw [ho]
  by_cases hout : p.mOutputNode = node
  · rw [if_pos hout, if_pos hout]
    exact R2.seq (AudioUnitSetProperty_ran p2 (some node) pid .Input 0 d)
  rw [if_neg hout, if_neg hout]
  obtain ⟨r3, p3, e3, s3⟩ := AudioUnitGetProperty_ElementCount_spec p2 (some node) .Input 0
  have R3 := R2.seq (Ran.of_call_step s3 rfl)
  rw [e3]
  simp only
  by_cases hr3 : r3 = noErr
  swap
  · rw [if_pos (fun e => hr3 e.symm)]
    have h := R3.stopped hr3
      ((List.range (p.mAUGraph.elementCount (some node) .Input)).map
          (fun j => AUCall.AudioUnitSetProperty (some node) pid .Input j d) ++
        [AUCall.AudioUnitGetProperty (some node) kAudioUnitProperty_ElementCount .Output 0] ++
        (List.range (p.mAUGraph.elementCount (some node) .Output)).map
          (fun j => AUCall.AudioUnitSetProperty (some node) pid .Output j d))
    simpa only [List.append_assoc] using h
  subst hr3
  rw [if_neg (fun e => e rfl), if_pos rfl, AUGraph.elementCount_congr R2.same_units]
  have R4 := R3.seq (elements_ran (some node) pid .Input d
    (p.mAUGraph.elementCount (some node) .Input) 0 p3)
  rcases hx4 : SetPropertyOnAUGraphNodes.elements (some node) pid .Input d
    (p.mAUGraph.elementCount (some node) .Input) 0 p3 with ⟨r4, p4⟩
  rw [hx4] at R4
  simp only at R4 ⊢
  rw [← List.range_eq_range'] at R4
  by_cases hr4 : r4 = noErr
  swap
  · rw [if_pos (fun e => hr4 e.symm)]
    have h := R4.stopped hr4
      ([AUCall.AudioUnitGetProperty (some node) kAudioUnitProperty_ElementCount .Output 0] ++
        (List.range (p.mAUGraph.elementCount (some node) .Output)).map
          (fun j => AUCall.AudioUnitSetProperty (some node) pid .Output j d))
    simpa only [List.append_assoc] using h
  subst hr4
  rw [if_neg (fun e => e rfl)]
  obtain ⟨r5, p5, e5, s5⟩ := AudioUnitGetProperty_ElementCount_spec p4 (some node) .Output 0
  have R5 := R4.seq (Ran.of_call_step s5 rfl)
  rw [e5]
  simp only
  by_cases hr5 : r5 = noErr
  swap
  · rw [if_pos (fun e => hr5 e.symm)]
    have h := R5.stopped hr5
      ((List.range (p.mAUGraph.elementCount (some node) .Output)).map
          (fun j => AUCall.AudioUnitSetProperty (some node) pid .Output j d))
    simpa only [List.append_assoc] using h
  subst hr5
  rw [if_neg (fun e => e rfl), if_pos rfl, AUGraph.elementCount_congr R4.same_units]
  have R6 := R5.seq (elements_ran (some node) pid .Output d
    (p.mAUGraph.elementCount (some node) .Output) 0 p5)
  rw [← List.range_eq_range'] at R6
  simpa only [List.append_assoc] using R6

theorem loop_ran (pid : Nat) (d : AudioStreamBasicDescription) (n : Nat) :
    ∀ (i : Nat) (p : AudioPlayer),
      Ran p (SetPropertyOnAUGraphNodes.loop pid d n i p).2
        (SetPropertyOnAUGraphNodes.loop pid d n i p).1
        ((List.range' i n).map
          (SetPropertyOnAUGraphNodes.nodeCalls p.mAUGraph p.mOutputNode pid d)).flatten := by
  induction n with
  | zero => intro i p; exact Ran.ran_nil p
  | succ n ih =>
    intro i p
    unfold SetPropertyOnAUGraphNodes.loop
    have h := node_ran pid d i p
    rcases hx : SetPropertyOnAUGraphNodes.node pid d i p with ⟨r, q⟩
    rw [hx] at h
    replace h : Ran p q r (SetPropertyOnAUGraphNodes.nodeCalls p.mAUGraph p.mOutputNode pid d i) :=
      h
    rw [List.range'_succ, List.map_cons, List.flatten_cons]
    simp only
    split
    · rename_i hr
      exact h.stopped (fun e => hr e.symm) _
    · rename_i hr
      have hr2 : r = noErr := by
        by_contra hc
        exact hr (fun e => hc e.symm)
      subst hr2
      have h2 := ih (i + 1) q
      have hf : SetPropertyOnAUGraphNodes.nodeCalls q.mAUGraph q.mOutputNode pid d =
          SetPropertyOnAUGraphNodes.nodeCalls p.mAUGraph p.mOutputNode pid d := by
        funext k
        rw [h.frame.outputNode]
        exact nodeCalls_congr h.same_units _ _ _ _
      rw [hf] at h2
      exact h.seq h2

theorem SetPropertyOnAUGraphNodes_ran (p : AudioPlayer) (pid : Nat)
    (d : AudioStreamBasicDescription) :
    Ran p (SetPropertyOnAUGraphNodes p pid d).2 (SetPropertyOnAUGraphNodes p pid d).1
      (SetPropertyOnAUGraphNodes.specifiedCalls p.mAUGraph p.mOutputNode pid d) := by
  unfold SetPropertyOnAUGraphNodes SetPropertyOnAUGraphNodes.specifiedCalls
  obtain ⟨r1, p1, e1, s1⟩ := AUGraphGetNodeCount_spec p 0
  have R1 : Ran p p1 r1 [.AUGraphGetNodeCount] := Ran.of_call_step s1 rfl
  rw [e1]
  simp only
  by_cases hr1 : r1 = noErr
  swap
  · rw [if_pos (fun e => hr1 e.symm)]
    exact R1.stopped hr1 _
  subst hr1
  rw [if_neg (fun e => e rfl), if_pos rfl]
  have h2 := loop_ran pid d p.mAUGraph.nodes.length 0 p1
  have hf : SetPropertyOnAUGraphNodes.nodeCalls p1.mAUGraph p1.mOutputNode pid d =
      SetPropertyOnAUGraphNodes.nodeCalls p.mAUGraph p.mOutputNode pid d := by
    funext k
    rw [R1.frame.outputNode]
    exact nodeCalls_congr R1.same_units _ _ _ _
  rw [hf, ← List.range_eq_range'] at h2
  exact R1.seq h2

/-- C21: `SetPropertyOnAUGraphNodes` issues the calls of `specifiedCalls` (the node count, then
for each node in index order its handle and unit and, on the output node, one
`AudioUnitSetProperty` on element 0 of the input scope, on any other node one on each input
element `0..k-1` and then on each output element `0..m-1`) up to the first call that fails; it
returns the status of that call, `noErr` when none fails; no call follows the failed one; the
graph has the effects of the calls that succeeded and no other; and `noErr` is returned exactly
when every call issued returned `noErr`. -/
theorem SetPropertyOnAUGraphNodes_visits_nodes_in_order (p : AudioPlayer) (propertyID : Nat)
    (propertyData : AudioStreamBasicDescription) :
    p.newCalls (SetPropertyOnAUGraphNodes p propertyID propertyData).2 =
        issuedUntilFailure p.hal p.calls.length
          (SetPropertyOnAUGraphNodes.specifiedCalls p.mAUGraph p.mOutputNode propertyID
            propertyData) ∧
      (SetPropertyOnAUGraphNodes p propertyID propertyData).1 =
        firstFailure p.hal p.calls.length
          (SetPropertyOnAUGraphNodes.specifiedCalls p.mAUGraph p.mOutputNode propertyID
            propertyData) ∧
      (SetPropertyOnAUGraphNodes p propertyID propertyData).2.mAUGraph =
        p.mAUGraph.after (p.newCalls (SetPropertyOnAUGraphNodes p propertyID propertyData).2) ∧
      (((SetPropertyOnAUGraphNodes p propertyID propertyData).1 = noErr ∧
          p.newCalls (SetPropertyOnAUGraphNodes p propertyID propertyData).2 =
            (SetPropertyOnAUGraphNodes.specifiedCalls p.mAUGraph p.mOutputNode propertyID
              propertyData).map (fun c => (c, noErr))) ∨
        ((SetPropertyOnAUGraphNodes p propertyID propertyData).1 ≠ noErr ∧
          ∃ done c rest,
            SetPropertyOnAUGraphNodes.specifiedCalls p.mAUGraph p.mOutputNode propertyID
                propertyData = done ++ c :: rest ∧
              p.newCalls (SetPropertyOnAUGraphNodes p propertyID propertyData).2 =
                done.map (fun c => (c, noErr)) ++
                  [(c, (SetPropertyOnAUGraphNodes p propertyID propertyData).1)])) ∧
      ((SetPropertyOnAUGraphNodes p propertyID propertyData).1 = noErr ↔
        AllOk (p.newCalls (SetPropertyOnAUGraphNodes p propertyID propertyData).2)) := by
  have R := SetPropertyOnAUGraphNodes_ran p propertyID propertyData
  have hc := newCalls_eq R.calls
  have hs := R.status
  have hcase : ((SetPropertyOnAUGraphNodes p propertyID propertyData).1 = noErr ∧
        p.newCalls (SetPropertyOnAUGraphNodes p propertyID propertyData).2 =
          (SetPropertyOnAUGraphNodes.specifiedCalls p.mAUGraph p.mOutputNode propertyID
            propertyData).map (fun c => (c, noErr))) ∨
      ((SetPropertyOnAUGraphNodes p propertyID propertyData).1 ≠ noErr ∧
        ∃ done c rest,
          SetPropertyOnAUGraphNodes.specifiedCalls p.mAUGraph p.mOutputNode propertyID
              propertyData = done ++ c :: rest ∧
            p.newCalls (SetPropertyOnAUGraphNodes p propertyID propertyData).2 =
              done.map (fun c => (c, noErr)) ++
                [(c, (SetPropertyOnAUGraphNodes p propertyID propertyData).1)]) := by
    by_cases hr : (SetPropertyOnAUGraphNodes p propertyID propertyData).1 = noErr
    · refine Or.inl ⟨hr, ?_⟩
      rw [hc]
      exact issuedUntilFailure_ok _ _ _ (hs.symm.trans hr)
    · refine Or.inr ⟨hr, ?_⟩
      have hf : firstFailure p.hal p.calls.length
          (SetPropertyOnAUGraphNodes.specifiedCalls p.mAUGraph p.mOutputNode propertyID
            propertyData) ≠ noErr := by
        rw [← hs]
        exact hr
      obtain ⟨done, c, rest, h1, h2⟩ := issuedUntilFailure_failed _ _ _ hf
      exact ⟨done, c, rest, h1, by rw [hc, h2, ← hs]⟩
  refine ⟨hc, hs, by rw [hc]; exact R.graph, hcase, ?_⟩
  constructor
  · intro hr
    rcases hcase with ⟨_, h⟩ | ⟨hne, _⟩
    · rw [h]
      intro x hx
      obtain ⟨c, _, rfl⟩ := List.mem_map.1 hx
      rfl
    · exact absurd hr hne
  · intro hall
    by_contra hne
    rcases hcase with ⟨h, _⟩ | ⟨_, done, c, rest, _, h⟩
    · exact hne h
    · exact hne (hall (c, _) (by rw [h]; simp))

/-- C21, at a concrete input: on the playing graph (limiter node 1, output node 2, one element
in each scope) the calls are the ten listed, the output unit being set on input element 0 only;
when the toolbox fails the seventh call, setting the limiter's output element, that status is
returned, the log ends with that call, and the output node is never reached. -/
theorem SetPropertyOnAUGraphNodes_visits_nodes_in_order_witness :
    SetPropertyOnAUGraphNodes.specifiedCalls playingGraph 2 kAudioUnitProperty_StreamFormat
        stereo48 =
      [.AUGraphGetNodeCount,
        .AUGraphGetIndNode 0, .AUGraphNodeInfo 1,
        .AudioUnitGetProperty (some 1) kAudioUnitProperty_ElementCount .Input 0,
        .AudioUnitSetProperty (some 1) kAudioUnitProperty_StreamFormat .Input 0 stereo48,
        .AudioUnitGetProperty (some 1) kAudioUnitProperty_ElementCount .Output 0,
        .AudioUnitSetProperty (some 1) kAudioUnitProperty_StreamFormat .Output 0 stereo48,
        .AUGraphGetIndNode 1, .AUGraphNodeInfo 2,
        .AudioUnitSetProperty (some 2) kAudioUnitProperty_StreamFormat .Input 0 stereo48] ∧
      (SetPropertyOnAUGraphNodes (playingPlayer (failingAt 6 kAudioUnitErr_FormatNotSupported))
        kAudioUnitProperty_StreamFormat stereo48).1 = kAudioUnitErr_FormatNotSupported ∧
      (playingPlayer (failingAt 6 kAudioUnitErr_FormatNotSupported)).newCalls
          (SetPropertyOnAUGraphNodes
            (playingPlayer (failingAt 6 kAudioUnitErr_FormatNotSupported))
            kAudioUnitProperty_StreamFormat stereo48).2 =
        [(.AUGraphGetNodeCount, noErr),
          (.AUGraphGetIndNode 0, noErr), (.AUGraphNodeInfo 1, noErr),
          (.AudioUnitGetProperty (some 1) kAudioUnitProperty_ElementCount .Input 0, noErr),
          (.AudioUnitSetProperty (some 1) kAudioUnitProperty_StreamFormat .Input 0 stereo48,
            noErr),
          (.AudioUnitGetProperty (some 1) kAudioUnitProperty_ElementCount .Output 0, noErr),
          (.AudioUnitSetProperty (some 1) kAudioUnitProperty_StreamFormat .Output 0 stereo48,
            kAudioUnitErr_FormatNotSupported)] :=
  ⟨by decide,
    (SetPropertyOnAUGraphNodes_visits_nodes_in_order
      (playingPlayer (failingAt 6 kAudioUnitErr_FormatNotSupported))
      kAudioUnitProperty_StreamFormat stereo48).2.1.trans (by decide),
    (SetPropertyOnAUGraphNodes_visits_nodes_in_order
      (playingPlayer (failingAt 6 kAudioUnitErr_FormatNotSupported))
      kAudioUnitProperty_StreamFormat stereo48).1.trans (by decide)⟩

/-! ## The render callback after a failed fetch; `SetVolume`; `Play(decoder)` -/

/-- C22: when `Fetch` reports an error, `Render` leaves `mFramesRendered` (and `mFramesDecoded`)
as it was, so that the next `Render`, whatever it asks for, calls `Fetch` from the same start
position again. -/
theorem Render_failure_keeps_framesRendered (p : AudioPlayer) (inNumberFrames : Nat)
    (ioData : AudioBufferList)
    (h : (p.mRingBuffer.Fetch ioData inNumberFrames p.mFramesRendered false).1 ≠
      kCARingBufferError_OK) :
    (Render p inNumberFrames ioData).2.2.mFramesRendered = p.mFramesRendered ∧
      (Render p inNumberFrames ioData).2.2.mFramesDecoded = p.mFramesDecoded ∧
      ∀ (nextFrames : Nat) (nextData : AudioBufferList),
        (Render (Render p inNumberFrames ioData).2.2 nextFrames nextData).2.2.mRingBuffer.fetchCalls
          = p.mRingBuffer.fetchCalls ++
            [(inNumberFrames, p.mFramesRendered, false), (nextFrames, p.mFramesRendered, false)] := by
  have e : Render p inNumberFrames ioData =
      (ioErr, (p.mRingBuffer.Fetch ioData inNumberFrames p.mFramesRendered false).2.1,
        { p with
          mRingBuffer := (p.mRingBuffer.Fetch ioData inNumberFrames p.mFramesRendered false).2.2 })
      := by
    unfold Render
    simp only
    rw [if_pos (fun e => h e.symm)]
  rw [e]
  refine ⟨rfl, rfl, ?_⟩
  intro nextFrames nextData
  unfold Render
  simp only
  split <;> simp [CARingBuffer.Fetch]

/-- C22, at a concrete input: 512 frames are asked for from position 600, beyond what is stored;
the counter stays at 600 and a second call fetches from 600 again. -/
theorem Render_failure_keeps_framesRendered_witness :
    (Render (renderingPlayer 600) 512 [[1, 2, 3, 4]]).2.2.mFramesRendered = 600 ∧
      (Render (Render (renderingPlayer 600) 512 [[1, 2, 3, 4]]).2.2 256
        [[1, 2, 3, 4]]).2.2.mRingBuffer.fetchCalls = [(512, 600, false), (256, 600, false)] :=
  ⟨(Render_failure_keeps_framesRendered (renderingPlayer 600) 512 [[1, 2, 3, 4]] (by decide)).1,
    (Render_failure_keeps_framesRendered (renderingPlayer 600) 512 [[1, 2, 3, 4]]
      (by decide)).2.2 256 [[1, 2, 3, 4]]⟩

/-- C24 (the code diverges): the toolbox fails the look-up of the output unit with the status
-10860; `SetVolume(0.5)` returns true, the `return -1` of line 222 converted to `bool`, although
the only call issued is the failed `AUGraphNodeInfo` and no volume parameter has been set.  When
the look-up succeeds and `AudioUnitSetParameter` fails, it returns false. -/
theorem SetVolume_returns_true_on_lookup_failure :
    (SetVolume (playingPlayer (failingAt 0 (-10860))) ⟨1056964608⟩).1 = true ∧
      (playingPlayer (failingAt 0 (-10860))).newCalls
          (SetVolume (playingPlayer (failingAt 0 (-10860))) ⟨1056964608⟩).2 =
        [(.AUGraphNodeInfo 2, -10860)] ∧
      (SetVolume (playingPlayer (failingAt 0 (-10860))) ⟨1056964608⟩).2.mAUGraph.parameters =
        [] ∧
      (SetVolume (playingPlayer (failingAt 1 (-10867))) ⟨1056964608⟩).1 = false ∧
      (SetVolume (playingPlayer (fun _ => noErr)) ⟨1056964608⟩).1 = true ∧
      (SetVolume (playingPlayer (fun _ => noErr)) ⟨1056964608⟩).2.mAUGraph.parameters =
        [(some 2, kHALOutputParam_Volume, .Global, 0, ⟨1056964608⟩)] :=
  ⟨by decide, by decide, by decide, by decide, by decide, by decide⟩

/-- C25: `Play(decoder)` returns true and calls `Allocate` of the ring buffer with the geometry
of the decoder's format and the fixed capacity, whatever status `SetAUGraphFormat` returned: the
status does not enter the result. -/
theorem Play_decoder_ignores_format_status (p : AudioPlayer) (decoder : AudioDecoder) :
    (Play.decoder p decoder).1 = true ∧
      (Play.decoder p decoder).2.mRingBuffer =
        p.mRingBuffer.Allocate decoder.GetFormat.mChannelsPerFrame
          decoder.GetFormat.mBytesPerFrame RING_BUFFER_SIZE_FRAMES ∧
      (Play.decoder p decoder).2.mRingBuffer.allocateCalls =
        p.mRingBuffer.allocateCalls ++
          [(decoder.GetFormat.mChannelsPerFrame, decoder.GetFormat.mBytesPerFrame,
            RING_BUFFER_SIZE_FRAMES)] := by
  have h := SetAUGraphFormat_members { p with d := some decoder } decoder.GetFormat
  have e : (Play.decoder p decoder).2.mRingBuffer =
      p.mRingBuffer.Allocate decoder.GetFormat.mChannelsPerFrame
        decoder.GetFormat.mBytesPerFrame RING_BUFFER_SIZE_FRAMES := by
    unfold Play.decoder
    show (SetAUGraphFormat { p with d := some decoder } decoder.GetFormat).2.mRingBuffer.Allocate
      _ _ _ = _
    rw [h.2.1]
  refine ⟨rfl, e, ?_⟩
  rw [e]
  rfl

/-- C25, at a concrete input: the toolbox fails the first call of `SetAUGraphFormat` with the
status -10863, so that `SetAUGraphFormat` returns a failure status; `Play(decoder)` returns true
and has called `Allocate` once. -/
theorem Play_decoder_ignores_format_status_witness :
    (SetAUGraphFormat { playingPlayer (failingAt 0 (-10863)) with d := some stereo48Decoder }
        stereo48Decoder.GetFormat).1 ≠ noErr ∧
      (Play.decoder (playingPlayer (failingAt 0 (-10863))) stereo48Decoder).1 = true ∧
      (Play.decoder (playingPlayer (failingAt 0 (-10863)))
        stereo48Decoder).2.mRingBuffer.allocateCalls = [(2, 4, 16384)] :=
  ⟨by decide,
    (Play_decoder_ignores_format_status (playingPlayer (failingAt 0 (-10863)))
      stereo48Decoder).1,
    (Play_decoder_ignores_format_status (playingPlayer (failingAt 0 (-10863)))
      stereo48Decoder).2.2⟩

/-! ## Channel layouts: the comparison as a relation -/

theorem channelLayoutsAreEqual_true (layoutA layoutB : AudioChannelLayout) :
    channelLayoutsAreEqual layoutA layoutB = true ↔
      layoutA.mChannelLayoutTag = layoutB.mChannelLayoutTag ∧
        (layoutA.mChannelLayoutTag = kAudioChannelLayoutTag_UseChannelBitmap →
          layoutA.mChannelBitmap = layoutB.mChannelBitmap) ∧
        (layoutA.mChannelLayoutTag = kAudioChannelLayoutTag_UseChannelDescriptions →
          layoutA.mNumberChannelDescriptions = layoutB.mNumberChannelDescriptions ∧
            layoutA.descriptionBytes.take
                (layoutA.mNumberChannelDescriptions * sizeof_AudioChannelDescription) =
              layoutB.descriptionBytes.take
                (layoutA.mNumberChannelDescriptions * sizeof_AudioChannelDescription)) := by
  have hne : kAudioChannelLayoutTag_UseChannelBitmap ≠
      kAudioChannelLayoutTag_UseChannelDescriptions := by decide
  unfold channelLayoutsAreEqual memcmp
  by_cases ht : layoutA.mChannelLayoutTag = layoutB.mChannelLayoutTag
  swap
  · rw [if_pos ht]
    exact ⟨fun h => (by cases h), fun h => absurd h.1 ht⟩
  rw [if_neg (fun h => h ht)]
  by_cases hb : kAudioChannelLayoutTag_UseChannelBitmap = layoutA.mChannelLayoutTag
  · rw [if_pos hb, decide_eq_true_eq]
    exact ⟨fun h => ⟨ht, fun _ => h, fun h2 => absurd (hb.trans h2) hne⟩, fun h => h.2.1 hb.symm⟩
  rw [if_neg hb]
  by_cases hd : kAudioChannelLayoutTag_UseChannelDescriptions = layoutA.mChannelLayoutTag
  swap
  · rw [if_neg hd]
    exact ⟨fun _ => ⟨ht, fun h2 => absurd h2.symm hb, fun h2 => absurd h2.symm hd⟩, fun _ => rfl⟩
  rw [if_pos hd]
  by_cases hn : layoutA.mNumberChannelDescriptions = layoutB.mNumberChannelDescriptions
  swap
  · rw [if_pos hn]
    exact ⟨fun h => (by cases h), fun h => absurd (h.2.2 hd.symm).1 hn⟩
  rw [if_neg (fun h => h hn)]
  simp only [decide_eq_true_eq]
  constructor
  · intro h
    refine ⟨ht, fun h2 => absurd h2.symm hb, fun _ => ⟨hn, ?_⟩⟩
    by_contra hc
    rw [if_neg hc] at h
    cases h
  · intro h
    rw [if_pos (h.2.2 hd.symm).2]

/-- C27: `channelLayoutsAreEqual` is an equivalence relation on channel layouts: every layout is
equal to itself, equality of A and B gives equality of B and A, and equality of A and B and of B
and C gives equality of A and C. -/
theorem channelLayoutsAreEqual_equivalence :
    (∀ layoutA : AudioChannelLayout, channelLayoutsAreEqual layoutA layoutA = true) ∧
      (∀ layoutA layoutB : AudioChannelLayout,
        channelLayoutsAreEqual layoutA layoutB = true →
          channelLayoutsAreEqual layoutB layoutA = true) ∧
      (∀ layoutA layoutB layoutC : AudioChannelLayout,
        channelLayoutsAreEqual layoutA layoutB = true →
          channelLayoutsAreEqual layoutB layoutC = true →
            channelLayoutsAreEqual layoutA layoutC = true) := by
  refine ⟨?_, ?_, ?_⟩
  · intro layoutA
    rw [channelLayoutsAreEqual_true]
    exact ⟨rfl, fun _ => rfl, fun _ => ⟨rfl, rfl⟩⟩
  · intro layoutA layoutB h
    rw [channelLayoutsAreEqual_true] at h ⊢
    obtain ⟨ht, hb, hd⟩ := h
    refine ⟨ht.symm, fun h2 => (hb (ht.trans h2)).symm, fun h2 => ?_⟩
    obtain ⟨hn, hbytes⟩ := hd (ht.trans h2)
    exact ⟨hn.symm, by rw [← hn]; exact hbytes.symm⟩
  · intro layoutA layoutB layoutC h1 h2
    rw [channelLayoutsAreEqual_true] at h1 h2 ⊢
    obtain ⟨ht1, hb1, hd1⟩ := h1
    obtain ⟨ht2, hb2, hd2⟩ := h2
    refine ⟨ht1.trans ht2, fun h => (hb1 h).trans (hb2 (ht1.symm.trans h)), fun h => ?_⟩
    obtain ⟨hn1, hbytes1⟩ := hd1 h
    obtain ⟨hn2, hbytes2⟩ := hd2 (ht1.symm.trans h)
    rw [← hn1] at hbytes2
    exact ⟨hn1.trans hn2, hbytes1.trans hbytes2⟩

/-- C27, at concrete inputs: three layouts with the descriptions tag and one description, the
same in the twenty bytes compared, that differ in the bitmap (which this tag does not
compare). -/
theorem channelLayoutsAreEqual_equivalence_witness :
    channelLayoutsAreEqual ⟨kAudioChannelLayoutTag_UseChannelDescriptions, 1, 1, [⟨1, 0, 0, 0, 0⟩]⟩
        ⟨kAudioChannelLayoutTag_UseChannelDescriptions, 2, 1, [⟨1, 0, 0, 0, 0⟩]⟩ = true ∧
      channelLayoutsAreEqual
        ⟨kAudioChannelLayoutTag_UseChannelDescriptions, 2, 1, [⟨1, 0, 0, 0, 0⟩]⟩
        ⟨kAudioChannelLayoutTag_UseChannelDescriptions, 3, 1, [⟨1, 0, 0, 0, 0⟩]⟩ = true ∧
      channelLayoutsAreEqual
        ⟨kAudioChannelLayoutTag_UseChannelDescriptions, 1, 1, [⟨1, 0, 0, 0, 0⟩]⟩
        ⟨kAudioChannelLayoutTag_UseChannelDescriptions, 3, 1, [⟨1, 0, 0, 0, 0⟩]⟩ = true ∧
      channelLayoutsAreEqual
        ⟨kAudioChannelLayoutTag_UseChannelDescriptions, 3, 1, [⟨1, 0, 0, 0, 0⟩]⟩
        ⟨kAudioChannelLayoutTag_UseChannelDescriptions, 1, 1, [⟨1, 0, 0, 0, 0⟩]⟩ = true :=
  ⟨by decide, by decide,
    channelLayoutsAreEqual_equivalence.2.2 _
      ⟨kAudioChannelLayoutTag_UseChannelDescriptions, 2, 1, [⟨1, 0, 0, 0, 0⟩]⟩ _ (by decide)
      (by decide),
    channelLayoutsAreEqual_equivalence.2.1 _ _
      (channelLayoutsAreEqual_equivalence.2.2 _
        ⟨kAudioChannelLayoutTag_UseChannelDescriptions, 2, 1, [⟨1, 0, 0, 0, 0⟩]⟩ _ (by decide)
        (by decide))⟩

/-! ## Decoder creation when decoders open automatically -/

theorem resolve_with_open (handles : SubclassInfo → Bool) (inputSource : InputSourceRef)
    (ks : List SubclassInfo) :
    ∀ rt : Runtime, rt.sAutomaticallyOpenDecoders = true →
      (CreateDecoderForInputSource.resolve handles inputSource ks rt).1 =
          (ks.find? (fun k => handles k && k.opens (rt.inputSources inputSource))).map
            (fun k => Decoder.file k (some inputSource) true) ∧
        (CreateDecoderForInputSource.resolve handles inputSource ks rt).2.inputSources =
          rt.inputSources ∧
        (CreateDecoderForInputSource.resolve handles inputSource ks rt).2.sAutomaticallyOpenDecoders
          = true ∧
        (CreateDecoderForInputSource.resolve handles inputSource ks rt).2.sRegisteredSubclasses =
          rt.sRegisteredSubclasses := by
  induction ks with
  | nil =>
    intro rt hauto
    exact ⟨rfl, rfl, hauto, rfl⟩
  | cons k rest ih =>
    intro rt hauto
    unfold CreateDecoderForInputSource.resolve
    by_cases hk : handles k = true
    · rw [if_pos hk]
      simp only
      rw [if_pos (show rt.AutomaticallyOpenDecoders = true from hauto)]
      unfold SubclassInfo.mCreateDecoder Decoder.Open
      simp only
      by_cases ho : k.opens (rt.inputSources inputSource) = true
      · rw [if_pos ho]
        refine ⟨?_, rfl, hauto, rfl⟩
        rw [List.find?_cons, hk, ho]
        rfl
      · rw [if_neg ho]
        simp only
        have h2 := ih (rt.deleteDecoder (Decoder.file k (some inputSource) false).clearInputSource)
          hauto
        refine ⟨?_, h2.2.1, h2.2.2.1, h2.2.2.2⟩
        rw [h2.1, List.find?_cons]
        have ho2 : k.opens (rt.inputSources inputSource) = false := by simpa using ho
        rw [hk, ho2]
        rfl
    · rw [if_neg hk]
      have h2 := ih rt hauto
      refine ⟨?_, h2.2.1, h2.2.2.1, h2.2.2.2⟩
      rw [h2.1, List.find?_cons]
      have hk2 : handles k = false := by simpa using hk
      rw [hk2]
      rfl

theorem byExtension_with_open (inputSource : InputSourceRef) (rt : Runtime)
    (hauto : rt.sAutomaticallyOpenDecoders = true) :
    (CreateDecoderForInputSource.byExtension inputSource rt).1 =
      (((rt.inputSources inputSource).mURL.bind (fun u => u.pathExtension)).bind
        (fun e => rt.firstKindThatOpens (fun k => k.mHandlesFilesWithExtension e)
          (rt.inputSources inputSource))).map
        (fun k => Decoder.file k (some inputSource) true) := by
  unfold CreateDecoderForInputSource.byExtension Runtime.firstKindThatOpens
  cases hu : (rt.inputSources inputSource).mURL with
  | none => rfl
  | some u =>
    simp only [Option.some_bind]
    cases he : u.pathExtension with
    | none => rfl
    | some e =>
      simp only [Option.some_bind]
      exact (resolve_with_open _ inputSource rt.sRegisteredSubclasses rt hauto).1

theorem inputSource_opened (rt : Runtime) (inputSource : InputSourceRef)
    (hauto : rt.sAutomaticallyOpenDecoders = true)
    (hsrc : (rt.inputSources inputSource).mIsOpen = true ∨
      (rt.inputSources inputSource).opens = true) :
    ∃ rt1, (if rt.AutomaticallyOpenDecoders && !rt.inputSourceIsOpen inputSource
        then rt.inputSourceOpen inputSource else (true, rt)) = (true, rt1) ∧
      rt1.inputSources inputSource = { rt.inputSources inputSource with mIsOpen := true } ∧
      rt1.sAutomaticallyOpenDecoders = true ∧
      rt1.sRegisteredSubclasses = rt.sRegisteredSubclasses := by
  by_cases ho : (rt.inputSources inputSource).mIsOpen = true
  · refine ⟨rt, ?_, ?_, hauto, rfl⟩
    · simp [Runtime.inputSourceIsOpen, ho]
    · cases hs : rt.inputSources inputSource with
      | mk u o c s =>
        rw [hs] at ho
        simp only at ho
        rw [ho]
  · have hopens : (rt.inputSources inputSource).opens = true := hsrc.resolve_left ho
    have ho2 : (rt.inputSources inputSource).mIsOpen = false := by simpa using ho
    refine ⟨{ rt with inputSources := fun r =>
      if r = inputSource then { rt.inputSources inputSource with mIsOpen := true }
      else rt.inputSources r }, ?_, ?_, hauto, rfl⟩
    · simp [Runtime.AutomaticallyOpenDecoders, hauto, Runtime.inputSourceIsOpen, ho2,
        Runtime.inputSourceOpen, hopens]
    · simp

/-- C23: with automatic opening enabled and an input source that is open or can be opened,
`CreateDecoderForInputSource` returns the (open) decoder of the first registered kind that both
handles the MIME type and opens successfully; kinds that handle the MIME type and fail to open
are passed over; when no MIME type is given or no kind both handles it and opens, the result is
the decoder of the first registered kind that both handles the extension of the input source's
URL and opens successfully, and null when there is none. -/
theorem CreateDecoderForInputSource_first_kind_that_opens (rt : Runtime)
    (inputSource : InputSourceRef) (mimeType : Option String)
    (hauto : rt.sAutomaticallyOpenDecoders = true)
    (hsrc : (rt.inputSources inputSource).mIsOpen = true ∨
      (rt.inputSources inputSource).opens = true) :
    (CreateDecoderForInputSource (some inputSource) mimeType rt).1 =
      ((mimeType.bind (fun m => rt.firstKindThatOpens (fun k => k.mHandlesMIMEType m)
          { rt.inputSources inputSource with mIsOpen := true })).orElse
        (fun _ =>
          ((rt.inputSources inputSource).mURL.bind (fun u => u.pathExtension)).bind
            (fun e => rt.firstKindThatOpens (fun k => k.mHandlesFilesWithExtension e)
              { rt.inputSources inputSource with mIsOpen := true }))).map
        (fun k => Decoder.file k (some inputSource) true) := by
  obtain ⟨rt1, e1, hs1, hauto1, hreg1⟩ := inputSource_opened rt inputSource hauto hsrc
  have hext : ∀ rt2 : Runtime, rt2.sAutomaticallyOpenDecoders = true →
      rt2.inputSources = rt1.inputSources →
      rt2.sRegisteredSubclasses = rt1.sRegisteredSubclasses →
      (CreateDecoderForInputSource.byExtension inputSource rt2).1 =
        (((rt.inputSources inputSource).mURL.bind (fun u => u.pathExtension)).bind
          (fun e => rt.firstKindThatOpens (fun k => k.mHandlesFilesWithExtension e)
            { rt.inputSources inputSource with mIsOpen := true })).map
          (fun k => Decoder.file k (some inputSource) true) := by
    intro rt2 ha hi hr
    rw [byExtension_with_open inputSource rt2 ha, hi, hs1]
    unfold Runtime.firstKindThatOpens
    rw [hr, hreg1]
  unfold CreateDecoderForInputSource
  simp only
  rw [e1]
  simp only
  cases mimeType with
  | none =>
    simp only [Option.none_bind, Option.none_orElse]
    exact hext rt1 hauto1 rfl rfl
  | some m =>
    simp only [Option.some_bind]
    have h2 := resolve_with_open (fun k => k.mHandlesMIMEType m) inputSource
      rt1.sRegisteredSubclasses rt1 hauto1
    rcases hy : CreateDecoderForInputSource.resolve (fun k => k.mHandlesMIMEType m)
      inputSource rt1.sRegisteredSubclasses rt1 with ⟨od, rt2⟩
    rw [hy] at h2
    have hfind : rt.firstKindThatOpens (fun k => k.mHandlesMIMEType m)
        { rt.inputSources inputSource with mIsOpen := true } =
        rt1.sRegisteredSubclasses.find?
          (fun k => k.mHandlesMIMEType m && k.opens (rt1.inputSources inputSource)) := by
      unfold Runtime.firstKindThatOpens
      rw [hs1, hreg1]
    rw [hfind]
    cases od with
    | some d =>
      simp only
      have h3 : some d = _ := h2.1
      cases hf : rt1.sRegisteredSubclasses.find?
        (fun k => k.mHandlesMIMEType m && k.opens (rt1.inputSources inputSource)) with
      | none =>
        rw [hf] at h3
        cases h3
      | some k =>
        rw [hf] at h3
        rw [h3]
        rfl
    | none =>
      simp only
      have h3 : none = _ := h2.1
      cases hf : rt1.sRegisteredSubclasses.find?
        (fun k => k.mHandlesMIMEType m && k.opens (rt1.inputSources inputSource)) with
      | some k =>
        rw [hf] at h3
        cases h3
      | none =>
        exact hext rt2 h2.2.2.1 h2.2.1 h2.2.2.2

/-- C23, at concrete inputs, decoders opening automatically and the MIME type "audio/mpeg"
supplied.  First: two kinds handle the MIME type, the one registered first fails to open, and the
decoder of the second is returned.  Second: the only kind that handles the MIME type fails to
open, and the file's extension "ogg" resolves to the Vorbis kind. -/
theorem CreateDecoderForInputSource_first_kind_that_opens_witness :
    (CreateDecoderForInputSource (some 0) (some "audio/mpeg")
        { exampleRuntime [{ streamKind with opens := fun _ => false }, streamKind]
            (some mp3URL) with sAutomaticallyOpenDecoders := true }).1 =
        some (Decoder.file streamKind (some 0) true) ∧
      (CreateDecoderForInputSource (some 0) (some "audio/mpeg")
        { exampleRuntime [{ streamKind with opens := fun _ => false }, vorbisKind]
            (some oggURL) with sAutomaticallyOpenDecoders := true }).1 =
        some (Decoder.file vorbisKind (some 0) true) :=
  ⟨(CreateDecoderForInputSource_first_kind_that_opens
      { exampleRuntime [{ streamKind with opens := fun _ => false }, streamKind]
          (some mp3URL) with sAutomaticallyOpenDecoders := true } 0 (some "audio/mpeg") rfl
      (Or.inr rfl)).trans rfl,
    (CreateDecoderForInputSource_first_kind_that_opens
      { exampleRuntime [{ streamKind with opens := fun _ => false }, vorbisKind]
          (some oggURL) with sAutomaticallyOpenDecoders := true } 0 (some "audio/mpeg") rfl
      (Or.inr rfl)).trans rfl⟩

/-! ## The Musepack metadata kind -/

/-- C26 (the code diverges): the one MIME type that `CreateSupportedMIMETypes` advertises,
"audio/musepack", is rejected by `HandlesMIMEType`, which compares with "audio/mpeg" instead and
accepts that type, which is not advertised.  The extension half of the claim holds: every
advertised extension is handled, in any case of its letters. -/
theorem MusepackMetadata_rejects_advertised_MIME_type :
    MusepackMetadata.CreateSupportedMIMETypes = ["audio/musepack"] ∧
      MusepackMetadata.HandlesMIMEType "audio/musepack" = false ∧
      MusepackMetadata.HandlesMIMEType "audio/mpeg" = true ∧
      "audio/mpeg" ∉ MusepackMetadata.CreateSupportedMIMETypes ∧
      (∀ extension ∈ MusepackMetadata.CreateSupportedFileExtensions,
        MusepackMetadata.HandlesFilesWithExtension extension = true) ∧
      MusepackMetadata.HandlesFilesWithExtension "MPC" = true :=
  ⟨rfl, by decide, by decide, by decide, by decide, by decide⟩

/-! ## Decoder creation: the decoders destroyed when decoders open automatically -/

theorem resolve_destroyed (handles : SubclassInfo → Bool) (inputSource : InputSourceRef)
    (ks : List SubclassInfo) :
    ∀ rt : Runtime, rt.sAutomaticallyOpenDecoders = true →
      (CreateDecoderForInputSource.resolve handles inputSource ks rt).2.destroyed =
        rt.destroyed ++
          ((ks.takeWhile (fun k => !(handles k && k.opens (rt.inputSources inputSource)))).filter
            handles).map (fun k => Decoder.file k none false) := by
  induction ks with
  | nil =>
    intro rt _
    exact (List.append_nil _).symm
  | cons k rest ih =>
    intro rt hauto
    unfold CreateDecoderForInputSource.resolve
    by_cases hk : handles k = true
    · rw [if_pos hk]
      simp only
      rw [if_pos (show rt.AutomaticallyOpenDecoders = true from hauto)]
      unfold SubclassInfo.mCreateDecoder Decoder.Open
      simp only
      by_cases ho : k.opens (rt.inputSources inputSource) = true
      · rw [if_pos ho]
        simp [List.takeWhile_cons, hk, ho]
      · rw [if_neg ho]
        simp only
        have ho2 : k.opens (rt.inputSources inputSource) = false := by simpa using ho
        rw [ih (rt.deleteDecoder (Decoder.file k (some inputSource) false).clearInputSource)
          hauto]
        simp [List.takeWhile_cons, hk, ho2, Runtime.deleteDecoder, Decoder.clearInputSource]
    · rw [if_neg hk]
      have hk2 : handles k = false := by simpa using hk
      rw [ih rt hauto]
      simp [List.takeWhile_cons, hk2]

theorem byExtension_destroyed (inputSource : InputSourceRef) (rt : Runtime)
    (hauto : rt.sAutomaticallyOpenDecoders = true) :
    (CreateDecoderForInputSource.byExtension inputSource rt).2.destroyed =
      rt.destroyed ++
        match (rt.inputSources inputSource).mURL.bind (fun u => u.pathExtension) with
        | some e =>
          rt.failedToOpen (fun k => k.mHandlesFilesWithExtension e) (rt.inputSources inputSource)
        | none => [] := by
  unfold CreateDecoderForInputSource.byExtension Runtime.failedToOpen
  cases hu : (rt.inputSources inputSource).mURL with
  | none => simp
  | some u =>
    simp only [Option.some_bind]
    cases he : u.pathExtension with
    | none => simp
    | some e =>
      simp only
      exact resolve_destroyed _ inputSource rt.sRegisteredSubclasses rt hauto

theorem inputSource_opened_destroyed (rt : Runtime) (inputSource : InputSourceRef) (b : Bool)
    (rt1 : Runtime)
    (h : (if rt.AutomaticallyOpenDecoders && !rt.inputSourceIsOpen inputSource
      then rt.inputSourceOpen inputSource else (true, rt)) = (b, rt1)) :
    rt1.destroyed = rt.destroyed := by
  split at h
  · unfold Runtime.inputSourceOpen at h
    split at h <;> cases h <;> rfl
  · cases h
    rfl

theorem inputSource_not_opened (rt : Runtime) (inputSource : InputSourceRef)
    (hauto : rt.sAutomaticallyOpenDecoders = true)
    (hsrc : ¬ ((rt.inputSources inputSource).mIsOpen = true ∨
      (rt.inputSources inputSource).opens = true)) :
    (if rt.AutomaticallyOpenDecoders && !rt.inputSourceIsOpen inputSource
      then rt.inputSourceOpen inputSource else (true, rt)) = (false, rt) := by
  have h1 : (rt.inputSources inputSource).mIsOpen = false := by
    cases h : (rt.inputSources inputSource).mIsOpen
    · rfl
    · exact absurd (Or.inl h) hsrc
  have h2 : (rt.inputSources inputSource).opens = false := by
    cases h : (rt.inputSources inputSource).opens
    · rfl
    · exact absurd (Or.inr h) hsrc
  simp [Runtime.AutomaticallyOpenDecoders, hauto, Runtime.inputSourceIsOpen, h1,
    Runtime.inputSourceOpen, h2]

theorem CreateDecoderForInputSource_destroyed (rt : Runtime) (inputSource : InputSourceRef)
    (mimeType : Option String) (hauto : rt.sAutomaticallyOpenDecoders = true)
    (hsrc : (rt.inputSources inputSource).mIsOpen = true ∨
      (rt.inputSources inputSource).opens = true) :
    (CreateDecoderForInputSource (some inputSource) mimeType rt).2.destroyed =
      rt.destroyed ++
        (match mimeType with
          | some m =>
            rt.failedToOpen (fun k => k.mHandlesMIMEType m)
              { rt.inputSources inputSource with mIsOpen := true }
          | none => []) ++
        (if (mimeType.bind (fun m => rt.firstKindThatOpens (fun k => k.mHandlesMIMEType m)
            { rt.inputSources inputSource with mIsOpen := true })).isSome = true then []
          else
            match (rt.inputSources inputSource).mURL.bind (fun u => u.pathExtension) with
            | some e =>
              rt.failedToOpen (fun k => k.mHandlesFilesWithExtension e)
                { rt.inputSources inputSource with mIsOpen := true }
            | none => []) := by
  obtain ⟨rt1, e1, hs1, hauto1, hreg1⟩ := inputSource_opened rt inputSource hauto hsrc
  have hd1 : rt1.destroyed = rt.destroyed := inputSource_opened_destroyed rt inputSource _ _ e1
  have hext : ∀ rt2 : Runtime, rt2.sAutomaticallyOpenDecoders = true →
      rt2.inputSources = rt1.inputSources →
      rt2.sRegisteredSubclasses = rt1.sRegisteredSubclasses →
      (CreateDecoderForInputSource.byExtension inputSource rt2).2.destroyed =
        rt2.destroyed ++
          match (rt.inputSources inputSource).mURL.bind (fun u => u.pathExtension) with
          | some e =>
            rt.failedToOpen (fun k => k.mHandlesFilesWithExtension e)
              { rt.inputSources inputSource with mIsOpen := true }
          | none => [] := by
    intro rt2 ha hi hr
    rw [byExtension_destroyed inputSource rt2 ha, hi, hs1]
    unfold Runtime.failedToOpen
    rw [hr, hreg1]
  unfold CreateDecoderForInputSource
  simp only
  rw [e1]
  simp only
  cases mimeType with
  | none =>
    simp only [Option.none_bind, Option.isSome_none, Bool.false_eq_true, if_false,
      List.append_nil]
    rw [hext rt1 hauto1 rfl rfl, hd1]
  | some m =>
    simp only [Option.some_bind]
    have h2 := resolve_with_open (fun k => k.mHandlesMIMEType m) inputSource
      rt1.sRegisteredSubclasses rt1 hauto1
    have h3 := resolve_destroyed (fun k => k.mHandlesMIMEType m) inputSource
      rt1.sRegisteredSubclasses rt1 hauto1
    rcases hy : CreateDecoderForInputSource.resolve (fun k => k.mHandlesMIMEType m)
      inputSource rt1.sRegisteredSubclasses rt1 with ⟨od, rt2⟩
    rw [hy] at h2 h3
    have hfind : rt.firstKindThatOpens (fun k => k.mHandlesMIMEType m)
        { rt.inputSources inputSource with mIsOpen := true } =
        rt1.sRegisteredSubclasses.find?
          (fun k => k.mHandlesMIMEType m && k.opens (rt1.inputSources inputSource)) := by
      unfold Runtime.firstKindThatOpens
      rw [hs1, hreg1]
    have hfail : rt.failedToOpen (fun k => k.mHandlesMIMEType m)
        { rt.inputSources inputSource with mIsOpen := true } =
        ((rt1.sRegisteredSubclasses.takeWhile
          (fun k => !(k.mHandlesMIMEType m && k.opens (rt1.inputSources inputSource)))).filter
            (fun k => k.mHandlesMIMEType m)).map (fun k => Decoder.file k none false) := by
      unfold Runtime.failedToOpen
      rw [hs1, hreg1]
    have h3b : rt2.destroyed = rt1.destroyed ++ rt.failedToOpen (fun k => k.mHandlesMIMEType m)
        { rt.inputSources inputSource with mIsOpen := true } := by
      rw [hfail]
      exact h3
    cases od with
    | some d =>
      simp only
      have h4 : some d = _ := h2.1
      have hsome : (rt.firstKindThatOpens (fun k => k.mHandlesMIMEType m)
          { rt.inputSources inputSource with mIsOpen := true }).isSome = true := by
        rw [hfind]
        cases hf : rt1.sRegisteredSubclasses.find?
          (fun k => k.mHandlesMIMEType m && k.opens (rt1.inputSources inputSource)) with
        | none =>
          rw [hf] at h4
          cases h4
        | some k => rfl
      rw [if_pos hsome, List.append_nil, h3b, hd1]
    | none =>
      simp only
      have h4 : none = _ := h2.1
      have hnone : ¬ ((rt.firstKindThatOpens (fun k => k.mHandlesMIMEType m)
          { rt.inputSources inputSource with mIsOpen := true }).isSome = true) := by
        rw [hfind]
        cases hf : rt1.sRegisteredSubclasses.find?
          (fun k => k.mHandlesMIMEType m && k.opens (rt1.inputSources inputSource)) with
        | some k =>
          rw [hf] at h4
          cases h4
        | none => simp
      rw [if_neg hnone, hext rt2 h2.2.2.1 h2.2.1 h2.2.2.2, h3b, hd1]

/-- C11: with automatic opening enabled, a decoder returned by `CreateDecoderForInputSource` is
open, whether the MIME type or the extension resolved it, and every decoder whose `Open` failed
is destroyed inside the helper and is not the one returned: when the input source is open or can
be opened, the decoders destroyed are exactly those of `failedToOpen` for the MIME stage,
followed, when that stage returns none, by those of `failedToOpen` for the extension stage, one
for each kind that handled the key and did not open; when the input source cannot be opened, no
decoder is built, none is destroyed and null is returned. -/
theorem CreateDecoderForInputSource_returns_open (rt : Runtime) (inputSource : InputSourceRef)
    (mimeType : Option String) (hauto : rt.sAutomaticallyOpenDecoders = true) :
    (∀ d, (CreateDecoderForInputSource (some inputSource) mimeType rt).1 = some d →
        d.IsOpen = true) ∧
      (∃ ds, (CreateDecoderForInputSource (some inputSource) mimeType rt).2.destroyed =
          rt.destroyed ++ ds ∧
        ∀ d ∈ ds, d.IsOpen = false ∧
          (CreateDecoderForInputSource (some inputSource) mimeType rt).1 ≠ some d) ∧
      (((rt.inputSources inputSource).mIsOpen = true ∨
          (rt.inputSources inputSource).opens = true) →
        (CreateDecoderForInputSource (some inputSource) mimeType rt).2.destroyed =
          rt.destroyed ++
            (match mimeType with
              | some m =>
                rt.failedToOpen (fun k => k.mHandlesMIMEType m)
                  { rt.inputSources inputSource with mIsOpen := true }
              | none => []) ++
            (if (mimeType.bind (fun m => rt.firstKindThatOpens (fun k => k.mHandlesMIMEType m)
                { rt.inputSources inputSource with mIsOpen := true })).isSome = true then []
              else
                match (rt.inputSources inputSource).mURL.bind (fun u => u.pathExtension) with
                | some e =>
                  rt.failedToOpen (fun k => k.mHandlesFilesWithExtension e)
                    { rt.inputSources inputSource with mIsOpen := true }
                | none => [])) ∧
      (¬ ((rt.inputSources inputSource).mIsOpen = true ∨
          (rt.inputSources inputSource).opens = true) →
        (CreateDecoderForInputSource (some inputSource) mimeType rt).1 = none ∧
          (CreateDecoderForInputSource (some inputSource) mimeType rt).2.destroyed =
            rt.destroyed) := by
  refine ⟨(CreateDecoderForInputSource_opened rt inputSource mimeType hauto).1,
    (CreateDecoderForInputSource_opened rt inputSource mimeType hauto).2,
    CreateDecoderForInputSource_destroyed rt inputSource mimeType hauto, ?_⟩
  intro hsrc
  unfold CreateDecoderForInputSource
  simp only
  rw [inputSource_not_opened rt inputSource hauto hsrc]
  exact ⟨rfl, rfl⟩

/-- C11, at a concrete input: decoders open automatically, two kinds handle "mp3", the first
fails to open and the second opens; the second kind's decoder is returned, open, and the decoder
of the first kind, detached and closed, is the one decoder destroyed. -/
theorem CreateDecoderForInputSource_returns_open_witness :
    ((CreateDecoderForInputSource (some 0) none
        { exampleRuntime [{ streamKind with opens := fun _ => false }, streamKind]
            (some mp3URL) with sAutomaticallyOpenDecoders := true }).1.map Decoder.IsOpen) =
        some true ∧
      (CreateDecoderForInputSource (some 0) none
        { exampleRuntime [{ streamKind with opens := fun _ => false }, streamKind]
            (some mp3URL) with sAutomaticallyOpenDecoders := true }).2.destroyed =
        [Decoder.file { streamKind with opens := fun _ => false } none false] ∧
      ∀ d, (CreateDecoderForInputSource (some 0) none
        { exampleRuntime [{ streamKind with opens := fun _ => false }, streamKind]
            (some mp3URL) with sAutomaticallyOpenDecoders := true }).1 = some d →
        d.IsOpen = true :=
  ⟨by decide,
    ((CreateDecoderForInputSource_returns_open
      { exampleRuntime [{ streamKind with opens := fun _ => false }, streamKind]
          (some mp3URL) with sAutomaticallyOpenDecoders := true } 0 none rfl).2.2.1
      (Or.inr rfl)).trans rfl,
    (CreateDecoderForInputSource_returns_open
      { exampleRuntime [{ streamKind with opens := fun _ => false }, streamKind]
          (some mp3URL) with sAutomaticallyOpenDecoders := true } 0 none rfl).1⟩

/-! ## `Stop` and `Pause` under any answer to `AUGraphStop` -/

theorem call_status (p : AudioPlayer) (c : AUCall) (eff : AUGraph → AUGraph) (s : OSStatus)
    (h : p.hal p.calls.length = s) :
    p.call c eff =
      (s, { p with
        calls := p.calls ++ [(c, s)],
        mAUGraph := if s = noErr then eff p.mAUGraph else p.mAUGraph }) := by
  unfold AudioPlayer.call
  subst h
  by_cases hs : p.hal p.calls.length = noErr
  · rw [if_neg (fun e => e hs.symm), if_pos hs]
  · rw [if_pos (fun e => hs e.symm), if_neg hs]

theorem Pause_of_query_ok (p : AudioPlayer) (s : OSStatus)
    (h0 : p.hal p.calls.length = noErr)
    (h1 : p.mAUGraph.isRunning = true → p.hal (p.calls.length + 1) = s) :
    Pause p =
      if p.mAUGraph.isRunning = true then
        { p with
          calls := p.calls ++ [(.AUGraphIsRunning, noErr), (.AUGraphStop, s)],
          mAUGraph := if s = noErr then { p.mAUGraph with isRunning := false } else p.mAUGraph }
      else { p with calls := p.calls ++ [(.AUGraphIsRunning, noErr)] } := by
  unfold Pause
  rw [IsPlaying_ok p h0]
  cases hr : p.mAUGraph.isRunning with
  | false => simp
  | true =>
    simp only [if_true]
    unfold AUGraphStop
    rw [call_status ({ p with calls := p.calls ++ [(AUCall.AUGraphIsRunning, noErr)] } :
      AudioPlayer) _ _ s (by simpa using h1 hr)]
    simp [hr]

theorem Stop_of_query_ok (p : AudioPlayer) (s : OSStatus)
    (h0 : p.hal p.calls.length = noErr)
    (h1 : p.mAUGraph.isRunning = true → p.hal (p.calls.length + 1) = noErr)
    (h2 : p.mAUGraph.isRunning = true → p.hal (p.calls.length + 2) = s) :
    Stop p =
      if p.mAUGraph.isRunning = true then
        { p with
          calls := p.calls ++
            [(.AUGraphIsRunning, noErr), (.AUGraphIsRunning, noErr), (.AUGraphStop, s)],
          mAUGraph := if s = noErr then { p.mAUGraph with isRunning := false } else p.mAUGraph }
      else { p with calls := p.calls ++ [(.AUGraphIsRunning, noErr)] } := by
  unfold Stop
  rw [IsPlaying_ok p h0]
  cases hr : p.mAUGraph.isRunning with
  | false => simp
  | true =>
    simp only [if_true]
    rw [Pause_of_query_ok ({ p with calls := p.calls ++ [(AUCall.AUGraphIsRunning, noErr)] } :
      AudioPlayer) s (by simpa using h1 hr) (fun _ => by simpa [Nat.add_assoc] using h2 hr)]
    simp [hr]

/-- C17 (the claim fails): on the running player, when the toolbox fails the run-state query,
neither `Pause` nor `Stop` issues an `AUGraphStop`, and the graph keeps running; and when the
toolbox fails its third call only, which is the `AUGraphStop` of `Stop` while `Pause` has issued
its two calls by then, `Stop` leaves the graph running and `Pause` leaves it stopped. -/
theorem Stop_and_Pause_when_a_call_fails :
    playingGraph.isRunning = true ∧
      (playingPlayer (failingAt 0 (-10860))).stateChanges
          (Pause (playingPlayer (failingAt 0 (-10860)))) = [] ∧
      (playingPlayer (failingAt 0 (-10860))).stateChanges
          (Stop (playingPlayer (failingAt 0 (-10860)))) = [] ∧
      (Pause (playingPlayer (failingAt 0 (-10860)))).mAUGraph.isRunning = true ∧
      (Stop (playingPlayer (failingAt 0 (-10860)))).mAUGraph.isRunning = true ∧
      (Stop (playingPlayer (failingAt 2 (-10860)))).mAUGraph.isRunning = true ∧
      (Pause (playingPlayer (failingAt 2 (-10860)))).mAUGraph.isRunning = false :=
  ⟨by decide, by decide, by decide, by decide, by decide, by decide, by decide⟩

/-- C17 (amended): take a player state and let `Stop` and `Pause` each run on it with a toolbox
that answers the run-state queries with `noErr` and answers `AUGraphStop` with the same status
`status`, whatever it is.  Then both leave the same player but for the log (`Stop` asks once
more whether the graph is running): the state-changing calls of either are one `AUGraphStop`
when the graph is running and none when it is not, the graph is stopped when it was running and
`AUGraphStop` succeeded and is as it was otherwise, and `Stop` resets neither a counter nor the
format. -/
theorem Stop_same_as_Pause (p : AudioPlayer) (halStop halPause : Nat → OSStatus)
    (status : OSStatus)
    (hquery : halStop p.calls.length = noErr ∧ halPause p.calls.length = noErr)
    (hagain : p.mAUGraph.isRunning = true → halStop (p.calls.length + 1) = noErr)
    (hstop : p.mAUGraph.isRunning = true →
      halStop (p.calls.length + 2) = status ∧ halPause (p.calls.length + 1) = status) :
    { Stop { p with hal := halStop } with hal := p.hal, calls := p.calls } =
        { Pause { p with hal := halPause } with hal := p.hal, calls := p.calls } ∧
      p.stateChanges (Stop { p with hal := halStop }) =
        (if p.mAUGraph.isRunning = true then [(.AUGraphStop, status)] else []) ∧
      p.stateChanges (Pause { p with hal := halPause }) =
        (if p.mAUGraph.isRunning = true then [(.AUGraphStop, status)] else []) ∧
      (Stop { p with hal := halStop }).mAUGraph =
        (if p.mAUGraph.isRunning = true ∧ status = noErr then
          { p.mAUGraph with isRunning := false } else p.mAUGraph) ∧
      (Stop { p with hal := halStop }).mFramesRendered = p.mFramesRendered ∧
      (Stop { p with hal := halStop }).mFramesDecoded = p.mFramesDecoded ∧
      (Stop { p with hal := halStop }).mAUGraphFormat = p.mAUGraphFormat := by
  have eS := Stop_of_query_ok { p with hal := halStop } status hquery.1 hagain
    (fun h => (hstop h).1)
  have eP := Pause_of_query_ok { p with hal := halPause } status hquery.2
    (fun h => (hstop h).2)
  refine ⟨?_, ?_, ?_, ?_, (Stop_frame { p with hal := halStop }).framesRendered,
    (Stop_frame { p with hal := halStop }).framesDecoded,
    (Stop_frame { p with hal := halStop }).format⟩
  · rw [eS, eP]
    simp only
    split <;> rfl
  · rw [eS]
    unfold AudioPlayer.stateChanges AudioPlayer.newCalls
    simp only
    split <;> simp [AUCall.isQuery]
  · rw [eP]
    unfold AudioPlayer.stateChanges AudioPlayer.newCalls
    simp only
    split <;> simp [AUCall.isQuery]
  · rw [eS]
    simp only
    cases hr : p.mAUGraph.isRunning with
    | false => simp
    | true =>
      by_cases hs : status = noErr
      · simp [hs]
      · simp [hs]

/-- C17 (amended), at concrete inputs: the running player, first with every call succeeding,
then with `AUGraphStop` answered with the status -10860 in both runs (the third call of `Stop`,
the second of `Pause`); in the second case either issues its one `AUGraphStop` and the graph
keeps running. -/
theorem Stop_same_as_Pause_witness :
    ((playingPlayer (fun _ => noErr)).stateChanges (Stop (playingPlayer (fun _ => noErr))) =
        [(.AUGraphStop, noErr)] ∧
      (playingPlayer (fun _ => noErr)).stateChanges (Pause (playingPlayer (fun _ => noErr))) =
        [(.AUGraphStop, noErr)] ∧
      (Stop (playingPlayer (fun _ => noErr))).mAUGraph.isRunning = false) ∧
      ((playingPlayer (fun _ => noErr)).stateChanges
          (Stop (playingPlayer (failingAt 2 (-10860)))) = [(.AUGraphStop, -10860)] ∧
        (playingPlayer (fun _ => noErr)).stateChanges
          (Pause (playingPlayer (failingAt 1 (-10860)))) = [(.AUGraphStop, -10860)] ∧
        (Stop (playingPlayer (failingAt 2 (-10860)))).mAUGraph = playingGraph ∧
        (Pause (playingPlayer (failingAt 1 (-10860)))).mAUGraph = playingGraph) :=
  have h := Stop_same_as_Pause (playingPlayer (fun _ => noErr)) (fun _ => noErr)
    (fun _ => noErr) noErr ⟨rfl, rfl⟩ (fun _ => rfl) (fun _ => ⟨rfl, rfl⟩)
  have h2 := Stop_same_as_Pause (playingPlayer (fun _ => noErr)) (failingAt 2 (-10860))
    (failingAt 1 (-10860)) (-10860) ⟨rfl, rfl⟩ (fun _ => rfl) (fun _ => ⟨rfl, rfl⟩)
  ⟨⟨h.2.1, h.2.2.1, by decide⟩, h2.2.1, h2.2.2.1, by decide, by decide⟩

end SFB
